import Mathlib

/-!
# Motor mixer (`src/main/flight/mixer.c`): shallow embedding

The C translation unit is embedded as pure functions over an explicit engine
state.  Conventions:

* C `int` values are mathematical integers (`Int`); every store into an
  `int16_t` object goes through `toInt16` (two's complement wrap).
* C `float` values are rationals; every floating point operation rounds its
  exact result with `binary32` (round to nearest, ties to even, 24 bit
  significand, gradual underflow to multiples of `2^-149` below `2^-126`).
  Overflow is not modelled: an exact result beyond the largest finite number
  is rounded to 24 bits and kept, where the program has an infinity or a NaN.
  In this file such a result can arise only in the products and sums of
  `rpyMixValue` and in the throttle product of `clampedCommand`, whose values
  are converted to an integer type at once, a conversion that C leaves
  undefined for every value outside the range of the integer type.  Fused
  multiply-add contraction is not modelled.
* A conversion from `float` to an integer type truncates toward zero
  (`truncQ`); a conversion from an integer type to `float` is exact, the
  integers converted here being sums and products of 16 bit values.
* Arrays are total functions on indices; loops are `forLoop`.
* A store into the `uint8_t` counter `motorCount` goes through `toUInt8`.
* A call that dereferences a null pointer has no result: such a function returns
  `none`.  Division of floats by zero is not modelled as a fault; the rational
  quotient is 0 there, and the condition is stated separately
  (`scaleDownPerformed`, `mixReductionDivisor`).
* Configuration accessors (`motorConfig()`, `flight3DConfig()`, `rxConfig()`,
  `rcControlsConfig()`, `mixerConfig()`, `feature(...)`) and build constants
  are fields of `Config`; per-tick collaborator signals are fields of `Inputs`.
-/

namespace Mixer

/-! ## Machine arithmetic -/

/-- Value stored by an assignment to an `int16_t` object. -/
def toInt16 (x : Int) : Int := (x + 32768) % 65536 - 32768

/-- Values representable in `int16_t`. -/
def IsInt16 (x : Int) : Prop := -32768 ≤ x ∧ x ≤ 32767

instance (x : Int) : Decidable (IsInt16 x) :=
  inferInstanceAs (Decidable (-32768 ≤ x ∧ x ≤ 32767))

/-- Values of a `uint16_t` configuration field that survive a store into an
`int16_t` variable unchanged. -/
def IsPwm (x : Int) : Prop := 0 ≤ x ∧ x ≤ 32767

instance (x : Int) : Decidable (IsPwm x) :=
  inferInstanceAs (Decidable (0 ≤ x ∧ x ≤ 32767))

/-- Conversion of a `float` to an integer type: truncation toward zero. -/
def truncQ (q : ℚ) : Int := if 0 ≤ q then ⌊q⌋ else ⌈q⌉

/-- Binary logarithm with explicit fuel: `bitLog fuel n` is `⌊log₂ n⌋` as soon as
`n ≤ fuel`. -/
def bitLog : Nat → Nat → Nat
  | 0, _ => 0
  | fuel + 1, n => if 2 ≤ n then bitLog fuel (n / 2) + 1 else 0

/-- Floor of the binary logarithm of a positive natural number. -/
def natLog2 (n : Nat) : Nat := bitLog n n

/-- Binade exponent of a non-zero rational: the `e` with `2^e ≤ |q| < 2^(e+1)`. -/
def ilog2 (q : ℚ) : Int :=
  let e0 : Int := (natLog2 q.num.natAbs : Int) - (natLog2 q.den : Int)
  if (2 : ℚ) ^ e0 ≤ |q| then e0 else e0 - 1

/-- Nearest integer, ties to the even one. -/
def roundEven (z : ℚ) : Int :=
  let f : Int := ⌊z⌋
  let r : ℚ := z - f
  if r < 1 / 2 then f
  else if 1 / 2 < r then f + 1
  else if f % 2 = 0 then f else f + 1

/-- Rounding of an exact result to IEEE 754 single precision, round to nearest with
ties to even: the result is a multiple of `2^(e - 23)`, where `2^e` is the binade of
`q` in the normal range (`e ≥ -126`) and `e = -126` below it (subnormal numbers are
the multiples of `2^-149`).  A result of magnitude `2^128` or more, an infinity in
IEEE arithmetic, is not treated specially. -/
def binary32 (q : ℚ) : ℚ :=
  if q = 0 then 0
  else
    let u : ℚ := (2 : ℚ) ^ (max (ilog2 q) (-126) - 23)
    (roundEven (q / u) : ℚ) * u

/-- Float product `a * b`. -/
def fmul (a b : ℚ) : ℚ := binary32 (a * b)

/-- Float quotient `a / b`. -/
def fdiv (a b : ℚ) : ℚ := binary32 (a / b)

/-- Float sum `a + b`. -/
def fadd (a b : ℚ) : ℚ := binary32 (a + b)

/-- Float difference `a - b`. -/
def fsub (a b : ℚ) : ℚ := binary32 (a - b)

/-- The literal `0.33f` (`THROTTLE_CLIPPING_FACTOR`): the single precision
number nearest to 33/100. -/
def THROTTLE_CLIPPING_FACTOR : ℚ := 11072963 / 33554432

/-- Modelled from the spec: `constrain` of `common/maths.h`, which is not part
of the source excerpt; the spec calls it "clamp to `[low, high]`". -/
def constrain (amt low high : Int) : Int :=
  if amt < low then low else if amt > high then high else amt

/-- Modelled from the spec: the macro `ABS` of `common/maths.h` (absolute
value, written `|rawYawStick|` in the spec). -/
def ABS (x : Int) : Int := if x > 0 then x else -x

/-- Modelled from the spec: the macro `MIN`, at type `float`. -/
def MINf (a b : ℚ) : ℚ := if a < b then a else b

/-- Modelled from the spec: the macro `MAX`, at type `float`. -/
def MAXf (a b : ℚ) : ℚ := if a > b then a else b

/-- A counted loop `for (int i = 0; i < n; i++) body`. -/
def forLoop {σ : Type} (body : Nat → σ → σ) : Nat → σ → σ
  | 0, s => s
  | n + 1, s => body n (forLoop body n s)

/-! ## Data model -/

/-- One row of a mixer table (`motorMixer_t`). -/
structure motorMixer_t where
  throttle : ℚ
  roll : ℚ
  pitch : ℚ
  yaw : ℚ
deriving DecidableEq

/-- Configuration and build constants read by the mixer. -/
structure Config where
  /-- Build constant: size of the motor arrays. -/
  MAX_SUPPORTED_MOTORS : Nat
  /-- Build constant of `flight/mixer.h`. -/
  YAW_JUMP_PREVENTION_LIMIT_HIGH : Int
  /-- Field of `motorConfig()`. -/
  minthrottle : Int
  /-- Field of `motorConfig()`. -/
  maxthrottle : Int
  /-- Field of `motorConfig()`. -/
  mincommand : Int
  /-- Field of `flight3DConfig()`. -/
  deadband3d_low : Int
  /-- Field of `flight3DConfig()`. -/
  deadband3d_high : Int
  /-- Field of `flight3DConfig()`. -/
  neutral3d : Int
  /-- Field of `rxConfig()`. -/
  midrc : Int
  /-- Field of `rxConfig()`. -/
  mincheck : Int
  /-- Field of `rcControlsConfig()`. -/
  deadband3d_throttle : Int
  /-- Field of `mixerConfig()`. -/
  yaw_motor_direction : Int
  /-- Field of `mixerConfig()`. -/
  yaw_jump_prevention_limit : Int
  /-- Result of `feature(FEATURE_3D)`. -/
  feature3D : Bool
  /-- Result of `feature(FEATURE_MOTOR_STOP)`. -/
  featureMotorStop : Bool

/-- Signals read by one `mixTable` tick. -/
structure Inputs where
  /-- Entry `rcCommand[ROLL]`. -/
  rcCommandRoll : Int
  /-- Entry `rcCommand[PITCH]`. -/
  rcCommandPitch : Int
  /-- Entry `rcCommand[YAW]`. -/
  rcCommandYaw : Int
  /-- Entry `rcCommand[THROTTLE]`. -/
  rcCommandThrottle : Int
  /-- Entry `axisPID[ROLL]`. -/
  axisPIDRoll : Int
  /-- Entry `axisPID[PITCH]`. -/
  axisPIDPitch : Int
  /-- Entry `axisPID[YAW]`. -/
  axisPIDYaw : Int
  /-- Entry `rcData[THROTTLE]`. -/
  rcDataThrottle : Int
  /-- Result of `ARMING_FLAG(ARMED)`. -/
  armed : Bool
  /-- Result of `STATE(FIXED_WING)`. -/
  fixedWing : Bool
  /-- Result of `FLIGHT_MODE(MANUAL_MODE)`. -/
  manualMode : Bool
  /-- Result of `failsafeIsActive()`. -/
  failsafeIsActive : Bool
  /-- Result of `failsafeRequiresMotorStop()`. -/
  failsafeRequiresMotorStop : Bool
  /-- Result of `STATE(NAV_MOTOR_STOP_OR_IDLE)`. -/
  navMotorStopOrIdle : Bool
  /-- Result of `navigationIsFlyingAutonomousMode()`. -/
  navigationIsFlyingAutonomousMode : Bool

/-- File-scope and function-static objects of `mixer.c`. -/
structure State where
  /-- Number of active motors (`static uint8_t motorCount`). -/
  motorCount : Nat
  /-- Active coefficient table (`currentMixer`). -/
  currentMixer : Nat → motorMixer_t
  /-- Motor commands (`int16_t motor[]`). -/
  motor : Nat → Int
  /-- Commands used while disarmed (`int16_t motor_disarmed[]`). -/
  motor_disarmed : Nat → Int
  /-- Saturation flag (`static bool motorLimitReached`). -/
  motorLimitReached : Bool
  /-- Function-static `throttlePrevious` of `mixTable`. -/
  throttlePrevious : Int

/-- Roll, pitch and yaw demand used for mixing (the local `input[3]`). -/
structure AxisInput where
  roll : Int
  pitch : Int
  yaw : Int
deriving DecidableEq

/-- Locals written by the first loop of `mixTable`. -/
structure RpyAcc where
  rpyMix : Nat → Int
  rpyMixMax : Int
  rpyMixMin : Int

/-- Locals chosen by the throttle band selection of `mixTable`, together with
the new value of the static `throttlePrevious`. -/
structure Band where
  throttleMin : Int
  throttleMax : Int
  throttleCommand : Int
  throttlePrevious : Int
deriving DecidableEq

/-- Locals and flag after the saturation block of `mixTable`. -/
structure Headroom where
  rpyMix : Nat → Int
  throttleMin : Int
  throttleMax : Int
  motorLimitReached : Bool

/-! ## Operations -/

/-- Source `mixerIsOutputSaturated` (lines 294-297). -/
def mixerIsOutputSaturated (st : State) : Bool := st.motorLimitReached

/-- Source `mixerResetDisarmedMotors` (lines 384-390). -/
def mixerResetDisarmedMotors (cfg : Config) (st : State) : State :=
  { st with
    motor_disarmed :=
      forLoop
        (fun i a =>
          Function.update a i
            (toInt16 (if cfg.feature3D then cfg.neutral3d else cfg.mincommand)))
        cfg.MAX_SUPPORTED_MOTORS st.motor_disarmed }

/-- Axis input selection of `mixTable` (lines 422-439). -/
def mixInput (cfg : Config) (inp : Inputs) (motorCount : Nat) : AxisInput :=
  if inp.fixedWing && inp.manualMode then
    { roll := inp.rcCommandRoll, pitch := inp.rcCommandPitch, yaw := inp.rcCommandYaw }
  else
    { roll := inp.axisPIDRoll
      pitch := inp.axisPIDPitch
      yaw :=
        if motorCount ≥ 4 ∧
            cfg.yaw_jump_prevention_limit < cfg.YAW_JUMP_PREVENTION_LIMIT_HIGH then
          toInt16 (constrain inp.axisPIDYaw
            (-cfg.yaw_jump_prevention_limit - ABS inp.rcCommandYaw)
            (cfg.yaw_jump_prevention_limit + ABS inp.rcCommandYaw))
        else inp.axisPIDYaw }

/-- Value assigned to `rpyMix[i]` at lines 448-451. -/
def rpyMixValue (cfg : Config) (input : AxisInput) (m : motorMixer_t) : Int :=
  toInt16 (truncQ
    (fadd (fadd (fmul input.pitch m.pitch) (fmul input.roll m.roll))
      (fmul ((-cfg.yaw_motor_direction * input.yaw : Int) : ℚ) m.yaw)))

/-- Body of the loop at lines 447-455. -/
def rpyMixBody (cfg : Config) (input : AxisInput) (currentMixer : Nat → motorMixer_t)
    (i : Nat) (a : RpyAcc) : RpyAcc :=
  let v := rpyMixValue cfg input (currentMixer i)
  { rpyMix := Function.update a.rpyMix i v
    rpyMixMax := if v > a.rpyMixMax then v else a.rpyMixMax
    rpyMixMin := if v < a.rpyMixMin then v else a.rpyMixMin }

/-- Locals after the loop at lines 442-455. -/
def mixTableRpy (cfg : Config) (inp : Inputs) (st : State) : RpyAcc :=
  forLoop (rpyMixBody cfg (mixInput cfg inp st.motorCount) st.currentMixer) st.motorCount
    { rpyMix := fun _ => 0, rpyMixMax := 0, rpyMixMin := 0 }

/-- Throttle band selection of `mixTable` (lines 462-485). -/
def throttleBand (cfg : Config) (inp : Inputs) (throttlePrevious : Int) : Band :=
  if cfg.feature3D then
    let prev : Int := if !inp.armed then toInt16 cfg.midrc else throttlePrevious
    if inp.rcCommandThrottle ≤ cfg.midrc - cfg.deadband3d_throttle then
      { throttleMax := toInt16 cfg.deadband3d_low
        throttleMin := toInt16 cfg.minthrottle
        throttleCommand := inp.rcCommandThrottle
        throttlePrevious := inp.rcCommandThrottle }
    else if inp.rcCommandThrottle ≥ cfg.midrc + cfg.deadband3d_throttle then
      { throttleMax := toInt16 cfg.maxthrottle
        throttleMin := toInt16 cfg.deadband3d_high
        throttleCommand := inp.rcCommandThrottle
        throttlePrevious := inp.rcCommandThrottle }
    else if prev ≤ cfg.midrc - cfg.deadband3d_throttle then
      { throttleMax := toInt16 cfg.deadband3d_low
        throttleMin := toInt16 cfg.minthrottle
        throttleCommand := toInt16 cfg.deadband3d_low
        throttlePrevious := prev }
    else
      { throttleMax := toInt16 cfg.maxthrottle
        throttleMin := toInt16 cfg.deadband3d_high
        throttleCommand := toInt16 cfg.deadband3d_high
        throttlePrevious := prev }
  else
    { throttleCommand := inp.rcCommandThrottle
      throttleMin := toInt16 cfg.minthrottle
      throttleMax := toInt16 cfg.maxthrottle
      throttlePrevious := throttlePrevious }

/-- The float expression `throttleRange * THROTTLE_CLIPPING_FACTOR / 2`. -/
def clipHalf (throttleRange : Int) : ℚ :=
  fdiv (fmul throttleRange THROTTLE_CLIPPING_FACTOR) 2

/-- Saturation block of `mixTable` (lines 489-505). -/
def headroom (motorCount : Nat) (rpyMix : Nat → Int) (rpyMixRange throttleRange : Int)
    (throttleMin throttleMax : Int) : Headroom :=
  if rpyMixRange > throttleRange then
    let mixReduction : ℚ := fdiv throttleRange rpyMixRange
    let throttleMin1 : Int :=
      toInt16 (truncQ
        (fsub ((throttleMin + Int.tdiv throttleRange 2 : Int) : ℚ) (clipHalf throttleRange)))
    let throttleMax1 : Int :=
      toInt16 (truncQ
        (fadd ((throttleMin1 + Int.tdiv throttleRange 2 : Int) : ℚ) (clipHalf throttleRange)))
    { rpyMix :=
        forLoop (fun i a => Function.update a i (toInt16 (truncQ (fmul mixReduction (a i)))))
          motorCount rpyMix
      throttleMin := throttleMin1
      throttleMax := throttleMax1
      motorLimitReached := true }
  else
    let throttleMin1 : Int :=
      toInt16 (truncQ
        (MINf ((throttleMin + Int.tdiv rpyMixRange 2 : Int) : ℚ)
          (fsub ((throttleMin + Int.tdiv throttleRange 2 : Int) : ℚ) (clipHalf throttleRange))))
    let throttleMax1 : Int :=
      toInt16 (truncQ
        (MAXf ((throttleMax - Int.tdiv rpyMixRange 2 : Int) : ℚ)
          (fadd ((throttleMin1 + Int.tdiv throttleRange 2 : Int) : ℚ) (clipHalf throttleRange))))
    { rpyMix := rpyMix
      throttleMin := throttleMin1
      throttleMax := throttleMax1
      motorLimitReached := false }

/-- Band chosen by lines 462-485 for this tick. -/
def mixTableBand (cfg : Config) (inp : Inputs) (st : State) : Band :=
  throttleBand cfg inp st.throttlePrevious

/-- The local `rpyMixRange` (line 457). -/
def mixTableRpyMixRange (cfg : Config) (inp : Inputs) (st : State) : Int :=
  toInt16 ((mixTableRpy cfg inp st).rpyMixMax - (mixTableRpy cfg inp st).rpyMixMin)

/-- The local `throttleRange` (line 487). -/
def mixTableThrottleRange (cfg : Config) (inp : Inputs) (st : State) : Int :=
  toInt16 ((mixTableBand cfg inp st).throttleMax - (mixTableBand cfg inp st).throttleMin)

/-- Locals after lines 489-505 for this tick. -/
def mixTableHeadroom (cfg : Config) (inp : Inputs) (st : State) : Headroom :=
  headroom st.motorCount (mixTableRpy cfg inp st).rpyMix (mixTableRpyMixRange cfg inp st)
    (mixTableThrottleRange cfg inp st) (mixTableBand cfg inp st).throttleMin
    (mixTableBand cfg inp st).throttleMax

/-- Condition `failsafeMotorStop || navMotorStop || userMotorStop` (lines 527-530). -/
def motorStopRequested (cfg : Config) (inp : Inputs) : Bool :=
  let failsafeMotorStop := inp.failsafeRequiresMotorStop
  let navMotorStop := !inp.failsafeIsActive && inp.navMotorStopOrIdle
  let userMotorStop :=
    !inp.navigationIsFlyingAutonomousMode && !inp.failsafeIsActive &&
      decide (inp.rcDataThrottle < cfg.mincheck)
  failsafeMotorStop || navMotorStop || userMotorStop

/-- Value of `motor[i]` after lines 511-523: mix plus constrained throttle, then
the failsafe, 3D or normal clamp. -/
def clampedCommand (cfg : Config) (inp : Inputs) (throttlePrevious throttleCommand : Int)
    (throttleMin throttleMax : Int) (rpy : Int) (m : motorMixer_t) : Int :=
  let m0 : Int :=
    toInt16 (rpy + constrain (truncQ (fmul throttleCommand m.throttle)) throttleMin throttleMax)
  if inp.failsafeIsActive then
    toInt16 (constrain m0 cfg.mincommand cfg.maxthrottle)
  else if cfg.feature3D then
    if throttlePrevious ≤ cfg.midrc - cfg.deadband3d_throttle then
      toInt16 (constrain m0 cfg.minthrottle cfg.deadband3d_low)
    else
      toInt16 (constrain m0 cfg.deadband3d_high cfg.maxthrottle)
  else
    toInt16 (constrain m0 cfg.minthrottle cfg.maxthrottle)

/-- Value of `motor[i]` after one iteration of the armed loop (lines 510-539). -/
def motorCommand (cfg : Config) (inp : Inputs) (throttlePrevious throttleCommand : Int)
    (throttleMin throttleMax : Int) (rpy : Int) (m : motorMixer_t) : Int :=
  let m1 : Int :=
    clampedCommand cfg inp throttlePrevious throttleCommand throttleMin throttleMax rpy m
  if cfg.featureMotorStop && inp.armed then
    if motorStopRequested cfg inp then
      if cfg.feature3D then toInt16 cfg.midrc else toInt16 cfg.mincommand
    else m1
  else m1

/-- Source `mixTable` (lines 420-545). -/
def mixTable (cfg : Config) (inp : Inputs) (st : State) : State :=
  let band := mixTableBand cfg inp st
  let h := mixTableHeadroom cfg inp st
  { st with
    motorLimitReached := h.motorLimitReached
    throttlePrevious := band.throttlePrevious
    motor :=
      if inp.armed then
        forLoop
          (fun i a =>
            Function.update a i
              (motorCommand cfg inp band.throttlePrevious band.throttleCommand
                h.throttleMin h.throttleMax (h.rpyMix i) (st.currentMixer i)))
          st.motorCount st.motor
      else
        forLoop (fun i a => Function.update a i (st.motor_disarmed i))
          st.motorCount st.motor }

/-! ## Mixer catalog and rebuild of the active table -/

/-- Value stored by an assignment to a `uint8_t` object. -/
def toUInt8 (x : Nat) : Nat := x % 256

/-- The mixer modes named in `mixer.c` (`mixerMode_e` of `flight/mixer.h`), those
of the entries that are commented out in `mixerTable` included. -/
inductive mixerMode_e where
  | MIXER_TRI
  | MIXER_QUADP
  | MIXER_QUADX
  | MIXER_BICOPTER
  | MIXER_GIMBAL
  | MIXER_Y6
  | MIXER_HEX6
  | MIXER_FLYING_WING
  | MIXER_Y4
  | MIXER_HEX6X
  | MIXER_OCTOX8
  | MIXER_OCTOFLATP
  | MIXER_OCTOFLATX
  | MIXER_AIRPLANE
  | MIXER_HELI_120_CCPM
  | MIXER_HELI_90_DEG
  | MIXER_VTAIL4
  | MIXER_HEX6H
  | MIXER_PPM_TO_SERVO
  | MIXER_DUALCOPTER
  | MIXER_SINGLECOPTER
  | MIXER_ATAIL4
  | MIXER_CUSTOM
  | MIXER_CUSTOM_AIRPLANE
  | MIXER_CUSTOM_TRI
deriving DecidableEq

open mixerMode_e

/-- One entry of `mixerTable` (`mixer_t`); `motor` is `none` for a `NULL` table. -/
structure mixer_t where
  mixerMode : mixerMode_e
  motorCount : Nat
  useServos : Bool
  motor : Option (List motorMixer_t)
deriving DecidableEq

/-- A table initialiser `{ throttle, roll, pitch, yaw }` of `float` literals: each
decimal is converted to single precision. -/
def mixRow (throttle roll pitch yaw : ℚ) : motorMixer_t :=
  { throttle := binary32 throttle, roll := binary32 roll, pitch := binary32 pitch,
    yaw := binary32 yaw }

/-- Table `mixerQuadX` (lines 105-110). -/
def mixerQuadX : List motorMixer_t :=
  [mixRow 1 (-1) 1 (-1), mixRow 1 (-1) (-1) 1, mixRow 1 1 1 1, mixRow 1 1 (-1) (-1)]

/-- Table `mixerTricopter` (lines 115-119). -/
def mixerTricopter : List motorMixer_t :=
  [mixRow 1 0 (1333333 / 1000000) 0, mixRow 1 (-1) (-666667 / 1000000) 0,
    mixRow 1 1 (-666667 / 1000000) 0]

/-- Table `mixerQuadP` (lines 121-126). -/
def mixerQuadP : List motorMixer_t :=
  [mixRow 1 0 1 (-1), mixRow 1 (-1) 0 1, mixRow 1 1 0 1, mixRow 1 0 (-1) (-1)]

/-- Table `mixerVtail4` (lines 129-134). -/
def mixerVtail4 : List motorMixer_t :=
  [mixRow 1 (-58 / 100) (58 / 100) 1, mixRow 1 (-46 / 100) (-39 / 100) (-1 / 2),
    mixRow 1 (58 / 100) (58 / 100) (-1), mixRow 1 (46 / 100) (-39 / 100) (1 / 2)]

/-- Table `mixerAtail4` (lines 136-141). -/
def mixerAtail4 : List motorMixer_t :=
  [mixRow 1 0 1 1, mixRow 1 (-1) (-1) 0, mixRow 1 0 1 (-1), mixRow 1 1 (-1) 0]

/-- Table `mixerY4` (lines 143-148). -/
def mixerY4 : List motorMixer_t :=
  [mixRow 1 0 1 (-1), mixRow 1 (-1) (-1) 0, mixRow 1 0 1 1, mixRow 1 1 (-1) 0]

/-- Table `mixerHex6H` (lines 151-158). -/
def mixerHex6H : List motorMixer_t :=
  [mixRow 1 (-1) 1 (-1), mixRow 1 (-1) (-1) 1, mixRow 1 1 1 1, mixRow 1 1 (-1) (-1),
    mixRow 1 0 0 0, mixRow 1 0 0 0]

/-- Table `mixerY6` (lines 160-167). -/
def mixerY6 : List motorMixer_t :=
  [mixRow 1 0 (1333333 / 1000000) 1, mixRow 1 (-1) (-666667 / 1000000) (-1),
    mixRow 1 1 (-666667 / 1000000) (-1), mixRow 1 0 (1333333 / 1000000) (-1),
    mixRow 1 (-1) (-666667 / 1000000) 1, mixRow 1 1 (-666667 / 1000000) 1]

/-- Table `mixerHex6P` (lines 169-176). -/
def mixerHex6P : List motorMixer_t :=
  [mixRow 1 (-866025 / 1000000) (1 / 2) 1, mixRow 1 (-866025 / 1000000) (-1 / 2) (-1),
    mixRow 1 (866025 / 1000000) (1 / 2) 1, mixRow 1 (866025 / 1000000) (-1 / 2) (-1),
    mixRow 1 0 (-1) 1, mixRow 1 0 1 (-1)]

/-- Table `mixerOctoFlatP` (lines 180-189). -/
def mixerOctoFlatP : List motorMixer_t :=
  [mixRow 1 (707107 / 1000000) (-707107 / 1000000) 1,
    mixRow 1 (-707107 / 1000000) (-707107 / 1000000) 1,
    mixRow 1 (-707107 / 1000000) (707107 / 1000000) 1,
    mixRow 1 (707107 / 1000000) (707107 / 1000000) 1,
    mixRow 1 0 (-1) (-1), mixRow 1 (-1) 0 (-1), mixRow 1 0 1 (-1), mixRow 1 1 0 (-1)]

/-- Table `mixerOctoFlatX` (lines 191-200). -/
def mixerOctoFlatX : List motorMixer_t :=
  [mixRow 1 1 (-414178 / 1000000) 1, mixRow 1 (-414178 / 1000000) (-1) 1,
    mixRow 1 (-1) (414178 / 1000000) 1, mixRow 1 (414178 / 1000000) 1 1,
    mixRow 1 (414178 / 1000000) (-1) (-1), mixRow 1 (-1) (-414178 / 1000000) (-1),
    mixRow 1 (-414178 / 1000000) 1 (-1), mixRow 1 1 (414178 / 1000000) (-1)]

/-- Table `mixerOctoX8` (lines 202-211). -/
def mixerOctoX8 : List motorMixer_t :=
  [mixRow 1 (-1) 1 (-1), mixRow 1 (-1) (-1) 1, mixRow 1 1 1 1, mixRow 1 1 (-1) (-1),
    mixRow 1 (-1) 1 1, mixRow 1 (-1) (-1) (-1), mixRow 1 1 1 (-1), mixRow 1 1 (-1) 1]

/-- Table `mixerHex6X` (lines 216-223). -/
def mixerHex6X : List motorMixer_t :=
  [mixRow 1 (-1 / 2) (866025 / 1000000) 1, mixRow 1 (-1 / 2) (-866025 / 1000000) 1,
    mixRow 1 (1 / 2) (866025 / 1000000) (-1), mixRow 1 (1 / 2) (-866025 / 1000000) (-1),
    mixRow 1 (-1) 0 (-1), mixRow 1 1 0 1]

/-- Table `mixerDualProp` (lines 226-229). -/
def mixerDualProp : List motorMixer_t :=
  [mixRow 1 0 0 0, mixRow 1 0 0 0]

/-- The macro `DEF_MIXER` (lines 112-113). -/
def DEF_MIXER (mixerMode : mixerMode_e) (motorCount : Nat) (useServos : Bool)
    (motorMap : Option (List motorMixer_t)) : mixer_t :=
  { mixerMode := mixerMode, motorCount := motorCount, useServos := useServos,
    motor := motorMap }

/-- The catalog `mixerTable` (lines 231-277) of a build with the given
`MAX_SUPPORTED_MOTORS` and `DISABLE_UNCOMMON_MIXERS`. -/
def mixerTable (maxMotors : Nat) (disableUncommon : Bool) : List mixer_t :=
  [DEF_MIXER MIXER_TRI 3 true (some mixerTricopter),
    DEF_MIXER MIXER_CUSTOM_TRI 3 false none,
    DEF_MIXER MIXER_QUADP 4 false (some mixerQuadP),
    DEF_MIXER MIXER_QUADX 4 false (some mixerQuadX)]
  ++ (if 6 ≤ maxMotors then [DEF_MIXER MIXER_HEX6X 6 false (some mixerHex6X)] else [])
  ++ [DEF_MIXER MIXER_CUSTOM 0 false none,
    DEF_MIXER MIXER_FLYING_WING 2 true (some mixerDualProp),
    DEF_MIXER MIXER_AIRPLANE 2 true (some mixerDualProp),
    DEF_MIXER MIXER_CUSTOM_AIRPLANE 2 true none]
  ++ (if disableUncommon then []
      else
        [DEF_MIXER MIXER_Y4 4 false (some mixerY4),
          DEF_MIXER MIXER_ATAIL4 4 false (some mixerAtail4),
          DEF_MIXER MIXER_VTAIL4 4 false (some mixerVtail4)]
        ++ (if 6 ≤ maxMotors then
              [DEF_MIXER MIXER_Y6 6 false (some mixerY6),
                DEF_MIXER MIXER_HEX6 6 false (some mixerHex6P),
                DEF_MIXER MIXER_HEX6H 6 false (some mixerHex6H)]
            else [])
        ++ (if 8 ≤ maxMotors then
              [DEF_MIXER MIXER_OCTOX8 8 false (some mixerOctoX8),
                DEF_MIXER MIXER_OCTOFLATP 8 false (some mixerOctoFlatP),
                DEF_MIXER MIXER_OCTOFLATX 8 false (some mixerOctoFlatX)]
            else []))

/-- Source `findMixer` (lines 279-287): the first entry with the given mode, `none`
for the `NULL` result. -/
def findMixer (maxMotors : Nat) (disableUncommon : Bool) (mixerMode : mixerMode_e) :
    Option mixer_t :=
  (mixerTable maxMotors disableUncommon).find? (fun m => decide (m.mixerMode = mixerMode))

/-- Source `isMixerEnabled` (lines 299-303). -/
def isMixerEnabled (maxMotors : Nat) (disableUncommon : Bool) (mixerMode : mixerMode_e) :
    Bool :=
  match findMixer maxMotors disableUncommon mixerMode with
  | some _ => true
  | none => false

/-- Values read by `mixerUsePWMIOConfiguration` besides those of `Config`. -/
structure MixerSetup where
  /-- Build flag `DISABLE_UNCOMMON_MIXERS`. -/
  DISABLE_UNCOMMON_MIXERS : Bool
  /-- Field `mixerMode` of `mixerConfig()`. -/
  mixerMode : mixerMode_e
  /-- The custom slots `customMotorMixer(i)`. -/
  customMotorMixer : Nat → motorMixer_t
  /-- Field `motorCount` of `pwmGetOutputConfiguration()`. -/
  pwmMotorCount : Nat

/-- The test `currentMixerMode == MIXER_CUSTOM || ... == MIXER_CUSTOM_TRI ||
... == MIXER_CUSTOM_AIRPLANE` of line 333. -/
def isCustomMode (mixerMode : mixerMode_e) : Bool :=
  decide (mixerMode = MIXER_CUSTOM) || decide (mixerMode = MIXER_CUSTOM_TRI) ||
    decide (mixerMode = MIXER_CUSTOM_AIRPLANE)

/-- The loop of lines 335-341, with `remaining` iterations left before
`i < MAX_SUPPORTED_MOTORS` fails; the result is the table and `motorCount`. -/
def loadCustomMixer (customMotorMixer : Nat → motorMixer_t) :
    (remaining : Nat) → (i : Nat) → (Nat → motorMixer_t) → Nat → (Nat → motorMixer_t) × Nat
  | 0, _, currentMixer, motorCount => (currentMixer, motorCount)
  | remaining + 1, i, currentMixer, motorCount =>
    if (customMotorMixer i).throttle = 0 then (currentMixer, motorCount)
    else
      loadCustomMixer customMotorMixer remaining (i + 1)
        (Function.update currentMixer i (customMotorMixer i)) (toUInt8 (motorCount + 1))

/-- Body of the loop at lines 355-359: `pitch`, `roll` and `yaw` times `0.5f`. -/
def halveGain (m : motorMixer_t) : motorMixer_t :=
  { m with pitch := fmul m.pitch (1 / 2), roll := fmul m.roll (1 / 2),
           yaw := fmul m.yaw (1 / 2) }

/-- Lines 353-361: the gain of the active rows is halved with the 3D feature. -/
def scale3D (cfg : Config) (motorCount : Nat) (currentMixer : Nat → motorMixer_t) :
    Nat → motorMixer_t :=
  if cfg.feature3D then
    if motorCount > 1 then
      forLoop (fun i a => Function.update a i (halveGain (a i))) motorCount currentMixer
    else currentMixer
  else currentMixer

/-- An all-zero row, read where a catalog table has no entry. -/
def zeroRow : motorMixer_t := { throttle := 0, roll := 0, pitch := 0, yaw := 0 }

/-- Lines 328-350: the table and `motorCount` after the load; `none` when the
`NULL` result of `findMixer` is dereferenced at line 343. -/
def loadMixer (cfg : Config) (setup : MixerSetup) (st : State) :
    Option ((Nat → motorMixer_t) × Nat) :=
  if isCustomMode setup.mixerMode then
    some (loadCustomMixer setup.customMotorMixer cfg.MAX_SUPPORTED_MOTORS 0 st.currentMixer 0)
  else
    match findMixer cfg.MAX_SUPPORTED_MOTORS setup.DISABLE_UNCOMMON_MIXERS setup.mixerMode with
    | none => none
    | some mixer =>
      let motorCount : Nat :=
        toUInt8 (if mixer.motorCount < setup.pwmMotorCount then mixer.motorCount
          else setup.pwmMotorCount)
      match mixer.motor with
      | none => some (st.currentMixer, motorCount)
      | some table =>
        some (forLoop (fun i a => Function.update a i (table.getD i zeroRow)) motorCount
          st.currentMixer, motorCount)

/-- Source `mixerUsePWMIOConfiguration` (lines 326-364); `none` when the call
dereferences a null pointer. -/
def mixerUsePWMIOConfiguration (cfg : Config) (setup : MixerSetup) (st : State) :
    Option State :=
  match loadMixer cfg setup st with
  | none => none
  | some (currentMixer, motorCount) =>
    some (mixerResetDisarmedMotors cfg
      { st with
        motorCount := motorCount
        currentMixer := scale3D cfg motorCount currentMixer })

/-- Engine state at start-up: every static object zero-initialised. -/
def initialState : State :=
  { motorCount := 0
    currentMixer := fun _ => zeroRow
    motor := fun _ => 0
    motor_disarmed := fun _ => 0
    motorLimitReached := false
    throttlePrevious := 0 }

/-! ## Sample configuration -/

/-- The Quad X table `mixerQuadX` (lines 105-110) in the first four slots. -/
def quadXMixer : Nat → motorMixer_t
  | 0 => { throttle := 1, roll := -1, pitch := 1, yaw := -1 }
  | 1 => { throttle := 1, roll := -1, pitch := -1, yaw := 1 }
  | 2 => { throttle := 1, roll := 1, pitch := 1, yaw := 1 }
  | 3 => { throttle := 1, roll := 1, pitch := -1, yaw := -1 }
  | _ => { throttle := 0, roll := 0, pitch := 0, yaw := 0 }

/-- The reset templates of lines 65-99 (non-brushed defaults), with motor stop
and 3D disabled. -/
def defaultConfig : Config :=
  { MAX_SUPPORTED_MOTORS := 8
    YAW_JUMP_PREVENTION_LIMIT_HIGH := 400
    minthrottle := 1150
    maxthrottle := 1850
    mincommand := 1000
    deadband3d_low := 1406
    deadband3d_high := 1514
    neutral3d := 1460
    midrc := 1500
    mincheck := 1100
    deadband3d_throttle := 50
    yaw_motor_direction := 1
    yaw_jump_prevention_limit := 200
    feature3D := false
    featureMotorStop := false }

/-- An armed tick with centred sticks, no demand and every override inactive. -/
def idleInputs : Inputs :=
  { rcCommandRoll := 0
    rcCommandPitch := 0
    rcCommandYaw := 0
    rcCommandThrottle := 1500
    axisPIDRoll := 0
    axisPIDPitch := 0
    axisPIDYaw := 0
    rcDataThrottle := 1500
    armed := true
    fixedWing := false
    manualMode := false
    failsafeIsActive := false
    failsafeRequiresMotorStop := false
    navMotorStopOrIdle := false
    navigationIsFlyingAutonomousMode := false }

/-- Engine state of a Quad X before the first tick. -/
def quadXState : State :=
  { motorCount := 4
    currentMixer := quadXMixer
    motor := fun _ => 0
    motor_disarmed := fun _ => 0
    motorLimitReached := false
    throttlePrevious := 0 }

/-- An armed tick whose roll and pitch demand exceed the throttle headroom. -/
def saturatingInputs : Inputs :=
  { idleInputs with axisPIDRoll := 500, axisPIDPitch := 500 }

/-- The default configuration with the 3D feature enabled: deadband `(1450, 1550)`
around `midrc` 1500. -/
def config3D : Config := { defaultConfig with feature3D := true }

/-- An armed 3D tick with the raw throttle exactly on the lower deadband edge
`midrc - deadband3d_throttle`. -/
def lowerEdgeInputs : Inputs := { idleInputs with rcCommandThrottle := 1450 }

/-- An armed 3D tick with the raw throttle exactly on the upper deadband edge
`midrc + deadband3d_throttle`. -/
def upperEdgeInputs : Inputs := { idleInputs with rcCommandThrottle := 1550 }

/-- Quad X state whose last out-of-deadband throttle was on the positive side. -/
def positiveState : State := { quadXState with throttlePrevious := 1600 }

/-- Quad X state whose last out-of-deadband throttle was on the negative side. -/
def negativeState : State := { quadXState with throttlePrevious := 1400 }

/-- A yaw demand of 1000 from the attitude controller with the yaw stick at 50. -/
def yawJumpInputs : Inputs := { idleInputs with axisPIDYaw := 1000, rcCommandYaw := 50 }

/-- A yaw demand of -1000 from the attitude controller with the yaw stick at 50. -/
def yawJumpNegInputs : Inputs := { idleInputs with axisPIDYaw := -1000, rcCommandYaw := 50 }

/-- The default configuration with `maxthrottle` one above `minthrottle`
(`throttleRange` 1). -/
def narrowBandConfig : Config := { defaultConfig with maxthrottle := 1151 }

/-- An armed tick with a roll demand that fits the throttle headroom. -/
def gentleInputs : Inputs := { idleInputs with axisPIDRoll := 100 }

/-! ## Quantities named by the specification -/

/-- The spec's `rpyMixMax = max(0, max_i rpyMix[i])` over the active motors. -/
def specRpyMixMax (cfg : Config) (inp : Inputs) (st : State) : Int :=
  ((List.range st.motorCount).map
    (fun i => rpyMixValue cfg (mixInput cfg inp st.motorCount) (st.currentMixer i))).foldl max 0

/-- The spec's `rpyMixMin = min(0, min_i rpyMix[i])` over the active motors. -/
def specRpyMixMin (cfg : Config) (inp : Inputs) (st : State) : Int :=
  ((List.range st.motorCount).map
    (fun i => rpyMixValue cfg (mixInput cfg inp st.motorCount) (st.currentMixer i))).foldl min 0

/-! ## Quantities named by the specification, rebuild -/

/-- Index of the first slot from `i` on, among `k` slots, whose throttle coefficient
is exactly zero; `i + k` if there is none. -/
def firstZeroThrottle (customMotorMixer : Nat → motorMixer_t) (i k : Nat) : Nat :=
  ((List.range' i k).find? (fun j => decide ((customMotorMixer j).throttle = 0))).getD (i + k)

/-- The spec's custom motor count: the index of the first custom slot whose
throttle coefficient is exactly 0.0, `MAX_SUPPORTED_MOTORS` if there is none. -/
def specCustomMotorCount (customMotorMixer : Nat → motorMixer_t) (maxMotors : Nat) : Nat :=
  ((List.range maxMotors).find?
    (fun j => decide ((customMotorMixer j).throttle = 0))).getD maxMotors

/-! ## Sample mixer selections -/

/-- Custom slots with throttle coefficients 1, 1, 0, 1 and all-zero slots after
them. -/
def gappedCustomSlots : Nat → motorMixer_t
  | 0 => mixRow 1 1 0 0
  | 1 => mixRow 1 (-1) 0 0
  | 2 => zeroRow
  | 3 => mixRow 1 0 1 0
  | _ => zeroRow

/-- Custom multirotor selected with the slots `gappedCustomSlots` and eight output
channels. -/
def gappedCustomSetup : MixerSetup :=
  { DISABLE_UNCOMMON_MIXERS := false
    mixerMode := MIXER_CUSTOM
    customMotorMixer := gappedCustomSlots
    pwmMotorCount := 8 }

/-- Custom multirotor selected with every slot zero. -/
def emptyCustomSetup : MixerSetup :=
  { gappedCustomSetup with customMotorMixer := fun _ => zeroRow }

/-- Quad X selected with eight output channels. -/
def quadXSetup : MixerSetup := { emptyCustomSetup with mixerMode := MIXER_QUADX }

/-- Tricopter selected with eight output channels. -/
def tricopterSetup : MixerSetup := { emptyCustomSetup with mixerMode := MIXER_TRI }

/-- Bicopter selected: its `mixerTable` entry is commented out (line 246). -/
def bicopterSetup : MixerSetup := { emptyCustomSetup with mixerMode := MIXER_BICOPTER }

/-- The default configuration with `minthrottle` and `maxthrottle` exchanged, so
that the selected band has a negative `throttleRange`. -/
def reversedThrottleConfig : Config :=
  { defaultConfig with minthrottle := 1850, maxthrottle := 1150 }

/-- The branch condition of line 490: the scale-down of lines 491-496 is performed. -/
def scaleDownPerformed (cfg : Config) (inp : Inputs) (st : State) : Bool :=
  decide (mixTableRpyMixRange cfg inp st > mixTableThrottleRange cfg inp st)

/-- The divisor of the division at line 492. -/
def mixReductionDivisor (cfg : Config) (inp : Inputs) (st : State) : Int :=
  mixTableRpyMixRange cfg inp st

/-- Rationals that are finite single precision numbers: rounding leaves them
unchanged (at most 24 significant bits, a multiple of `2^-149`) and the magnitude is
below `2^128`. -/
def IsBinary32 (x : ℚ) : Prop := binary32 x = x ∧ |x| < 2 ^ 128

instance (x : ℚ) : Decidable (IsBinary32 x) :=
  inferInstanceAs (Decidable (binary32 x = x ∧ |x| < 2 ^ 128))

/-- The spec's source row `i` of a rebuild: custom slot `i` for the custom modes,
row `i` of the catalog entry otherwise. -/
def specSourceRow (cfg : Config) (setup : MixerSetup) (i : Nat) : motorMixer_t :=
  if isCustomMode setup.mixerMode then setup.customMotorMixer i
  else
    match findMixer cfg.MAX_SUPPORTED_MOTORS setup.DISABLE_UNCOMMON_MIXERS setup.mixerMode with
    | some m => (m.motor.getD []).getD i zeroRow
    | none => zeroRow

/-- The local `mixReduction` of line 492. -/
def mixReduction (cfg : Config) (inp : Inputs) (st : State) : ℚ :=
  fdiv (mixTableThrottleRange cfg inp st) (mixTableRpyMixRange cfg inp st)

/-- The spec's spread of the mix values after the saturation block, zero baseline
included: `max(0, max_i rpyMix[i]) - min(0, min_i rpyMix[i])` over the active motors. -/
def specScaledSpread (cfg : Config) (inp : Inputs) (st : State) : Int :=
  ((List.range st.motorCount).map (mixTableHeadroom cfg inp st).rpyMix).foldl max 0
    - ((List.range st.motorCount).map (mixTableHeadroom cfg inp st).rpyMix).foldl min 0

/-! ## Preset load -/

/-- Source `findMixer` (lines 279-287) called with an `int` argument, as
`mixerLoadMix` does: the comparison of line 282 is on the integer values of the
enumerators, given by `mixerModeValue` (the declaration of `mixerMode_e` is in
`flight/mixer.h`). -/
def findMixerByValue (mixerModeValue : mixerMode_e → Int) (maxMotors : Nat)
    (disableUncommon : Bool) (value : Int) : Option mixer_t :=
  (mixerTable maxMotors disableUncommon).find?
    (fun m => decide (mixerModeValue m.mixerMode = value))

/-- The assignment `customMixers[i].throttle = 0.0f` of line 372. -/
def clearThrottle (row : motorMixer_t) : motorMixer_t := { row with throttle := 0 }

/-- Source `mixerLoadMix` (lines 366-382): the custom slots after the call, `none`
when the `NULL` result of `findMixer` is dereferenced at line 377. -/
def mixerLoadMix (cfg : Config) (disableUncommon : Bool) (mixerModeValue : mixerMode_e → Int)
    (index : Int) (customMixers : Nat → motorMixer_t) : Option (Nat → motorMixer_t) :=
  let index1 : Int := index + 1
  let cleared : Nat → motorMixer_t :=
    forLoop (fun i a => Function.update a i (clearThrottle (a i)))
      cfg.MAX_SUPPORTED_MOTORS customMixers
  match findMixerByValue mixerModeValue cfg.MAX_SUPPORTED_MOTORS disableUncommon index1 with
  | none => none
  | some mixer =>
    match mixer.motor with
    | none => some cleared
    | some table =>
      some (forLoop (fun i a => Function.update a i (table.getD i zeroRow)) mixer.motorCount
        cleared)

/-- A numbering of the modes that starts at 1 and follows the order of the
declaration of `mixerMode_e` above. -/
def mixerModeOrdinal : mixerMode_e → Int
  | MIXER_TRI => 1
  | MIXER_QUADP => 2
  | MIXER_QUADX => 3
  | MIXER_BICOPTER => 4
  | MIXER_GIMBAL => 5
  | MIXER_Y6 => 6
  | MIXER_HEX6 => 7
  | MIXER_FLYING_WING => 8
  | MIXER_Y4 => 9
  | MIXER_HEX6X => 10
  | MIXER_OCTOX8 => 11
  | MIXER_OCTOFLATP => 12
  | MIXER_OCTOFLATX => 13
  | MIXER_AIRPLANE => 14
  | MIXER_HELI_120_CCPM => 15
  | MIXER_HELI_90_DEG => 16
  | MIXER_VTAIL4 => 17
  | MIXER_HEX6H => 18
  | MIXER_PPM_TO_SERVO => 19
  | MIXER_DUALCOPTER => 20
  | MIXER_SINGLECOPTER => 21
  | MIXER_ATAIL4 => 22
  | MIXER_CUSTOM => 23
  | MIXER_CUSTOM_AIRPLANE => 24
  | MIXER_CUSTOM_TRI => 25

/-! ## Sample states for the saturation flag and the 3D gain -/

/-- A two-motor custom table with roll gains `60` and `-60`. -/
def steepRollMixer : Nat → motorMixer_t
  | 0 => { throttle := 1, roll := 60, pitch := 0, yaw := 0 }
  | 1 => { throttle := 1, roll := -60, pitch := 0, yaw := 0 }
  | _ => { throttle := 0, roll := 0, pitch := 0, yaw := 0 }

/-- Engine state with the two-motor table `steepRollMixer` active. -/
def steepRollState : State :=
  { quadXState with motorCount := 2, currentMixer := steepRollMixer }

/-- An armed tick with a roll demand of 500. -/
def fullRollInputs : Inputs := { idleInputs with axisPIDRoll := 500 }

/-- Custom slots whose first two rows have throttle 1 and the roll gains `2^-149`
(the smallest positive single precision number) and `-2^-149`. -/
def tinyGainSlots : Nat → motorMixer_t
  | 0 => { throttle := 1, roll := 1 / 2 ^ 149, pitch := 0, yaw := 0 }
  | 1 => { throttle := 1, roll := -(1 / 2 ^ 149), pitch := 0, yaw := 0 }
  | _ => zeroRow

/-- Custom multirotor selected with the slots `tinyGainSlots`. -/
def tinyGainSetup : MixerSetup :=
  { emptyCustomSetup with customMotorMixer := tinyGainSlots }

/-! ## Lemmas on machine arithmetic and loops -/

theorem toInt16_eq_self {x : Int} (h : IsInt16 x) : toInt16 x = x := by
  unfold IsInt16 at h
  unfold toInt16
  omega

theorem toInt16_isInt16 (x : Int) : IsInt16 (toInt16 x) := by
  unfold IsInt16 toInt16
  omega

theorem IsPwm.isInt16 {x : Int} (h : IsPwm x) : IsInt16 x := by
  unfold IsPwm at h
  unfold IsInt16
  omega

theorem constrain_ge (amt : Int) {low high : Int} (h : low ≤ high) : low ≤ constrain amt low high := by
  unfold constrain
  split_ifs <;> omega

theorem constrain_le (amt : Int) {low high : Int} (h : low ≤ high) : constrain amt low high ≤ high := by
  unfold constrain
  split_ifs <;> omega

theorem constrain_isInt16 (amt : Int) {low high : Int} (h : low ≤ high) (hl : IsInt16 low)
    (hh : IsInt16 high) : IsInt16 (constrain amt low high) := by
  have h1 := constrain_ge amt h
  have h2 := constrain_le amt h
  unfold IsInt16 at *
  omega

theorem forLoop_update_apply {α : Type} (g : Nat → α → α) (n : Nat) (a0 : Nat → α) (j : Nat) :
    forLoop (fun i a => Function.update a i (g i (a i))) n a0 j
      = if j < n then g j (a0 j) else a0 j := by
  induction n with
  | zero => simp [forLoop]
  | succ n ih =>
    simp only [forLoop]
    by_cases hj : j = n
    · subst hj
      have hn : ¬ j < j := Nat.lt_irrefl j
      rw [Function.update_same, ih]
      simp
    · rw [Function.update_noteq hj, ih]
      have : j < n + 1 ↔ j < n := by omega
      simp [this]

theorem forLoop_const_apply {α : Type} (f : Nat → α) (n : Nat) (a0 : Nat → α) (j : Nat) :
    forLoop (fun i a => Function.update a i (f i)) n a0 j = if j < n then f j else a0 j :=
  forLoop_update_apply (fun i _ => f i) n a0 j

theorem mixTable_motor_armed (cfg : Config) (inp : Inputs) (st : State) (i : Nat)
    (harmed : inp.armed = true) (hi : i < st.motorCount) :
    (mixTable cfg inp st).motor i
      = motorCommand cfg inp (mixTableBand cfg inp st).throttlePrevious
          (mixTableBand cfg inp st).throttleCommand (mixTableHeadroom cfg inp st).throttleMin
          (mixTableHeadroom cfg inp st).throttleMax ((mixTableHeadroom cfg inp st).rpyMix i)
          (st.currentMixer i) := by
  simp only [mixTable, harmed, if_true]
  rw [forLoop_const_apply]
  simp [hi]

theorem mixTable_motor_disarmed (cfg : Config) (inp : Inputs) (st : State) (i : Nat)
    (harmed : inp.armed = false) (hi : i < st.motorCount) :
    (mixTable cfg inp st).motor i = st.motor_disarmed i := by
  simp only [mixTable, harmed]
  rw [if_neg (by simp), forLoop_const_apply]
  simp [hi]

/-! ## Output range, disarmed output and motor stop -/

/-- C1: on an armed tick with failsafe inactive and no motor-stop override, every
active motor command lies in the configured actuator range.  With 3D off and
`minthrottle ≤ maxthrottle` it is in `[minthrottle, maxthrottle]`; with 3D on,
`minthrottle ≤ deadband3d_low` and `deadband3d_high ≤ maxthrottle`, it is in
`[minthrottle, deadband3d_low]` when the hysteresis value after the tick is on the
negative side and in `[deadband3d_high, maxthrottle]` otherwise, hence never strictly
between the two deadband ends.  Axis demand, throttle command and coefficient
table are arbitrary; the bounds are `int16_t` values like the commands. -/
theorem mixTable_motor_within_actuator_range (cfg : Config) (inp : Inputs) (st : State)
    (i : Nat) (hi : i < st.motorCount) (harmed : inp.armed = true)
    (hfs : inp.failsafeIsActive = false)
    (hstop : (cfg.featureMotorStop && motorStopRequested cfg inp) = false) :
    (cfg.feature3D = false → IsInt16 cfg.minthrottle → IsInt16 cfg.maxthrottle →
      cfg.minthrottle ≤ cfg.maxthrottle →
        cfg.minthrottle ≤ (mixTable cfg inp st).motor i ∧
          (mixTable cfg inp st).motor i ≤ cfg.maxthrottle) ∧
    (cfg.feature3D = true → IsInt16 cfg.minthrottle → IsInt16 cfg.maxthrottle →
      IsInt16 cfg.deadband3d_low → IsInt16 cfg.deadband3d_high →
      cfg.minthrottle ≤ cfg.deadband3d_low → cfg.deadband3d_high ≤ cfg.maxthrottle →
        (if (mixTable cfg inp st).throttlePrevious ≤ cfg.midrc - cfg.deadband3d_throttle then
            cfg.minthrottle ≤ (mixTable cfg inp st).motor i ∧
              (mixTable cfg inp st).motor i ≤ cfg.deadband3d_low
          else
            cfg.deadband3d_high ≤ (mixTable cfg inp st).motor i ∧
              (mixTable cfg inp st).motor i ≤ cfg.maxthrottle) ∧
        ¬ (cfg.deadband3d_low < (mixTable cfg inp st).motor i ∧
            (mixTable cfg inp st).motor i < cfg.deadband3d_high)) := by
  have hstop2 : ¬ (cfg.featureMotorStop = true ∧ motorStopRequested cfg inp = true) := by
    intro h
    simp [h.1, h.2] at hstop
  have hprev : (mixTable cfg inp st).throttlePrevious
      = (mixTableBand cfg inp st).throttlePrevious := rfl
  rw [mixTable_motor_armed cfg inp st i harmed hi, hprev]
  generalize (mixTableBand cfg inp st).throttlePrevious = prev
  generalize (mixTableBand cfg inp st).throttleCommand = cmd
  generalize (mixTableHeadroom cfg inp st).throttleMin = tmin
  generalize (mixTableHeadroom cfg inp st).throttleMax = tmax
  generalize (mixTableHeadroom cfg inp st).rpyMix i = rpy
  generalize st.currentMixer i = m
  have hcmd : motorCommand cfg inp prev cmd tmin tmax rpy m
      = clampedCommand cfg inp prev cmd tmin tmax rpy m := by
    unfold motorCommand
    by_cases h1 : cfg.featureMotorStop = true
    · have h2 : motorStopRequested cfg inp = false := by
        cases h : motorStopRequested cfg inp
        · rfl
        · exact absurd ⟨h1, h⟩ hstop2
      simp [h2]
    · simp [h1]
  rw [hcmd]
  unfold clampedCommand
  simp only [hfs, Bool.false_eq_true, if_false]
  refine ⟨?_, ?_⟩
  · intro h3d hmin hmax hle
    simp only [h3d, Bool.false_eq_true, if_false]
    rw [toInt16_eq_self (constrain_isInt16 _ hle hmin hmax)]
    exact ⟨constrain_ge _ hle, constrain_le _ hle⟩
  · intro h3d hmin hmax hlow hhigh hle1 hle2
    simp only [h3d, if_true]
    by_cases hp : prev ≤ cfg.midrc - cfg.deadband3d_throttle
    · simp only [hp, if_true]
      rw [toInt16_eq_self (constrain_isInt16 _ hle1 hmin hlow)]
      have h1 := constrain_ge (toInt16 (rpy + constrain (truncQ (fmul cmd m.throttle))
        tmin tmax)) hle1
      have h2 := constrain_le (toInt16 (rpy + constrain (truncQ (fmul cmd m.throttle))
        tmin tmax)) hle1
      exact ⟨⟨h1, h2⟩, fun h => by omega⟩
    · simp only [hp, if_false]
      rw [toInt16_eq_self (constrain_isInt16 _ hle2 hhigh hmax)]
      have h1 := constrain_ge (toInt16 (rpy + constrain (truncQ (fmul cmd m.throttle))
        tmin tmax)) hle2
      have h2 := constrain_le (toInt16 (rpy + constrain (truncQ (fmul cmd m.throttle))
        tmin tmax)) hle2
      exact ⟨⟨h1, h2⟩, fun h => by omega⟩

/-- Witness for C1: the default configuration with a roll and pitch demand, 3D off and
3D on. -/
theorem mixTable_motor_within_actuator_range_witness :
    (1150 ≤ (mixTable defaultConfig { idleInputs with axisPIDRoll := 500, axisPIDPitch := 300 }
        quadXState).motor 0 ∧
      (mixTable defaultConfig { idleInputs with axisPIDRoll := 500, axisPIDPitch := 300 }
        quadXState).motor 0 ≤ 1850) ∧
    ¬ (1406 < (mixTable { defaultConfig with feature3D := true }
          { idleInputs with axisPIDRoll := 500, rcCommandThrottle := 1600 } quadXState).motor 0 ∧
        (mixTable { defaultConfig with feature3D := true }
          { idleInputs with axisPIDRoll := 500, rcCommandThrottle := 1600 } quadXState).motor 0
          < 1514) :=
  ⟨(mixTable_motor_within_actuator_range defaultConfig
      { idleInputs with axisPIDRoll := 500, axisPIDPitch := 300 } quadXState 0
      (by decide) rfl rfl rfl).1 rfl (by decide) (by decide) (by decide),
   ((mixTable_motor_within_actuator_range { defaultConfig with feature3D := true }
      { idleInputs with axisPIDRoll := 500, rcCommandThrottle := 1600 } quadXState 0
      (by decide) rfl rfl rfl).2 rfl (by decide) (by decide) (by decide) (by decide)
      (by decide) (by decide)).2⟩

/-- C2: after `mixerResetDisarmedMotors`, a tick executed while not armed sets every
active motor command to the same constant, `neutral3d` with the 3D feature and
`mincommand` without it, whatever the axis demand, throttle command, failsafe state
and motor-stop state of the tick. -/
theorem mixTable_disarmed_output_constant (cfg : Config) (inp : Inputs) (st : State)
    (i : Nat) (hi : i < st.motorCount) (hcount : st.motorCount ≤ cfg.MAX_SUPPORTED_MOTORS)
    (harmed : inp.armed = false) (hn : IsInt16 cfg.neutral3d) (hm : IsInt16 cfg.mincommand) :
    (mixTable cfg inp (mixerResetDisarmedMotors cfg st)).motor i
      = if cfg.feature3D then cfg.neutral3d else cfg.mincommand := by
  have hi2 : i < (mixerResetDisarmedMotors cfg st).motorCount := hi
  rw [mixTable_motor_disarmed cfg inp _ i harmed hi2]
  simp only [mixerResetDisarmedMotors]
  rw [forLoop_const_apply]
  have hlt : i < cfg.MAX_SUPPORTED_MOTORS := Nat.lt_of_lt_of_le hi hcount
  simp only [hlt, if_true]
  by_cases h3 : cfg.feature3D = true
  · simp only [h3, if_true]
    exact toInt16_eq_self hn
  · simp only [h3]
    exact toInt16_eq_self hm

/-- Witness for C2: a disarmed Quad X with the default configuration outputs
`mincommand` on motor 3 in spite of a full roll demand. -/
theorem mixTable_disarmed_output_constant_witness :
    (mixTable defaultConfig { idleInputs with armed := false, axisPIDRoll := 500 }
      (mixerResetDisarmedMotors defaultConfig quadXState)).motor 3 = 1000 :=
  mixTable_disarmed_output_constant defaultConfig
    { idleInputs with armed := false, axisPIDRoll := 500 } quadXState 3
    (by decide) (by decide) rfl (by decide) (by decide)

/-- C3: on an armed tick with the motor-stop feature enabled, if failsafe requires motor
stop, or failsafe is inactive and navigation requests stop or idle, or the vehicle is
not flying autonomously, failsafe is inactive and `rcData[THROTTLE] < mincheck`, every
active motor command is `mincommand` (3D off) or `midrc` (3D on), whatever the mix and
throttle of the tick; if none of the three conditions holds, or the feature is
disabled, the command is the clamped value of lines 511-523 unchanged. -/
theorem mixTable_motor_stop_override (cfg : Config) (inp : Inputs) (st : State)
    (i : Nat) (hi : i < st.motorCount) (harmed : inp.armed = true)
    (hmid : IsInt16 cfg.midrc) (hminc : IsInt16 cfg.mincommand) :
    ((cfg.featureMotorStop = true ∧
        (inp.failsafeRequiresMotorStop = true ∨
          (inp.failsafeIsActive = false ∧ inp.navMotorStopOrIdle = true) ∨
          (inp.navigationIsFlyingAutonomousMode = false ∧ inp.failsafeIsActive = false ∧
            inp.rcDataThrottle < cfg.mincheck))) →
      (mixTable cfg inp st).motor i = if cfg.feature3D then cfg.midrc else cfg.mincommand) ∧
    (¬ (cfg.featureMotorStop = true ∧
        (inp.failsafeRequiresMotorStop = true ∨
          (inp.failsafeIsActive = false ∧ inp.navMotorStopOrIdle = true) ∨
          (inp.navigationIsFlyingAutonomousMode = false ∧ inp.failsafeIsActive = false ∧
            inp.rcDataThrottle < cfg.mincheck))) →
      (mixTable cfg inp st).motor i
        = clampedCommand cfg inp (mixTableBand cfg inp st).throttlePrevious
            (mixTableBand cfg inp st).throttleCommand (mixTableHeadroom cfg inp st).throttleMin
            (mixTableHeadroom cfg inp st).throttleMax ((mixTableHeadroom cfg inp st).rpyMix i)
            (st.currentMixer i)) := by
  have hreq : motorStopRequested cfg inp = true ↔
      (inp.failsafeRequiresMotorStop = true ∨
        (inp.failsafeIsActive = false ∧ inp.navMotorStopOrIdle = true) ∨
        (inp.navigationIsFlyingAutonomousMode = false ∧ inp.failsafeIsActive = false ∧
          inp.rcDataThrottle < cfg.mincheck)) := by
    simp [motorStopRequested, or_assoc, and_assoc]
  rw [mixTable_motor_armed cfg inp st i harmed hi]
  unfold motorCommand
  refine ⟨?_, ?_⟩
  · rintro ⟨hf, hc⟩
    have hc2 := hreq.mpr hc
    simp only [hf, harmed, hc2, Bool.and_self, if_true]
    by_cases h3 : cfg.feature3D = true
    · simp only [h3, if_true]
      exact toInt16_eq_self hmid
    · simp only [h3]
      exact toInt16_eq_self hminc
  · intro hn
    by_cases hf : cfg.featureMotorStop = true
    · have hc2 : motorStopRequested cfg inp = false := by
        cases h : motorStopRequested cfg inp
        · rfl
        · exact absurd ⟨hf, hreq.mp h⟩ hn
      simp [hc2]
    · simp [hf]

/-- Witness for C3: motor stop enabled and the throttle stick below `mincheck` force
`mincommand` on motor 1 in spite of a roll demand. -/
theorem mixTable_motor_stop_override_witness :
    (mixTable { defaultConfig with featureMotorStop := true }
      { idleInputs with rcDataThrottle := 1000, axisPIDRoll := 400 } quadXState).motor 1
      = 1000 :=
  (mixTable_motor_stop_override { defaultConfig with featureMotorStop := true }
    { idleInputs with rcDataThrottle := 1000, axisPIDRoll := 400 } quadXState 1
    (by decide) rfl (by decide) (by decide)).1 ⟨rfl, Or.inr (Or.inr ⟨rfl, rfl, by decide⟩)⟩

/-! ## Failsafe clamp and saturation flag -/

theorem forLoop_rpyMixBody (cfg : Config) (input : AxisInput) (cm : Nat → motorMixer_t)
    (n : Nat) :
    (forLoop (rpyMixBody cfg input cm) n
        { rpyMix := fun _ => 0, rpyMixMax := 0, rpyMixMin := 0 }).rpyMixMax
      = ((List.range n).map (fun i => rpyMixValue cfg input (cm i))).foldl max 0 ∧
    (forLoop (rpyMixBody cfg input cm) n
        { rpyMix := fun _ => 0, rpyMixMax := 0, rpyMixMin := 0 }).rpyMixMin
      = ((List.range n).map (fun i => rpyMixValue cfg input (cm i))).foldl min 0 := by
  induction n with
  | zero => simp [forLoop]
  | succ n ih =>
    simp only [forLoop, rpyMixBody, List.range_succ, List.map_append, List.map_cons,
      List.map_nil, List.foldl_append, List.foldl_cons, List.foldl_nil]
    rw [ih.1, ih.2]
    constructor
    · split_ifs with h
      · exact (max_eq_right (le_of_lt h)).symm
      · exact (max_eq_left (not_lt.mp h)).symm
    · split_ifs with h
      · exact (min_eq_right (le_of_lt h)).symm
      · exact (min_eq_left (not_lt.mp h)).symm

/-- C5, the claim fails when the mix spread does not fit the `int16_t` local
`rpyMixRange`.  Two motors with roll gains 60 and -60 and a roll demand of 500 give
`rpyMix` 30000 and -30000: the spread 60000 exceeds the band width 700, but line 457
stores 60000 as -5536 and the flag is false. -/
theorem mixerIsOutputSaturated_wrap_counterexample :
    specRpyMixMax defaultConfig fullRollInputs steepRollState = 30000 ∧
    specRpyMixMin defaultConfig fullRollInputs steepRollState = -30000 ∧
    (mixTableBand defaultConfig fullRollInputs steepRollState).throttleMax
      - (mixTableBand defaultConfig fullRollInputs steepRollState).throttleMin = 700 ∧
    mixTableRpyMixRange defaultConfig fullRollInputs steepRollState = -5536 ∧
    mixerIsOutputSaturated (mixTable defaultConfig fullRollInputs steepRollState) = false := by
  decide!

/-- C5 as amended: after every tick, armed or not and for any motor count,
`mixerIsOutputSaturated` is true exactly when `rpyMixRange > throttleRange` holds for
the two differences as stored in their `int16_t` locals, that is for
`max(0, max_i rpyMix[i]) - min(0, min_i rpyMix[i])` over the active motors and
`bandMax - bandMin` of the selected band, each reduced to 16 bit two's complement.
Whenever both differences fit `int16_t`, this is the comparison of the differences
themselves. -/
theorem mixerIsOutputSaturated_iff (cfg : Config) (inp : Inputs) (st : State) :
    (mixerIsOutputSaturated (mixTable cfg inp st) = true ↔
      toInt16 (specRpyMixMax cfg inp st - specRpyMixMin cfg inp st)
        > toInt16 ((mixTableBand cfg inp st).throttleMax
            - (mixTableBand cfg inp st).throttleMin)) ∧
    (IsInt16 (specRpyMixMax cfg inp st - specRpyMixMin cfg inp st) →
      IsInt16 ((mixTableBand cfg inp st).throttleMax
        - (mixTableBand cfg inp st).throttleMin) →
      (mixerIsOutputSaturated (mixTable cfg inp st) = true ↔
        specRpyMixMax cfg inp st - specRpyMixMin cfg inp st
          > (mixTableBand cfg inp st).throttleMax
              - (mixTableBand cfg inp st).throttleMin)) := by
  have hloop := forLoop_rpyMixBody cfg (mixInput cfg inp st.motorCount) st.currentMixer
    st.motorCount
  have h1 : mixTableRpyMixRange cfg inp st
      = toInt16 (specRpyMixMax cfg inp st - specRpyMixMin cfg inp st) := by
    unfold mixTableRpyMixRange mixTableRpy
    rw [hloop.1, hloop.2]
    rfl
  have h2 : mixTableThrottleRange cfg inp st
      = toInt16 ((mixTableBand cfg inp st).throttleMax
          - (mixTableBand cfg inp st).throttleMin) := rfl
  have h3 : mixerIsOutputSaturated (mixTable cfg inp st)
      = (mixTableHeadroom cfg inp st).motorLimitReached := rfl
  have hflag : mixerIsOutputSaturated (mixTable cfg inp st) = true ↔
      toInt16 (specRpyMixMax cfg inp st - specRpyMixMin cfg inp st)
        > toInt16 ((mixTableBand cfg inp st).throttleMax
            - (mixTableBand cfg inp st).throttleMin) := by
    rw [h3, ← h1, ← h2]
    unfold mixTableHeadroom headroom
    split_ifs with h
    · simp [h]
    · simp [h]
  refine ⟨hflag, fun hrpy hthr => ?_⟩
  rw [hflag, toInt16_eq_self hrpy, toInt16_eq_self hthr]

/-- Witness for C5 as amended: the saturating demand on the default Quad X sets the
flag (`rpyMixRange` 2000 against `throttleRange` 700, both within `int16_t`). -/
theorem mixerIsOutputSaturated_iff_witness :
    mixerIsOutputSaturated (mixTable defaultConfig saturatingInputs quadXState) = true ∧
    specRpyMixMax defaultConfig saturatingInputs quadXState
      - specRpyMixMin defaultConfig saturatingInputs quadXState = 2000 :=
  ⟨((mixerIsOutputSaturated_iff defaultConfig saturatingInputs quadXState).2
      (by decide!) (by decide!)).mpr (by decide!), by decide!⟩

/-- C6, evaluation of the saturation branch on the default Quad X: the selected band
is `[1150, 1850]` (`throttleRange` 700, centre 1500) and the demand saturates; the
band left by lines 499-500 is `[1384, 1849]`, whereas centre plus or minus
`700 * 0.33 / 2` would be `[1384, 1615]`. -/
theorem mixTable_saturated_band_not_centred :
    (mixTableBand defaultConfig saturatingInputs quadXState).throttleMin = 1150 ∧
    (mixTableBand defaultConfig saturatingInputs quadXState).throttleMax = 1850 ∧
    mixTableRpyMixRange defaultConfig saturatingInputs quadXState = 2000 ∧
    mixTableThrottleRange defaultConfig saturatingInputs quadXState = 700 ∧
    (mixTableHeadroom defaultConfig saturatingInputs quadXState).motorLimitReached = true ∧
    (mixTableHeadroom defaultConfig saturatingInputs quadXState).throttleMin = 1384 ∧
    (mixTableHeadroom defaultConfig saturatingInputs quadXState).throttleMax = 1849 ∧
    truncQ ((1500 : ℚ) + 700 * (33 / 100) / 2) = 1615 := by
  decide!

/-! ## 3D deadband hysteresis -/

/-- C8: in 3D mode, on a tick whose raw throttle is strictly inside the deadband, the
band is decided by the stored hysteresis value alone and an armed tick leaves that
value unchanged.  Armed with the stored value on the negative side: band
`[minthrottle, deadband3d_low]`, throttle pinned to `deadband3d_low`.  Armed with the
stored value not on the negative side, or disarmed (hysteresis forced to `midrc`):
band `[deadband3d_high, maxthrottle]`, throttle pinned to `deadband3d_high`.  The raw
throttle is not passed through. -/
theorem mixTable_deadband_keeps_direction (cfg : Config) (inp : Inputs) (st : State)
    (h3d : cfg.feature3D = true)
    (hlo : cfg.midrc - cfg.deadband3d_throttle < inp.rcCommandThrottle)
    (hhi : inp.rcCommandThrottle < cfg.midrc + cfg.deadband3d_throttle)
    (hmin : IsInt16 cfg.minthrottle) (hmax : IsInt16 cfg.maxthrottle)
    (hlow : IsInt16 cfg.deadband3d_low) (hhigh : IsInt16 cfg.deadband3d_high)
    (hmid : IsInt16 cfg.midrc) :
    (inp.armed = true → st.throttlePrevious ≤ cfg.midrc - cfg.deadband3d_throttle →
      mixTableBand cfg inp st
          = { throttleMin := cfg.minthrottle, throttleMax := cfg.deadband3d_low,
              throttleCommand := cfg.deadband3d_low,
              throttlePrevious := st.throttlePrevious } ∧
        (mixTable cfg inp st).throttlePrevious = st.throttlePrevious) ∧
    (inp.armed = true → cfg.midrc - cfg.deadband3d_throttle < st.throttlePrevious →
      mixTableBand cfg inp st
          = { throttleMin := cfg.deadband3d_high, throttleMax := cfg.maxthrottle,
              throttleCommand := cfg.deadband3d_high,
              throttlePrevious := st.throttlePrevious } ∧
        (mixTable cfg inp st).throttlePrevious = st.throttlePrevious) ∧
    (inp.armed = false →
      mixTableBand cfg inp st
          = { throttleMin := cfg.deadband3d_high, throttleMax := cfg.maxthrottle,
              throttleCommand := cfg.deadband3d_high, throttlePrevious := cfg.midrc } ∧
        (mixTable cfg inp st).throttlePrevious = cfg.midrc) := by
  have hprev : (mixTable cfg inp st).throttlePrevious
      = (mixTableBand cfg inp st).throttlePrevious := rfl
  have hnlo : ¬ inp.rcCommandThrottle ≤ cfg.midrc - cfg.deadband3d_throttle := not_le.mpr hlo
  have hnhi : ¬ inp.rcCommandThrottle ≥ cfg.midrc + cfg.deadband3d_throttle := not_le.mpr hhi
  rw [hprev]
  unfold mixTableBand throttleBand
  simp only [h3d, if_true, hnlo, hnhi, if_false, toInt16_eq_self hmin, toInt16_eq_self hmax,
    toInt16_eq_self hlow, toInt16_eq_self hhigh, toInt16_eq_self hmid]
  refine ⟨?_, ?_, ?_⟩
  · intro ha hp
    simp [ha, hp]
  · intro ha hp
    have hp2 : ¬ st.throttlePrevious ≤ cfg.midrc - cfg.deadband3d_throttle := not_le.mpr hp
    simp [ha, hp2]
  · intro ha
    have hp2 : ¬ cfg.midrc ≤ cfg.midrc - cfg.deadband3d_throttle := by omega
    simp [ha, hp2]

/-- Witness for C8: throttle 1500 inside the deadband `(1450, 1550)` after a positive
command keeps the positive band and pins the throttle to `deadband3d_high`. -/
theorem mixTable_deadband_keeps_direction_witness :
    mixTableBand config3D idleInputs positiveState
        = { throttleMin := 1514, throttleMax := 1850, throttleCommand := 1514,
            throttlePrevious := 1600 } ∧
      (mixTable config3D idleInputs positiveState).throttlePrevious = 1600 :=
  (mixTable_deadband_keeps_direction config3D idleInputs positiveState rfl (by decide)
    (by decide) (by decide) (by decide) (by decide) (by decide) (by decide)).2.1 rfl
    (by decide)

/-- C9, the claim fails on both deadband edges.  Raw throttle 1450
`= midrc - deadband3d_throttle` after a positive command: the negative band is
selected, the raw throttle is passed through and stored, instead of keeping the
positive band.  Raw throttle 1550 `= midrc + deadband3d_throttle` after a negative
command: the positive band is selected instead of keeping the negative one. -/
theorem mixTable_deadband_edge_counterexample :
    config3D.feature3D = true ∧ lowerEdgeInputs.armed = true ∧
    lowerEdgeInputs.rcCommandThrottle = config3D.midrc - config3D.deadband3d_throttle ∧
    config3D.midrc - config3D.deadband3d_throttle < positiveState.throttlePrevious ∧
    mixTableBand config3D lowerEdgeInputs positiveState
      = { throttleMin := 1150, throttleMax := 1406, throttleCommand := 1450,
          throttlePrevious := 1450 } ∧
    (mixTable config3D lowerEdgeInputs positiveState).throttlePrevious = 1450 ∧
    upperEdgeInputs.rcCommandThrottle = config3D.midrc + config3D.deadband3d_throttle ∧
    negativeState.throttlePrevious ≤ config3D.midrc - config3D.deadband3d_throttle ∧
    mixTableBand config3D upperEdgeInputs negativeState
      = { throttleMin := 1514, throttleMax := 1850, throttleCommand := 1550,
          throttlePrevious := 1550 } := by
  decide

/-- C9 as amended: in 3D mode the lower edge is tested first.  A raw throttle at or
below `midrc - deadband3d_throttle` selects the negative band
`[minthrottle, deadband3d_low]`.  A raw throttle above that edge and at or above
`midrc + deadband3d_throttle` selects the positive band
`[deadband3d_high, maxthrottle]`; with `deadband3d_throttle > 0` that is every raw
throttle at or above `midrc + deadband3d_throttle`, whereas with
`deadband3d_throttle = 0` the raw throttle `midrc` meets both tests and gets the
negative band.  In both cases the raw throttle is passed through and stored as the new
hysteresis value.  A raw throttle strictly between the two edges keeps the band of
the stored direction, with the throttle pinned to the deadband limit of that band; an
armed tick leaves the stored value unchanged and a disarmed tick first sets it to
`midrc`.  The four band limits are taken to fit `int16_t`. -/
theorem mixTable_deadband_transition (cfg : Config) (inp : Inputs) (st : State)
    (h3d : cfg.feature3D = true)
    (hmin : IsInt16 cfg.minthrottle) (hmax : IsInt16 cfg.maxthrottle)
    (hlow : IsInt16 cfg.deadband3d_low) (hhigh : IsInt16 cfg.deadband3d_high) :
    (inp.rcCommandThrottle ≤ cfg.midrc - cfg.deadband3d_throttle →
      mixTableBand cfg inp st
          = { throttleMin := cfg.minthrottle, throttleMax := cfg.deadband3d_low,
              throttleCommand := inp.rcCommandThrottle,
              throttlePrevious := inp.rcCommandThrottle } ∧
        (mixTable cfg inp st).throttlePrevious = inp.rcCommandThrottle) ∧
    (cfg.midrc - cfg.deadband3d_throttle < inp.rcCommandThrottle →
      cfg.midrc + cfg.deadband3d_throttle ≤ inp.rcCommandThrottle →
      mixTableBand cfg inp st
          = { throttleMin := cfg.deadband3d_high, throttleMax := cfg.maxthrottle,
              throttleCommand := inp.rcCommandThrottle,
              throttlePrevious := inp.rcCommandThrottle } ∧
        (mixTable cfg inp st).throttlePrevious = inp.rcCommandThrottle) ∧
    (0 < cfg.deadband3d_throttle →
      cfg.midrc + cfg.deadband3d_throttle ≤ inp.rcCommandThrottle →
      mixTableBand cfg inp st
          = { throttleMin := cfg.deadband3d_high, throttleMax := cfg.maxthrottle,
              throttleCommand := inp.rcCommandThrottle,
              throttlePrevious := inp.rcCommandThrottle } ∧
        (mixTable cfg inp st).throttlePrevious = inp.rcCommandThrottle) ∧
    (cfg.deadband3d_throttle = 0 → inp.rcCommandThrottle = cfg.midrc →
      mixTableBand cfg inp st
          = { throttleMin := cfg.minthrottle, throttleMax := cfg.deadband3d_low,
              throttleCommand := inp.rcCommandThrottle,
              throttlePrevious := inp.rcCommandThrottle } ∧
        (mixTable cfg inp st).throttlePrevious = inp.rcCommandThrottle) ∧
    (cfg.midrc - cfg.deadband3d_throttle < inp.rcCommandThrottle →
      inp.rcCommandThrottle < cfg.midrc + cfg.deadband3d_throttle → inp.armed = true →
      (mixTable cfg inp st).throttlePrevious = st.throttlePrevious ∧
      mixTableBand cfg inp st
        = (if st.throttlePrevious ≤ cfg.midrc - cfg.deadband3d_throttle then
            { throttleMin := cfg.minthrottle, throttleMax := cfg.deadband3d_low,
              throttleCommand := cfg.deadband3d_low,
              throttlePrevious := st.throttlePrevious }
          else
            { throttleMin := cfg.deadband3d_high, throttleMax := cfg.maxthrottle,
              throttleCommand := cfg.deadband3d_high,
              throttlePrevious := st.throttlePrevious })) ∧
    (cfg.midrc - cfg.deadband3d_throttle < inp.rcCommandThrottle →
      inp.rcCommandThrottle < cfg.midrc + cfg.deadband3d_throttle → inp.armed = false →
      (mixTable cfg inp st).throttlePrevious = toInt16 cfg.midrc ∧
      mixTableBand cfg inp st
        = (if toInt16 cfg.midrc ≤ cfg.midrc - cfg.deadband3d_throttle then
            { throttleMin := cfg.minthrottle, throttleMax := cfg.deadband3d_low,
              throttleCommand := cfg.deadband3d_low,
              throttlePrevious := toInt16 cfg.midrc }
          else
            { throttleMin := cfg.deadband3d_high, throttleMax := cfg.maxthrottle,
              throttleCommand := cfg.deadband3d_high,
              throttlePrevious := toInt16 cfg.midrc })) := by
  have hprev : (mixTable cfg inp st).throttlePrevious
      = (mixTableBand cfg inp st).throttlePrevious := rfl
  rw [hprev]
  unfold mixTableBand throttleBand
  simp only [h3d, if_true, toInt16_eq_self hmin, toInt16_eq_self hmax,
    toInt16_eq_self hlow, toInt16_eq_self hhigh]
  refine ⟨?_, ?_, ?_, ?_, ?_, ?_⟩
  · intro h
    simp [h]
  · intro h1 h2
    have hn : ¬ inp.rcCommandThrottle ≤ cfg.midrc - cfg.deadband3d_throttle := not_le.mpr h1
    simp [hn, h2]
  · intro h0 h2
    have hn : ¬ inp.rcCommandThrottle ≤ cfg.midrc - cfg.deadband3d_throttle := by omega
    simp [hn, h2]
  · intro h0 h2
    have h : inp.rcCommandThrottle ≤ cfg.midrc - cfg.deadband3d_throttle := by omega
    simp [h]
  · intro h1 h2 ha
    have hn1 : ¬ inp.rcCommandThrottle ≤ cfg.midrc - cfg.deadband3d_throttle := not_le.mpr h1
    have hn2 : ¬ inp.rcCommandThrottle ≥ cfg.midrc + cfg.deadband3d_throttle := not_le.mpr h2
    simp only [hn1, hn2, if_false, ha, Bool.not_true, Bool.false_eq_true]
    split_ifs <;> simp
  · intro h1 h2 ha
    have hn1 : ¬ inp.rcCommandThrottle ≤ cfg.midrc - cfg.deadband3d_throttle := not_le.mpr h1
    have hn2 : ¬ inp.rcCommandThrottle ≥ cfg.midrc + cfg.deadband3d_throttle := not_le.mpr h2
    simp only [hn1, hn2, if_false, ha, Bool.not_false, if_true]
    split_ifs <;> simp

/-- Witness for C9 as amended: the raw throttle on the lower deadband edge selects the
negative band and is stored. -/
theorem mixTable_deadband_transition_witness :
    mixTableBand config3D lowerEdgeInputs positiveState
        = { throttleMin := 1150, throttleMax := 1406, throttleCommand := 1450,
            throttlePrevious := 1450 } ∧
      (mixTable config3D lowerEdgeInputs positiveState).throttlePrevious = 1450 :=
  (mixTable_deadband_transition config3D lowerEdgeInputs positiveState rfl (by decide)
    (by decide) (by decide) (by decide)).1 (by decide)

/-! ## Yaw jump prevention -/

theorem ABS_eq_abs (x : Int) : ABS x = |x| := by
  unfold ABS
  split_ifs with h
  · exact (abs_of_pos h).symm
  · exact (abs_of_nonpos (not_lt.mp h)).symm

/-- C10: with the axis input taken from the attitude controller, `motorCount ≥ 4` and
`yaw_jump_prevention_limit < YAW_JUMP_PREVENTION_LIMIT_HIGH`, the yaw demand used for
mixing is `axisPID[YAW]` clamped to plus or minus `limit + |rcCommand[YAW]|`; with
fewer than four motors or a limit at or above the threshold it is `axisPID[YAW]`
unclamped, and in fixed-wing manual passthrough it is the stick value unclamped.  Roll
and pitch demand are never altered. -/
theorem mixInput_yaw_jump_prevention (cfg : Config) (inp : Inputs) (motorCount : Nat)
    (hyaw : IsInt16 inp.axisPIDYaw) (hlim : 0 ≤ cfg.yaw_jump_prevention_limit) :
    ((inp.fixedWing && inp.manualMode) = false → 4 ≤ motorCount →
      cfg.yaw_jump_prevention_limit < cfg.YAW_JUMP_PREVENTION_LIMIT_HIGH →
      (mixInput cfg inp motorCount).yaw
        = max (-(cfg.yaw_jump_prevention_limit + |inp.rcCommandYaw|))
            (min inp.axisPIDYaw (cfg.yaw_jump_prevention_limit + |inp.rcCommandYaw|))) ∧
    ((inp.fixedWing && inp.manualMode) = false →
      (motorCount < 4 ∨ cfg.YAW_JUMP_PREVENTION_LIMIT_HIGH ≤ cfg.yaw_jump_prevention_limit) →
      (mixInput cfg inp motorCount).yaw = inp.axisPIDYaw) ∧
    ((inp.fixedWing && inp.manualMode) = true →
      (mixInput cfg inp motorCount).yaw = inp.rcCommandYaw) ∧
    (mixInput cfg inp motorCount).roll
      = (if (inp.fixedWing && inp.manualMode) = true then inp.rcCommandRoll
          else inp.axisPIDRoll) ∧
    (mixInput cfg inp motorCount).pitch
      = (if (inp.fixedWing && inp.manualMode) = true then inp.rcCommandPitch
          else inp.axisPIDPitch) := by
  have habs : 0 ≤ |inp.rcCommandYaw| := abs_nonneg _
  unfold IsInt16 at hyaw
  refine ⟨?_, ?_, ?_, ?_, ?_⟩
  · intro hp hn hl
    have hc : motorCount ≥ 4 ∧
        cfg.yaw_jump_prevention_limit < cfg.YAW_JUMP_PREVENTION_LIMIT_HIGH := ⟨hn, hl⟩
    unfold mixInput
    rw [if_neg (by simp [hp])]
    simp only [hc, and_self, if_true, ABS_eq_abs]
    generalize |inp.rcCommandYaw| = a at habs
    unfold constrain
    split_ifs with h1 h2
    · rw [toInt16_eq_self (by unfold IsInt16; omega)]
      omega
    · rw [toInt16_eq_self (by unfold IsInt16; omega)]
      omega
    · rw [toInt16_eq_self (by unfold IsInt16; omega)]
      omega
  · intro hp hn
    have hc : ¬ (motorCount ≥ 4 ∧
        cfg.yaw_jump_prevention_limit < cfg.YAW_JUMP_PREVENTION_LIMIT_HIGH) := by
      rintro ⟨h1, h2⟩
      omega
    unfold mixInput
    rw [if_neg (by simp [hp])]
    simp only [hc, if_false]
  · intro hp
    unfold mixInput
    rw [if_pos hp]
  · unfold mixInput
    split_ifs <;> rfl
  · unfold mixInput
    split_ifs <;> rfl

/-- Witness for C10: limit 200 and yaw stick 50 turn a demand of 1000 into 250 and a
demand of -1000 into -250 on a four motor airframe. -/
theorem mixInput_yaw_jump_prevention_witness :
    (mixInput defaultConfig yawJumpInputs 4).yaw = 250 ∧
    (mixInput defaultConfig yawJumpNegInputs 4).yaw = -250 :=
  ⟨((mixInput_yaw_jump_prevention defaultConfig yawJumpInputs 4 (by decide) (by decide)).1
      rfl (by decide) (by decide)).trans (by decide),
   ((mixInput_yaw_jump_prevention defaultConfig yawJumpNegInputs 4 (by decide) (by decide)).1
      rfl (by decide) (by decide)).trans (by decide)⟩

/-! ## Single precision rounding -/

theorem bitLog_spec (fuel : Nat) : ∀ n : Nat, 0 < n → n ≤ fuel →
    2 ^ bitLog fuel n ≤ n ∧ n < 2 ^ (bitLog fuel n + 1) := by
  induction fuel with
  | zero => intro n h0 h1; omega
  | succ fuel ih =>
    intro n h0 h1
    unfold bitLog
    split_ifs with h2
    · have h3 := ih (n / 2) (by omega) (by omega)
      rw [pow_succ, pow_succ (n := bitLog fuel (n / 2) + 1)]
      omega
    · have h3 : n = 1 := by omega
      subst h3
      simp

theorem natLog2_spec (n : Nat) (h : 0 < n) :
    2 ^ natLog2 n ≤ n ∧ n < 2 ^ (natLog2 n + 1) :=
  bitLog_spec n n h (le_refl n)

theorem abs_eq_natAbs_div_den (q : ℚ) : |q| = (q.num.natAbs : ℚ) / (q.den : ℚ) := by
  have hden : (0 : ℚ) < q.den := by exact_mod_cast q.den_pos
  conv_lhs => rw [← Rat.num_div_den q]
  rw [abs_div, abs_of_pos hden]
  congr 1
  rw [Nat.cast_natAbs, Int.cast_abs]

theorem ilog2_le (q : ℚ) (hq : q ≠ 0) : (2 : ℚ) ^ ilog2 q ≤ |q| := by
  unfold ilog2
  simp only
  split_ifs with h
  · exact h
  · have hnum : 0 < q.num.natAbs := Int.natAbs_pos.mpr (Rat.num_ne_zero.mpr hq)
    have h1 := (natLog2_spec q.num.natAbs hnum).1
    have h2 := (natLog2_spec q.den q.den_pos).2
    have hden : (0 : ℚ) < q.den := by exact_mod_cast q.den_pos
    rw [abs_eq_natAbs_div_den, le_div_iff₀ hden]
    have h1q : (2 : ℚ) ^ natLog2 q.num.natAbs ≤ (q.num.natAbs : ℚ) := by exact_mod_cast h1
    have h2q : (q.den : ℚ) ≤ (2 : ℚ) ^ (natLog2 q.den + 1) := by exact_mod_cast le_of_lt h2
    have hpow : (2 : ℚ) ^ ((natLog2 q.num.natAbs : Int) - (natLog2 q.den : Int) - 1)
        * (2 : ℚ) ^ (natLog2 q.den + 1) = (2 : ℚ) ^ natLog2 q.num.natAbs := by
      rw [← zpow_natCast (2 : ℚ) (natLog2 q.den + 1), ← zpow_add₀ (by norm_num : (2 : ℚ) ≠ 0),
        ← zpow_natCast (2 : ℚ) (natLog2 q.num.natAbs)]
      congr 1
      push_cast
      ring
    calc (2 : ℚ) ^ ((natLog2 q.num.natAbs : Int) - (natLog2 q.den : Int) - 1) * (q.den : ℚ)
        ≤ (2 : ℚ) ^ ((natLog2 q.num.natAbs : Int) - (natLog2 q.den : Int) - 1)
            * (2 : ℚ) ^ (natLog2 q.den + 1) :=
          mul_le_mul_of_nonneg_left h2q (le_of_lt (zpow_pos (by norm_num) _))
      _ = (2 : ℚ) ^ natLog2 q.num.natAbs := hpow
      _ ≤ (q.num.natAbs : ℚ) := h1q

theorem lt_ilog2_succ (q : ℚ) (hq : q ≠ 0) : |q| < (2 : ℚ) ^ (ilog2 q + 1) := by
  unfold ilog2
  simp only
  split_ifs with h
  · have hnum : 0 < q.num.natAbs := Int.natAbs_pos.mpr (Rat.num_ne_zero.mpr hq)
    have h1 := (natLog2_spec q.num.natAbs hnum).2
    have h2 := (natLog2_spec q.den q.den_pos).1
    have hden : (0 : ℚ) < q.den := by exact_mod_cast q.den_pos
    rw [abs_eq_natAbs_div_den, div_lt_iff₀ hden]
    have h1q : (q.num.natAbs : ℚ) < (2 : ℚ) ^ (natLog2 q.num.natAbs + 1) := by exact_mod_cast h1
    have h2q : (2 : ℚ) ^ natLog2 q.den ≤ (q.den : ℚ) := by exact_mod_cast h2
    have hpow : (2 : ℚ) ^ ((natLog2 q.num.natAbs : Int) - (natLog2 q.den : Int) + 1)
        * (2 : ℚ) ^ natLog2 q.den = (2 : ℚ) ^ (natLog2 q.num.natAbs + 1) := by
      rw [← zpow_natCast (2 : ℚ) (natLog2 q.den), ← zpow_add₀ (by norm_num : (2 : ℚ) ≠ 0),
        ← zpow_natCast (2 : ℚ) (natLog2 q.num.natAbs + 1)]
      congr 1
      push_cast
      ring
    calc (q.num.natAbs : ℚ) < (2 : ℚ) ^ (natLog2 q.num.natAbs + 1) := h1q
      _ = (2 : ℚ) ^ ((natLog2 q.num.natAbs : Int) - (natLog2 q.den : Int) + 1)
            * (2 : ℚ) ^ natLog2 q.den := hpow.symm
      _ ≤ (2 : ℚ) ^ ((natLog2 q.num.natAbs : Int) - (natLog2 q.den : Int) + 1) * (q.den : ℚ) :=
          mul_le_mul_of_nonneg_left h2q (le_of_lt (zpow_pos (by norm_num) _))
  · have : (natLog2 q.num.natAbs : Int) - (natLog2 q.den : Int) - 1 + 1
        = (natLog2 q.num.natAbs : Int) - (natLog2 q.den : Int) := by ring
    rw [this]
    exact not_le.mp h

theorem roundEven_abs_sub_le (z : ℚ) : |(roundEven z : ℚ) - z| ≤ 1 / 2 := by
  have h1 := Int.floor_le z
  have h2 := Int.lt_floor_add_one z
  unfold roundEven
  simp only
  rw [abs_le]
  split_ifs with ha hb hc
  · constructor <;> linarith
  · push_cast
    constructor <;> linarith
  · have : z - (⌊z⌋ : ℚ) = 1 / 2 := le_antisymm (not_lt.mp hb) (not_lt.mp ha)
    constructor <;> linarith
  · have : z - (⌊z⌋ : ℚ) = 1 / 2 := le_antisymm (not_lt.mp hb) (not_lt.mp ha)
    push_cast
    constructor <;> linarith

theorem roundEven_intCast (m : Int) : roundEven (m : ℚ) = m := by
  unfold roundEven
  simp

theorem roundEven_nonneg {z : ℚ} (hz : 0 ≤ z) : 0 ≤ roundEven z := by
  have hf : 0 ≤ ⌊z⌋ := Int.floor_nonneg.mpr hz
  unfold roundEven
  simp only
  split_ifs <;> omega

theorem roundEven_nonpos {z : ℚ} (hz : z ≤ 0) : roundEven z ≤ 0 := by
  have hfq : (⌊z⌋ : ℚ) ≤ 0 := le_trans (Int.floor_le z) hz
  have hf : ⌊z⌋ ≤ 0 := by exact_mod_cast hfq
  unfold roundEven
  simp only
  split_ifs with ha hb hc
  · exact hf
  · have h1 : (⌊z⌋ : ℚ) < 0 := by linarith
    have h2 : ⌊z⌋ < 0 := by exact_mod_cast h1
    omega
  · exact hf
  · have heq : z - (⌊z⌋ : ℚ) = 1 / 2 := le_antisymm (not_lt.mp hb) (not_lt.mp ha)
    have h1 : (⌊z⌋ : ℚ) < 0 := by linarith
    have h2 : ⌊z⌋ < 0 := by exact_mod_cast h1
    omega

theorem two_zpow_neg (n : Nat) : (2 : ℚ) ^ (-(n : Int)) = 1 / 2 ^ n := by
  rw [zpow_neg, zpow_natCast, one_div]

theorem two_zpow_neg_126 : (2 : ℚ) ^ (-126 : Int) = 1 / 2 ^ 126 := two_zpow_neg 126

theorem ilog2_ge_of_le_abs {q : ℚ} (h0 : q ≠ 0) {a : Int} (h : (2 : ℚ) ^ a ≤ |q|) :
    a ≤ ilog2 q := by
  have h4 := lt_ilog2_succ q h0
  have h5 : a < ilog2 q + 1 :=
    (zpow_lt_zpow_iff_right₀ (by norm_num : (1 : ℚ) < 2)).mp (lt_of_le_of_lt h h4)
  omega

theorem ilog2_le_of_abs_le {q : ℚ} (h0 : q ≠ 0) {a : Int} (h : |q| ≤ (2 : ℚ) ^ a) :
    ilog2 q ≤ a :=
  (zpow_le_zpow_iff_right₀ (by norm_num : (1 : ℚ) < 2)).mp (le_trans (ilog2_le q h0) h)

theorem binary32_zero : binary32 0 = 0 := by
  unfold binary32
  rw [if_pos rfl]

theorem binary32_abs_sub_le_ulp (q : ℚ) (h0 : q ≠ 0) :
    |binary32 q - q| ≤ (2 : ℚ) ^ (max (ilog2 q) (-126) - 23) / 2 := by
  unfold binary32
  rw [if_neg h0]
  simp only
  generalize max (ilog2 q) (-126) - 23 = k
  have hu : (0 : ℚ) < (2 : ℚ) ^ k := zpow_pos (by norm_num) _
  have hr := roundEven_abs_sub_le (q / (2 : ℚ) ^ k)
  have heq : (roundEven (q / (2 : ℚ) ^ k) : ℚ) * (2 : ℚ) ^ k - q
      = ((roundEven (q / (2 : ℚ) ^ k) : ℚ) - q / (2 : ℚ) ^ k) * (2 : ℚ) ^ k := by
    field_simp
  rw [heq, abs_mul, abs_of_pos hu]
  have h3 := mul_le_mul_of_nonneg_right hr (le_of_lt hu)
  linarith

/-- Relative error of rounding in the normal range. -/
theorem binary32_abs_sub_le {q : ℚ} (hq : 1 / 2 ^ 126 ≤ |q|) :
    |binary32 q - q| ≤ |q| / 2 ^ 24 := by
  have h0 : q ≠ 0 := by
    rintro rfl
    norm_num at hq
  have he : (-126 : Int) ≤ ilog2 q := ilog2_ge_of_le_abs h0 (two_zpow_neg_126 ▸ hq)
  have h := binary32_abs_sub_le_ulp q h0
  rw [max_eq_left he] at h
  have hlog := ilog2_le q h0
  have hsplit : (2 : ℚ) ^ ilog2 q = (2 : ℚ) ^ (ilog2 q - 23) * 2 ^ 23 := by
    rw [← zpow_natCast (2 : ℚ) 23, ← zpow_add₀ (by norm_num : (2 : ℚ) ≠ 0)]
    congr 1
    push_cast
    ring
  rw [hsplit] at hlog
  rw [le_div_iff₀ (by norm_num : (0 : ℚ) < 2 ^ 24)]
  linarith

/-- Absolute error of rounding below the normal range. -/
theorem binary32_abs_sub_le_tiny {q : ℚ} (hq : |q| ≤ 1 / 2 ^ 126) :
    |binary32 q - q| ≤ 1 / 2 ^ 150 := by
  by_cases h0 : q = 0
  · subst h0
    rw [binary32_zero]
    norm_num
  · have he : ilog2 q ≤ -126 := ilog2_le_of_abs_le h0 (two_zpow_neg_126 ▸ hq)
    have h := binary32_abs_sub_le_ulp q h0
    rw [max_eq_right he] at h
    have hk : (2 : ℚ) ^ ((-126 : Int) - 23) / 2 = 1 / 2 ^ 150 := by
      have h149 : (-126 : Int) - 23 = -((149 : Nat) : Int) := rfl
      rw [h149, two_zpow_neg]
      norm_num
    rw [hk] at h
    exact h

theorem binary32_abs_sub_le_add (q : ℚ) : |binary32 q - q| ≤ |q| / 2 ^ 24 + 1 / 2 ^ 150 := by
  rcases le_total (1 / 2 ^ 126) |q| with h | h
  · have := binary32_abs_sub_le h
    have h2 : (0 : ℚ) ≤ 1 / 2 ^ 150 := by norm_num
    linarith
  · have := binary32_abs_sub_le_tiny h
    have h2 : (0 : ℚ) ≤ |q| / 2 ^ 24 := div_nonneg (abs_nonneg q) (by norm_num)
    linarith

theorem binary32_intCast (n : Int) (hn : |n| < 2 ^ 24) : binary32 (n : ℚ) = n := by
  unfold binary32
  split_ifs with h0
  · exact h0.symm
  · simp only
    have hlog := ilog2_le (n : ℚ) h0
    have habs : |(n : ℚ)| < (2 : ℚ) ^ (24 : Int) := by
      have h24 : (2 : ℚ) ^ (24 : Int) = ((2 ^ 24 : Int) : ℚ) := by norm_num
      rw [← Int.cast_abs, h24]
      exact_mod_cast hn
    have hlt : ilog2 (n : ℚ) < 24 :=
      (zpow_lt_zpow_iff_right₀ (by norm_num : (1 : ℚ) < 2)).mp (lt_of_le_of_lt hlog habs)
    have hn0 : n ≠ 0 := by
      rintro rfl
      exact h0 (by simp)
    have hone : (2 : ℚ) ^ (0 : Int) ≤ |(n : ℚ)| := by
      rw [zpow_zero, ← Int.cast_abs]
      exact_mod_cast Int.one_le_abs hn0
    have hge : (0 : Int) ≤ ilog2 (n : ℚ) := ilog2_ge_of_le_abs h0 hone
    rw [max_eq_left (by omega : (-126 : Int) ≤ ilog2 (n : ℚ))]
    obtain ⟨k, hk⟩ : ∃ k : Nat, (k : Int) = 23 - ilog2 (n : ℚ) :=
      ⟨(23 - ilog2 (n : ℚ)).toNat, Int.toNat_of_nonneg (by omega)⟩
    have he : ilog2 (n : ℚ) - 23 = -(k : Int) := by omega
    rw [he]
    have hdiv : (n : ℚ) / (2 : ℚ) ^ (-(k : Int)) = ((n * 2 ^ k : Int) : ℚ) := by
      rw [zpow_neg, zpow_natCast, div_inv_eq_mul]
      push_cast
      ring
    rw [hdiv, roundEven_intCast, zpow_neg, zpow_natCast]
    push_cast
    field_simp

theorem binary32_nonneg {q : ℚ} (hq : 0 ≤ q) : 0 ≤ binary32 q := by
  unfold binary32
  split_ifs with h0
  · exact le_refl 0
  · simp only
    have hu : (0 : ℚ) < (2 : ℚ) ^ (max (ilog2 q) (-126) - 23) := zpow_pos (by norm_num) _
    have hz : 0 ≤ roundEven (q / (2 : ℚ) ^ (max (ilog2 q) (-126) - 23)) :=
      roundEven_nonneg (div_nonneg hq (le_of_lt hu))
    exact mul_nonneg (by exact_mod_cast hz) (le_of_lt hu)

theorem binary32_nonpos {q : ℚ} (hq : q ≤ 0) : binary32 q ≤ 0 := by
  unfold binary32
  split_ifs with h0
  · exact le_refl 0
  · simp only
    have hu : (0 : ℚ) < (2 : ℚ) ^ (max (ilog2 q) (-126) - 23) := zpow_pos (by norm_num) _
    have hz : roundEven (q / (2 : ℚ) ^ (max (ilog2 q) (-126) - 23)) ≤ 0 :=
      roundEven_nonpos (div_nonpos_of_nonpos_of_nonneg hq (le_of_lt hu))
    exact mul_nonpos_of_nonpos_of_nonneg (by exact_mod_cast hz) (le_of_lt hu)

theorem binary32_le {q : ℚ} (hq : 1 / 2 ^ 126 ≤ q) : binary32 q ≤ q * (1 + 1 / 2 ^ 24) := by
  have hq0 : (0 : ℚ) ≤ q := le_trans (by norm_num) hq
  have h := binary32_abs_sub_le (by rw [abs_of_nonneg hq0]; exact hq : 1 / 2 ^ 126 ≤ |q|)
  rw [abs_of_nonneg hq0, abs_le] at h
  linarith [h.2]

theorem binary32_ge {q : ℚ} (hq : 1 / 2 ^ 126 ≤ q) : q * (1 - 1 / 2 ^ 24) ≤ binary32 q := by
  have hq0 : (0 : ℚ) ≤ q := le_trans (by norm_num) hq
  have h := binary32_abs_sub_le (by rw [abs_of_nonneg hq0]; exact hq : 1 / 2 ^ 126 ≤ |q|)
  rw [abs_of_nonneg hq0, abs_le] at h
  linarith [h.1]

theorem binary32_ge_of_nonpos {q : ℚ} (hq : q ≤ -(1 / 2 ^ 126)) :
    q * (1 + 1 / 2 ^ 24) ≤ binary32 q := by
  have hq0 : q ≤ 0 := le_trans hq (by norm_num)
  have h := binary32_abs_sub_le (by rw [abs_of_nonpos hq0]; linarith : 1 / 2 ^ 126 ≤ |q|)
  rw [abs_of_nonpos hq0, abs_le] at h
  linarith [h.1]

theorem binary32_near {q : ℚ} (hq : |q| ≤ 65536) : |binary32 q - q| ≤ 1 / 256 := by
  rcases le_total (1 / 2 ^ 126) |q| with h | h
  · have h1 := binary32_abs_sub_le h
    have h2 : |q| / 2 ^ 24 ≤ 65536 / 2 ^ 24 := div_le_div_of_nonneg_right hq (by norm_num)
    have h3 : (65536 : ℚ) / 2 ^ 24 = 1 / 256 := by norm_num
    linarith
  · have h1 := binary32_abs_sub_le_tiny h
    have h2 : (1 : ℚ) / 2 ^ 150 ≤ 1 / 256 := by norm_num
    linarith

/-- A rounded result that is not in the normal range is below 1 in magnitude. -/
theorem binary32_abs_lt_one_of_tiny {q : ℚ} (hq : |q| ≤ 1 / 2 ^ 126) : |binary32 q| < 1 := by
  have h1 := binary32_abs_sub_le_tiny hq
  have h2 : |binary32 q| ≤ |binary32 q - q| + |q| := by
    have := abs_add (binary32 q - q) q
    simpa using this
  have h3 : (1 : ℚ) / 2 ^ 150 + 1 / 2 ^ 126 < 1 := by norm_num
  linarith

theorem truncQ_intCast (n : Int) : truncQ (n : ℚ) = n := by
  unfold truncQ
  split_ifs <;> simp

theorem le_truncQ {n : Int} {q : ℚ} (h : (n : ℚ) ≤ q) : n ≤ truncQ q := by
  unfold truncQ
  split_ifs with h0
  · exact Int.le_floor.mpr h
  · exact Int.cast_le.mp (le_trans h (Int.le_ceil q))

theorem truncQ_le {n : Int} {q : ℚ} (h : q ≤ (n : ℚ)) : truncQ q ≤ n := by
  unfold truncQ
  split_ifs with h0
  · exact Int.cast_le.mp (le_trans (Int.floor_le q) h)
  · exact Int.ceil_le.mpr h

theorem truncQ_le_of_lt_succ {n : Int} {q : ℚ} (hn : 0 ≤ n) (h : q < (n : ℚ) + 1) :
    truncQ q ≤ n := by
  unfold truncQ
  split_ifs with h0
  · have : ⌊q⌋ < n + 1 := Int.floor_lt.mpr (by push_cast; exact h)
    omega
  · have : ⌈q⌉ ≤ 0 := Int.ceil_le.mpr (by push_cast; exact le_of_lt (not_le.mp h0))
    omega

theorem truncQ_eq_zero {b : ℚ} (h : |b| < 1) : truncQ b = 0 := by
  have hb := abs_lt.mp h
  unfold truncQ
  split_ifs with h0
  · exact Int.floor_eq_zero_iff.mpr ⟨h0, hb.2⟩
  · have h1 : ⌈b⌉ ≤ 0 := Int.ceil_le.mpr (by push_cast; exact le_of_lt (not_le.mp h0))
    have h2 : (-1 : Int) < ⌈b⌉ := Int.lt_ceil.mpr (by push_cast; exact hb.1)
    omega

theorem clipHalf_bounds (r : Int) (h0 : 0 ≤ r) :
    (r : ℚ) * (1649 / 10000) ≤ clipHalf r ∧ clipHalf r ≤ (r : ℚ) * (1651 / 10000) := by
  rcases eq_or_lt_of_le h0 with h | h
  · subst h
    unfold clipHalf fdiv fmul
    simp [binary32_zero]
  · have hr : (1 : ℚ) ≤ (r : ℚ) := by exact_mod_cast (Int.add_one_le_iff.mpr h)
    have hT : (33 : ℚ) / 101 ≤ THROTTLE_CLIPPING_FACTOR := by
      unfold THROTTLE_CLIPPING_FACTOR
      norm_num
    have hp : (33 : ℚ) / 101 ≤ (r : ℚ) * THROTTLE_CLIPPING_FACTOR := by nlinarith
    have hsmall : (1 : ℚ) / 2 ^ 126 ≤ 1 / 8 := by norm_num
    have h1 := binary32_le (le_trans hsmall (le_trans (by norm_num) hp))
    have h2 := binary32_ge (le_trans hsmall (le_trans (by norm_num) hp))
    have h3 : (1 : ℚ) / 8 ≤ binary32 ((r : ℚ) * THROTTLE_CLIPPING_FACTOR) / 2 := by
      have he : (0 : ℚ) ≤ 1 - 1 / 2 ^ 24 := by norm_num
      have := mul_le_mul_of_nonneg_right hp he
      have hnum : (1 : ℚ) / 4 ≤ 33 / 101 * (1 - 1 / 2 ^ 24) := by norm_num
      linarith
    have h4 := binary32_le (le_trans hsmall h3)
    have h5 := binary32_ge (le_trans hsmall h3)
    unfold clipHalf fdiv fmul
    unfold THROTTLE_CLIPPING_FACTOR at *
    constructor
    · nlinarith
    · nlinarith

theorem MINf_eq_min (a b : ℚ) : MINf a b = min a b := by
  unfold MINf
  split_ifs with h
  · exact (min_eq_left (le_of_lt h)).symm
  · exact (min_eq_right (not_lt.mp h)).symm

theorem MAXf_eq_max (a b : ℚ) : MAXf a b = max a b := by
  unfold MAXf
  split_ifs with h
  · exact (max_eq_left (le_of_lt h)).symm
  · exact (max_eq_right (not_lt.mp h)).symm

theorem truncQ_le_max (q : ℚ) : (truncQ q : ℚ) ≤ max q 0 := by
  unfold truncQ
  split_ifs with h0
  · exact le_trans (Int.floor_le q) (le_max_left _ _)
  · have : ⌈q⌉ ≤ 0 := Int.ceil_le.mpr (by push_cast; exact le_of_lt (not_le.mp h0))
    exact le_trans (by exact_mod_cast this) (le_max_right _ _)

theorem headroom_unsaturated (n : Nat) (rpyMix : Nat → Int) (rpy tmin tmax : Int)
    (hmin : IsPwm tmin) (hmax : IsPwm tmax) (h0 : 0 ≤ rpy) (hle : rpy ≤ tmax - tmin) :
    (tmax - tmin ≠ 1 → tmin ≤ (headroom n rpyMix rpy (tmax - tmin) tmin tmax).throttleMin) ∧
    tmin - 1 ≤ (headroom n rpyMix rpy (tmax - tmin) tmin tmax).throttleMin ∧
    (headroom n rpyMix rpy (tmax - tmin) tmin tmax).throttleMin ≤ tmin + rpy / 2 ∧
    tmax - rpy / 2 ≤ (headroom n rpyMix rpy (tmax - tmin) tmin tmax).throttleMax ∧
    (headroom n rpyMix rpy (tmax - tmin) tmin tmax).throttleMax ≤ tmax ∧
    ((tmax - tmin : Int) : ℚ) * (33 / 100)
      ≤ (((headroom n rpyMix rpy (tmax - tmin) tmin tmax).throttleMax
          - (headroom n rpyMix rpy (tmax - tmin) tmin tmax).throttleMin : Int) : ℚ) := by
  unfold IsPwm at hmin hmax
  obtain ⟨r, hr⟩ : ∃ r : Int, r = tmax - tmin := ⟨_, rfl⟩
  rw [← hr]
  have hr0 : 0 ≤ r := by omega
  have hler : rpy ≤ r := by omega
  have hrpy2 : Int.tdiv rpy 2 = rpy / 2 := Int.tdiv_eq_ediv h0 (by norm_num)
  have hr2 : Int.tdiv r 2 = r / 2 := Int.tdiv_eq_ediv hr0 (by norm_num)
  unfold headroom
  rw [if_neg (not_lt.mpr hler)]
  simp only [hrpy2, hr2, MINf_eq_min, MAXf_eq_max, fsub, fadd]
  obtain ⟨hc1, hc2⟩ := clipHalf_bounds r hr0
  generalize clipHalf r = c at hc1 hc2 ⊢
  obtain ⟨p, hp⟩ : ∃ p : Int, p = rpy / 2 := ⟨_, rfl⟩
  obtain ⟨k, hk⟩ : ∃ k : Int, k = r / 2 := ⟨_, rfl⟩
  rw [← hp, ← hk]
  have hp0 : 0 ≤ p := by omega
  have hp1 : 2 * p ≤ rpy := by omega
  have hk1 : 2 * k ≤ r := by omega
  have hk2 : r ≤ 2 * k + 1 := by omega
  -- rational copies of the integer facts
  have qmin0 : (0 : ℚ) ≤ (tmin : ℚ) := by exact_mod_cast hmin.1
  have qmax1 : (tmax : ℚ) ≤ 32767 := by exact_mod_cast hmax.2
  have qr : (r : ℚ) = (tmax : ℚ) - (tmin : ℚ) := by rw [hr]; push_cast; ring
  have qr0 : (0 : ℚ) ≤ (r : ℚ) := by exact_mod_cast hr0
  have qk1 : 2 * (k : ℚ) ≤ (r : ℚ) := by exact_mod_cast hk1
  have qk2 : (r : ℚ) ≤ 2 * (k : ℚ) + 1 := by exact_mod_cast hk2
  have qp0 : (0 : ℚ) ≤ (p : ℚ) := by exact_mod_cast hp0
  -- the lower end
  have hyabs : |((tmin + k : Int) : ℚ) - c| ≤ 65536 := by
    rw [abs_le]
    push_cast
    constructor <;> linarith
  have hb := abs_le.mp (binary32_near hyabs)
  have hbz : r = 0 → binary32 (((tmin + k : Int) : ℚ) - c) = (tmin : ℚ) := by
    intro hz
    have hk0 : k = 0 := by omega
    have hc0 : c = 0 := by
      rw [hz] at hc1 hc2
      simp only [Int.cast_zero, zero_mul] at hc1 hc2
      exact le_antisymm hc2 hc1
    rw [hk0, hc0, add_zero, sub_zero]
    exact binary32_intCast tmin (by rw [abs_of_nonneg hmin.1]; omega)
  generalize binary32 (((tmin + k : Int) : ℚ) - c) = b at hb hbz ⊢
  push_cast at hb
  have hx1 : min ((tmin + p : Int) : ℚ) b ≤ ((tmin + p : Int) : ℚ) := min_le_left _ _
  have hx2 : min ((tmin + p : Int) : ℚ) b ≤ b := min_le_right _ _
  have hx3 : ((tmin - 1 : Int) : ℚ) ≤ min ((tmin + p : Int) : ℚ) b := by
    apply le_min
    · push_cast; linarith
    · push_cast; linarith [hb.1]
  have hlo1 : tmin - 1 ≤ truncQ (min ((tmin + p : Int) : ℚ) b) := le_truncQ hx3
  have hup1 : truncQ (min ((tmin + p : Int) : ℚ) b) ≤ tmin + p := truncQ_le hx1
  have hmx := truncQ_le_max (min ((tmin + p : Int) : ℚ) b)
  have h16a : toInt16 (truncQ (min ((tmin + p : Int) : ℚ) b))
      = truncQ (min ((tmin + p : Int) : ℚ) b) :=
    toInt16_eq_self (by unfold IsInt16; omega)
  rw [h16a]
  have hlo2 : r ≠ 1 → tmin ≤ truncQ (min ((tmin + p : Int) : ℚ) b) := by
    intro hne
    apply le_truncQ
    apply le_min
    · push_cast; linarith
    · rcases (by omega : r = 0 ∨ 2 ≤ r) with hz | hbig
      · exact le_of_eq (hbz hz).symm
      · have qbig : (2 : ℚ) ≤ (r : ℚ) := by exact_mod_cast hbig
        linarith [hb.1]
  generalize truncQ (min ((tmin + p : Int) : ℚ) b) = m at hlo1 hup1 hmx hlo2 ⊢
  have qm0 : (-1 : ℚ) ≤ (m : ℚ) := by
    have : (-1 : Int) ≤ m := by omega
    exact_mod_cast this
  have hz : ((m + k : Int) : ℚ) + c ≤ (tmax : ℚ) + 1 / 256 := by
    push_cast
    rcases le_max_iff.mp hmx with h | h
    · linarith [hb.2]
    · linarith
  have hzabs : |((m + k : Int) : ℚ) + c| ≤ 65536 := by
    rw [abs_le]
    constructor
    · push_cast; linarith
    · linarith
  have hb2 := abs_le.mp (binary32_near hzabs)
  generalize binary32 (((m + k : Int) : ℚ) + c) = b2 at hb2 ⊢
  have hlo3 : tmax - p ≤ truncQ (max ((tmax - p : Int) : ℚ) b2) := le_truncQ (le_max_left _ _)
  have hup3 : truncQ (max ((tmax - p : Int) : ℚ) b2) ≤ tmax := by
    apply truncQ_le_of_lt_succ hmax.1
    apply max_lt
    · push_cast; linarith
    · linarith [hb2.2]
  have hk3 : 2 ≤ r → m + k ≤ truncQ (max ((tmax - p : Int) : ℚ) b2) := by
    intro hbig
    have qbig : (2 : ℚ) ≤ (r : ℚ) := by exact_mod_cast hbig
    apply le_truncQ
    apply le_max_of_le_right
    linarith [hb2.1]
  have h16b : toInt16 (truncQ (max ((tmax - p : Int) : ℚ) b2))
      = truncQ (max ((tmax - p : Int) : ℚ) b2) :=
    toInt16_eq_self (by unfold IsInt16; omega)
  rw [h16b]
  generalize truncQ (max ((tmax - p : Int) : ℚ) b2) = w at hlo3 hup3 hk3 ⊢
  refine ⟨hlo2, hlo1, hup1, hlo3, hup3, ?_⟩
  rcases (by omega : r ≤ 1 ∨ r = 2 ∨ 3 ≤ r) with hsmall | htwo | hbig
  · have hw : r ≤ w - m := by omega
    have qw : (r : ℚ) ≤ ((w - m : Int) : ℚ) := by exact_mod_cast hw
    linarith
  · have hw : 1 ≤ w - m := by have := hk3 (by omega); omega
    have qw : (1 : ℚ) ≤ ((w - m : Int) : ℚ) := by exact_mod_cast hw
    have q2 : (r : ℚ) = 2 := by exact_mod_cast htwo
    linarith
  · have hw : k ≤ w - m := by have := hk3 (by omega); omega
    have qw : (k : ℚ) ≤ ((w - m : Int) : ℚ) := by exact_mod_cast hw
    have q3 : (3 : ℚ) ≤ (r : ℚ) := by exact_mod_cast hbig
    linarith

/-! ## Throttle band after the saturation block -/

/-- C7, the claim fails: with `minthrottle` 1150, `maxthrottle` 1151 and no axis
demand the tick is in the non-saturated branch (`rpyMixRange` 0, `throttleRange` 1),
and the new lower end is 1149, below the selected band's lower end 1150: the float
`1150 + 0 - 0.165` is truncated toward zero. -/
theorem mixTable_unsaturated_band_counterexample :
    mixTableRpyMixRange narrowBandConfig idleInputs quadXState = 0 ∧
    mixTableThrottleRange narrowBandConfig idleInputs quadXState = 1 ∧
    (mixTableHeadroom narrowBandConfig idleInputs quadXState).motorLimitReached = false ∧
    (mixTableBand narrowBandConfig idleInputs quadXState).throttleMin = 1150 ∧
    (mixTableHeadroom narrowBandConfig idleInputs quadXState).throttleMin = 1149 := by
  decide!

/-- C7 as amended: in the non-saturated branch (`0 ≤ rpyMixRange ≤ throttleRange`) the
new band `[newMin, newMax]` satisfies `newMin ≤ bandMin + rpyMixRange/2`,
`bandMax - rpyMixRange/2 ≤ newMax ≤ bandMax` and
`newMax - newMin ≥ throttleRange * 0.33`; the lower end satisfies `bandMin ≤ newMin`
whenever `throttleRange ≠ 1`, and `bandMin - 1 ≤ newMin` in every case.  The halves
are integer divisions; the ends of the selected band are non-negative `int16_t`
values. -/
theorem mixTable_unsaturated_band (cfg : Config) (inp : Inputs) (st : State)
    (hbmin : IsPwm (mixTableBand cfg inp st).throttleMin)
    (hbmax : IsPwm (mixTableBand cfg inp st).throttleMax)
    (h0 : 0 ≤ mixTableRpyMixRange cfg inp st)
    (hle : mixTableRpyMixRange cfg inp st ≤ mixTableThrottleRange cfg inp st) :
    (mixTableThrottleRange cfg inp st ≠ 1 →
      (mixTableBand cfg inp st).throttleMin ≤ (mixTableHeadroom cfg inp st).throttleMin) ∧
    (mixTableBand cfg inp st).throttleMin - 1 ≤ (mixTableHeadroom cfg inp st).throttleMin ∧
    (mixTableHeadroom cfg inp st).throttleMin
      ≤ (mixTableBand cfg inp st).throttleMin + mixTableRpyMixRange cfg inp st / 2 ∧
    (mixTableBand cfg inp st).throttleMax - mixTableRpyMixRange cfg inp st / 2
      ≤ (mixTableHeadroom cfg inp st).throttleMax ∧
    (mixTableHeadroom cfg inp st).throttleMax ≤ (mixTableBand cfg inp st).throttleMax ∧
    (mixTableThrottleRange cfg inp st : ℚ) * (33 / 100)
      ≤ (((mixTableHeadroom cfg inp st).throttleMax
          - (mixTableHeadroom cfg inp st).throttleMin : Int) : ℚ) := by
  have hrange : mixTableThrottleRange cfg inp st
      = (mixTableBand cfg inp st).throttleMax - (mixTableBand cfg inp st).throttleMin := by
    unfold mixTableThrottleRange
    apply toInt16_eq_self
    unfold IsPwm at hbmin hbmax
    unfold IsInt16
    omega
  rw [hrange] at hle ⊢
  unfold mixTableHeadroom
  rw [hrange]
  exact headroom_unsaturated st.motorCount (mixTableRpy cfg inp st).rpyMix
    (mixTableRpyMixRange cfg inp st) (mixTableBand cfg inp st).throttleMin
    (mixTableBand cfg inp st).throttleMax hbmin hbmax h0 hle

/-- Witness for C7 as amended: a roll demand of 100 on the default Quad X
(`rpyMixRange` 200, `throttleRange` 700) leaves a band inside `[1150, 1850]`. -/
theorem mixTable_unsaturated_band_witness :
    1150 ≤ (mixTableHeadroom defaultConfig gentleInputs quadXState).throttleMin ∧
    (mixTableHeadroom defaultConfig gentleInputs quadXState).throttleMax ≤ 1850 :=
  ⟨(mixTable_unsaturated_band defaultConfig gentleInputs quadXState (by decide!) (by decide!)
      (by decide!) (by decide!)).1 (by decide!),
   (mixTable_unsaturated_band defaultConfig gentleInputs quadXState (by decide!) (by decide!)
      (by decide!) (by decide!)).2.2.2.2.1⟩

/-! ## Rebuild of the active table -/

theorem specCustomMotorCount_eq (custom : Nat → motorMixer_t) (maxMotors : Nat) :
    specCustomMotorCount custom maxMotors = firstZeroThrottle custom 0 maxMotors := by
  unfold specCustomMotorCount firstZeroThrottle
  rw [List.range_eq_range', Nat.zero_add]

theorem firstZeroThrottle_bounds (custom : Nat → motorMixer_t) (k : Nat) :
    ∀ i : Nat, i ≤ firstZeroThrottle custom i k ∧ firstZeroThrottle custom i k ≤ i + k := by
  induction k with
  | zero => intro i; simp [firstZeroThrottle]
  | succ k ih =>
    intro i
    have h := ih (i + 1)
    unfold firstZeroThrottle at h ⊢
    rw [List.range'_succ, List.find?_cons]
    by_cases hz : (custom i).throttle = 0
    · simp [hz]
    · simp only [hz, decide_False]
      have e : i + 1 + k = i + (k + 1) := by omega
      rw [e] at h
      omega

theorem firstZeroThrottle_succ_of_ne (custom : Nat → motorMixer_t) (i k : Nat)
    (hz : (custom i).throttle ≠ 0) :
    firstZeroThrottle custom i (k + 1) = firstZeroThrottle custom (i + 1) k := by
  unfold firstZeroThrottle
  rw [List.range'_succ, List.find?_cons]
  simp only [hz, decide_False]
  have e : i + 1 + k = i + (k + 1) := by omega
  rw [e]

theorem firstZeroThrottle_succ_of_eq (custom : Nat → motorMixer_t) (i k : Nat)
    (hz : (custom i).throttle = 0) : firstZeroThrottle custom i (k + 1) = i := by
  unfold firstZeroThrottle
  rw [List.range'_succ, List.find?_cons]
  simp [hz]

theorem loadCustomMixer_eq (custom : Nat → motorMixer_t) (k : Nat) :
    ∀ (i : Nat) (cm : Nat → motorMixer_t) (c : Nat), c < 256 →
      loadCustomMixer custom k i cm c
        = (fun j => if i ≤ j ∧ j < firstZeroThrottle custom i k then custom j else cm j,
            (c + (firstZeroThrottle custom i k - i)) % 256) := by
  induction k with
  | zero =>
    intro i cm c hc
    have hF : firstZeroThrottle custom i 0 = i := by simp [firstZeroThrottle]
    rw [hF]
    simp only [loadCustomMixer]
    refine Prod.ext ?_ ?_
    · funext j
      have : ¬ (i ≤ j ∧ j < i) := by omega
      simp [this]
    · simp only [Nat.sub_self, Nat.add_zero]
      exact (Nat.mod_eq_of_lt hc).symm
  | succ k ih =>
    intro i cm c hc
    simp only [loadCustomMixer]
    by_cases hz : (custom i).throttle = 0
    · rw [if_pos hz, firstZeroThrottle_succ_of_eq custom i k hz]
      refine Prod.ext ?_ ?_
      · funext j
        have : ¬ (i ≤ j ∧ j < i) := by omega
        simp [this]
      · simp only [Nat.sub_self, Nat.add_zero]
        exact (Nat.mod_eq_of_lt hc).symm
    · rw [if_neg hz, firstZeroThrottle_succ_of_ne custom i k hz]
      have hb := firstZeroThrottle_bounds custom k (i + 1)
      rw [ih (i + 1) _ _ (by unfold toUInt8; omega)]
      refine Prod.ext ?_ ?_
      · funext j
        simp only
        by_cases hj : j = i
        · subst hj
          have h1 : ¬ (j + 1 ≤ j ∧ j < firstZeroThrottle custom (j + 1) k) := by omega
          have h2 : j ≤ j ∧ j < firstZeroThrottle custom (j + 1) k := by omega
          rw [if_neg h1, if_pos h2, Function.update_same]
        · rw [Function.update_noteq hj]
          have h3 : (i + 1 ≤ j ∧ j < firstZeroThrottle custom (i + 1) k)
              ↔ (i ≤ j ∧ j < firstZeroThrottle custom (i + 1) k) := by omega
          simp only [h3]
      · simp only [toUInt8]
        omega

theorem scale3D_apply (cfg : Config) (motorCount : Nat) (cm : Nat → motorMixer_t) (j : Nat) :
    scale3D cfg motorCount cm j
      = if cfg.feature3D = true ∧ 1 < motorCount ∧ j < motorCount then halveGain (cm j)
        else cm j := by
  unfold scale3D
  by_cases h3 : cfg.feature3D = true
  · by_cases h1 : motorCount > 1
    · simp only [h3, h1, if_true, true_and]
      rw [forLoop_update_apply (fun _ m => halveGain m)]
    · have : ¬ (1 < motorCount ∧ j < motorCount) := by omega
      simp [h3, h1, this]
  · simp [h3]

theorem mixerTable_cases (maxMotors : Nat) (d : Bool) :
    (8 ≤ maxMotors ∧ mixerTable maxMotors d = mixerTable 8 d) ∨
    (6 ≤ maxMotors ∧ maxMotors < 8 ∧ mixerTable maxMotors d = mixerTable 6 d) ∨
    (maxMotors < 6 ∧ mixerTable maxMotors d = mixerTable 0 d) := by
  by_cases h8 : 8 ≤ maxMotors
  · have h6 : 6 ≤ maxMotors := by omega
    left
    refine ⟨h8, ?_⟩
    unfold mixerTable
    simp [h8, h6]
  · by_cases h6 : 6 ≤ maxMotors
    · right; left
      refine ⟨h6, by omega, ?_⟩
      unfold mixerTable
      simp [h8, h6]
    · right; right
      refine ⟨by omega, ?_⟩
      unfold mixerTable
      simp [h8, h6]

theorem mixerTable_entry (maxMotors : Nat) (d : Bool) (m : mixer_t)
    (hm : m ∈ mixerTable maxMotors d) :
    (m.motorCount ≤ 4 ∨ m.motorCount ≤ maxMotors) ∧ m.motorCount ≤ 8 ∧
    (isCustomMode m.mixerMode = false → m.motor.map List.length = some m.motorCount) := by
  have h8 : ∀ b : Bool, ∀ e ∈ mixerTable 8 b, e.motorCount ≤ 8 ∧
      (isCustomMode e.mixerMode = false → e.motor.map List.length = some e.motorCount) := by
    decide
  have h6 : ∀ b : Bool, ∀ e ∈ mixerTable 6 b, e.motorCount ≤ 6 ∧
      (isCustomMode e.mixerMode = false → e.motor.map List.length = some e.motorCount) := by
    decide
  have h0 : ∀ b : Bool, ∀ e ∈ mixerTable 0 b, e.motorCount ≤ 4 ∧
      (isCustomMode e.mixerMode = false → e.motor.map List.length = some e.motorCount) := by
    decide
  rcases mixerTable_cases maxMotors d with ⟨hle, he⟩ | ⟨hle, _, he⟩ | ⟨_, he⟩
  · rw [he] at hm
    have := h8 d m hm
    exact ⟨Or.inr (by omega), this.1, this.2⟩
  · rw [he] at hm
    have := h6 d m hm
    exact ⟨Or.inr (by omega), by omega, this.2⟩
  · rw [he] at hm
    have := h0 d m hm
    exact ⟨Or.inl this.1, by omega, this.2⟩

theorem findMixer_some {maxMotors : Nat} {d : Bool} {mode : mixerMode_e} {m : mixer_t}
    (h : findMixer maxMotors d mode = some m) :
    m ∈ mixerTable maxMotors d ∧ m.mixerMode = mode := by
  unfold findMixer at h
  exact ⟨List.mem_of_find?_eq_some h, by simpa using List.find?_some h⟩

theorem loadMixer_custom (cfg : Config) (setup : MixerSetup) (st : State)
    (hc : isCustomMode setup.mixerMode = true) :
    loadMixer cfg setup st
      = some (fun j =>
          if j < specCustomMotorCount setup.customMotorMixer cfg.MAX_SUPPORTED_MOTORS then
            setup.customMotorMixer j
          else st.currentMixer j,
          specCustomMotorCount setup.customMotorMixer cfg.MAX_SUPPORTED_MOTORS % 256) := by
  unfold loadMixer
  rw [if_pos hc, loadCustomMixer_eq _ _ _ _ _ (by omega), specCustomMotorCount_eq]
  simp

theorem loadMixer_catalog (cfg : Config) (setup : MixerSetup) (st : State) (m : mixer_t)
    (hc : isCustomMode setup.mixerMode = false)
    (hf : findMixer cfg.MAX_SUPPORTED_MOTORS setup.DISABLE_UNCOMMON_MIXERS setup.mixerMode
      = some m) :
    ∃ table : List motorMixer_t, m.motor = some table ∧ table.length = m.motorCount ∧
      loadMixer cfg setup st
        = some (fun j =>
            if j < min m.motorCount setup.pwmMotorCount then table.getD j zeroRow
            else st.currentMixer j,
            min m.motorCount setup.pwmMotorCount) := by
  obtain ⟨hmem, hmode⟩ := findMixer_some hf
  obtain ⟨_, h8, htab⟩ := mixerTable_entry _ _ m hmem
  rw [hmode] at htab
  have ht := htab hc
  cases hmot : m.motor with
  | none => rw [hmot] at ht; simp at ht
  | some table =>
    rw [hmot] at ht
    simp only [Option.map_some', Option.some.injEq] at ht
    refine ⟨table, rfl, ht, ?_⟩
    have hmin : toUInt8 (if m.motorCount < setup.pwmMotorCount then m.motorCount
        else setup.pwmMotorCount) = min m.motorCount setup.pwmMotorCount := by
      unfold toUInt8
      split_ifs <;> omega
    unfold loadMixer
    simp only [hc, Bool.false_eq_true, if_false, hf, hmot, hmin]
    congr 1
    refine Prod.ext ?_ rfl
    funext j
    exact forLoop_const_apply _ _ _ j

theorem loadMixer_none (cfg : Config) (setup : MixerSetup) (st : State)
    (hc : isCustomMode setup.mixerMode = false)
    (hf : findMixer cfg.MAX_SUPPORTED_MOTORS setup.DISABLE_UNCOMMON_MIXERS setup.mixerMode
      = none) :
    loadMixer cfg setup st = none := by
  unfold loadMixer
  simp [hc, hf]

theorem mixerUsePWMIOConfiguration_of_load (cfg : Config) (setup : MixerSetup) (st : State)
    (cm : Nat → motorMixer_t) (mc : Nat) (h : loadMixer cfg setup st = some (cm, mc)) :
    mixerUsePWMIOConfiguration cfg setup st
      = some (mixerResetDisarmedMotors cfg
          { st with motorCount := mc, currentMixer := scale3D cfg mc cm }) := by
  unfold mixerUsePWMIOConfiguration
  rw [h]

theorem isCustomMode_iff (mode : mixerMode_e) :
    isCustomMode mode = true ↔
      (mode = MIXER_CUSTOM ∨ mode = MIXER_CUSTOM_TRI ∨ mode = MIXER_CUSTOM_AIRPLANE) := by
  unfold isCustomMode
  simp [or_assoc]

theorem specCustomMotorCount_le (custom : Nat → motorMixer_t) (maxMotors : Nat) :
    specCustomMotorCount custom maxMotors ≤ maxMotors := by
  rw [specCustomMotorCount_eq]
  have := (firstZeroThrottle_bounds custom maxMotors 0).2
  omega

/-! ## Custom and catalog load -/

/-- C11: with `MIXER_CUSTOM`, `MIXER_CUSTOM_TRI` or `MIXER_CUSTOM_AIRPLANE` selected,
`mixerUsePWMIOConfiguration` sets `motorCount` to the index of the first custom slot
whose throttle coefficient is exactly zero (`MAX_SUPPORTED_MOTORS` if there is none)
and copies exactly the slots before it, in order, into the active table; later slots
are ignored and the rows from `motorCount` on keep their former content.  The copied
rows then go through the 3D gain halving of lines 353-361 when that applies.
`MAX_SUPPORTED_MOTORS` fits the `uint8_t` counter. -/
theorem mixerUsePWMIOConfiguration_custom_load (cfg : Config) (setup : MixerSetup)
    (st : State)
    (hmode : setup.mixerMode = MIXER_CUSTOM ∨ setup.mixerMode = MIXER_CUSTOM_TRI ∨
      setup.mixerMode = MIXER_CUSTOM_AIRPLANE)
    (hmax : cfg.MAX_SUPPORTED_MOTORS ≤ 255) :
    ∃ st1 : State, mixerUsePWMIOConfiguration cfg setup st = some st1 ∧
      st1.motorCount
        = specCustomMotorCount setup.customMotorMixer cfg.MAX_SUPPORTED_MOTORS ∧
      (∀ i, i < st1.motorCount →
        st1.currentMixer i
          = if cfg.feature3D = true ∧ 1 < st1.motorCount then
              halveGain (setup.customMotorMixer i)
            else setup.customMotorMixer i) ∧
      (∀ i, st1.motorCount ≤ i → st1.currentMixer i = st.currentMixer i) := by
  have hc := (isCustomMode_iff setup.mixerMode).mpr hmode
  have hle := specCustomMotorCount_le setup.customMotorMixer cfg.MAX_SUPPORTED_MOTORS
  have hmod : specCustomMotorCount setup.customMotorMixer cfg.MAX_SUPPORTED_MOTORS % 256
      = specCustomMotorCount setup.customMotorMixer cfg.MAX_SUPPORTED_MOTORS :=
    Nat.mod_eq_of_lt (by omega)
  have hload := loadMixer_custom cfg setup st hc
  rw [hmod] at hload
  refine ⟨_, mixerUsePWMIOConfiguration_of_load cfg setup st _ _ hload, rfl, ?_, ?_⟩
  · intro i hi
    have hi2 : i < specCustomMotorCount setup.customMotorMixer cfg.MAX_SUPPORTED_MOTORS := hi
    show scale3D cfg _ _ i = _
    rw [scale3D_apply]
    simp only [hi2, and_true, if_true]
    rfl
  · intro i hi
    have hi2 : ¬ i < specCustomMotorCount setup.customMotorMixer cfg.MAX_SUPPORTED_MOTORS :=
      not_lt.mpr hi
    show scale3D cfg _ _ i = _
    rw [scale3D_apply]
    simp only [hi2, and_false, if_false]

/-- Witness for C11: throttle coefficients 1, 1, 0, 1 give `motorCount` 2, and a first
slot with throttle 0 gives `motorCount` 0. -/
theorem mixerUsePWMIOConfiguration_custom_load_witness :
    (∃ st1 : State,
      mixerUsePWMIOConfiguration defaultConfig gappedCustomSetup initialState = some st1 ∧
        st1.motorCount = 2) ∧
    (∃ st1 : State,
      mixerUsePWMIOConfiguration defaultConfig emptyCustomSetup initialState = some st1 ∧
        st1.motorCount = 0) := by
  obtain ⟨a, ha, hca, -⟩ := mixerUsePWMIOConfiguration_custom_load defaultConfig
    gappedCustomSetup initialState (Or.inl rfl) (by decide)
  obtain ⟨b, hb, hcb, -⟩ := mixerUsePWMIOConfiguration_custom_load defaultConfig
    emptyCustomSetup initialState (Or.inl rfl) (by decide)
  exact ⟨⟨a, ha, hca.trans (by decide!)⟩, ⟨b, hb, hcb.trans (by decide!)⟩⟩

/-- C12: for a non-custom mode with a catalog entry and any number `n` of available
output channels, `mixerUsePWMIOConfiguration` sets
`motorCount = min(entry.motorCount, n)` and the first `motorCount` active rows are
the first `motorCount` catalog rows in catalog order, up to the 3D gain halving of
lines 353-361; `motorCount` equals the entry's count whenever `n` is at least that
count, and never exceeds `n`. -/
theorem mixerUsePWMIOConfiguration_catalog_load (cfg : Config) (setup : MixerSetup)
    (st : State) (m : mixer_t)
    (hcustom : setup.mixerMode ≠ MIXER_CUSTOM ∧ setup.mixerMode ≠ MIXER_CUSTOM_TRI ∧
      setup.mixerMode ≠ MIXER_CUSTOM_AIRPLANE)
    (hfind : findMixer cfg.MAX_SUPPORTED_MOTORS setup.DISABLE_UNCOMMON_MIXERS
      setup.mixerMode = some m) :
    ∃ (st1 : State) (table : List motorMixer_t),
      mixerUsePWMIOConfiguration cfg setup st = some st1 ∧ m.motor = some table ∧
      st1.motorCount = min m.motorCount setup.pwmMotorCount ∧
      st1.motorCount ≤ setup.pwmMotorCount ∧
      (m.motorCount ≤ setup.pwmMotorCount → st1.motorCount = m.motorCount) ∧
      (∀ i, i < st1.motorCount →
        ∃ row : motorMixer_t, table[i]? = some row ∧
          st1.currentMixer i
            = if cfg.feature3D = true ∧ 1 < st1.motorCount then halveGain row else row) := by
  have hc : isCustomMode setup.mixerMode = false := by
    cases h : isCustomMode setup.mixerMode
    · rfl
    · rcases (isCustomMode_iff _).mp h with h1 | h1 | h1
      · exact absurd h1 hcustom.1
      · exact absurd h1 hcustom.2.1
      · exact absurd h1 hcustom.2.2
  obtain ⟨table, hmot, hlen, hload⟩ := loadMixer_catalog cfg setup st m hc hfind
  refine ⟨_, table, mixerUsePWMIOConfiguration_of_load cfg setup st _ _ hload, hmot, rfl,
    Nat.min_le_right _ _, fun h => Nat.min_eq_left h, ?_⟩
  intro i hi
  have hi2 : i < min m.motorCount setup.pwmMotorCount := hi
  have hi3 : i < table.length := by
    have := Nat.min_le_left m.motorCount setup.pwmMotorCount
    omega
  refine ⟨table.getD i zeroRow, ?_, ?_⟩
  · rw [List.getD_eq_getElem?_getD, List.getElem?_eq_getElem hi3]
    rfl
  · show scale3D cfg _ _ i = _
    rw [scale3D_apply]
    simp only [hi2, and_true, if_true]
    rfl

/-- Witness for C12: tricopter with eight output channels gives `motorCount` 3. -/
theorem mixerUsePWMIOConfiguration_catalog_load_witness :
    ∃ st1 : State,
      mixerUsePWMIOConfiguration defaultConfig tricopterSetup initialState = some st1 ∧
        st1.motorCount = 3 := by
  obtain ⟨a, t, ha, -, hc, -⟩ := mixerUsePWMIOConfiguration_catalog_load defaultConfig
    tricopterSetup initialState (DEF_MIXER MIXER_TRI 3 true (some mixerTricopter))
    (by decide) rfl
  exact ⟨a, ha, hc.trans (by decide)⟩

/-- C13, evaluation at a non-custom mode without catalog entry: `MIXER_BICOPTER` is
not in `mixerTable`, `findMixer` returns `NULL` and line 343 dereferences it, so the
call does not complete. -/
theorem mixerUsePWMIOConfiguration_uncatalogued_mode :
    isCustomMode bicopterSetup.mixerMode = false ∧
    findMixer defaultConfig.MAX_SUPPORTED_MOTORS bicopterSetup.DISABLE_UNCOMMON_MIXERS
      bicopterSetup.mixerMode = none ∧
    (mixerUsePWMIOConfiguration defaultConfig bicopterSetup initialState).isSome = false := by
  decide

/-! ## Catalog lookup -/

theorem mixerTable_nodup (maxMotors : Nat) (d : Bool) :
    ((mixerTable maxMotors d).map (fun m => m.mixerMode)).Nodup := by
  have h8 : ∀ b : Bool, ((mixerTable 8 b).map (fun m => m.mixerMode)).Nodup := by decide
  have h6 : ∀ b : Bool, ((mixerTable 6 b).map (fun m => m.mixerMode)).Nodup := by decide
  have h0 : ∀ b : Bool, ((mixerTable 0 b).map (fun m => m.mixerMode)).Nodup := by decide
  rcases mixerTable_cases maxMotors d with ⟨_, he⟩ | ⟨_, _, he⟩ | ⟨_, he⟩
  · rw [he]; exact h8 d
  · rw [he]; exact h6 d
  · rw [he]; exact h0 d

/-- C15: `findMixer(mode)` returns a catalog entry exactly when `mixerTable` contains
an entry whose `mixerMode` is `mode`; the entry returned is in the table and has that
mode; each mode occurs at most once in the table, so the entry is unique; `findMixer`
returns `NULL` for every mode without an entry.  `isMixerEnabled(mode)` is true
exactly when `findMixer(mode)` is not `NULL`.  This holds for every build of the
table. -/
theorem findMixer_spec (maxMotors : Nat) (d : Bool) (mode : mixerMode_e) :
    ((∃ m, findMixer maxMotors d mode = some m) ↔
      ∃ m ∈ mixerTable maxMotors d, m.mixerMode = mode) ∧
    (∀ m, findMixer maxMotors d mode = some m →
      m ∈ mixerTable maxMotors d ∧ m.mixerMode = mode) ∧
    ((mixerTable maxMotors d).map (fun m => m.mixerMode)).Nodup ∧
    (∀ m e, m ∈ mixerTable maxMotors d → e ∈ mixerTable maxMotors d →
      m.mixerMode = mode → e.mixerMode = mode → m = e) ∧
    (findMixer maxMotors d mode = none ↔
      ∀ m ∈ mixerTable maxMotors d, m.mixerMode ≠ mode) ∧
    (isMixerEnabled maxMotors d mode = true ↔ findMixer maxMotors d mode ≠ none) := by
  have hnone : findMixer maxMotors d mode = none ↔
      ∀ m ∈ mixerTable maxMotors d, m.mixerMode ≠ mode := by
    unfold findMixer
    rw [List.find?_eq_none]
    simp
  refine ⟨?_, fun m h => findMixer_some h, mixerTable_nodup maxMotors d, ?_, hnone, ?_⟩
  · constructor
    · rintro ⟨m, hm⟩
      exact ⟨m, findMixer_some hm⟩
    · rintro ⟨m, hm, hmode⟩
      cases hf : findMixer maxMotors d mode with
      | some e => exact ⟨e, rfl⟩
      | none => exact absurd hmode (hnone.mp hf m hm)
  · intro m e hm he h1 h2
    exact List.inj_on_of_nodup_map (mixerTable_nodup maxMotors d) hm he (h1.trans h2.symm)
  · unfold isMixerEnabled
    cases findMixer maxMotors d mode <;> simp

/-! ## Motor count invariant and idempotence of the rebuild -/

/-- C19: `motorCount ≤ MAX_SUPPORTED_MOTORS` holds at start-up and after every
`mixerUsePWMIOConfiguration` that completes, for every mode, custom slot content and
output channel count; the call completes for every custom mode and every mode with a
catalog entry.  The build constant is at least 4, the motor count of the catalog
entries that are compiled unconditionally. -/
theorem motorCount_le_MAX_SUPPORTED_MOTORS (cfg : Config) (setup : MixerSetup) (st : State)
    (h4 : 4 ≤ cfg.MAX_SUPPORTED_MOTORS) :
    initialState.motorCount ≤ cfg.MAX_SUPPORTED_MOTORS ∧
    (∀ st1, mixerUsePWMIOConfiguration cfg setup st = some st1 →
      st1.motorCount ≤ cfg.MAX_SUPPORTED_MOTORS) ∧
    ((isCustomMode setup.mixerMode = true ∨
        findMixer cfg.MAX_SUPPORTED_MOTORS setup.DISABLE_UNCOMMON_MIXERS setup.mixerMode
          ≠ none) →
      ∃ st1, mixerUsePWMIOConfiguration cfg setup st = some st1 ∧
        st1.motorCount ≤ cfg.MAX_SUPPORTED_MOTORS) := by
  have hall : ∀ st1, mixerUsePWMIOConfiguration cfg setup st = some st1 →
      st1.motorCount ≤ cfg.MAX_SUPPORTED_MOTORS := by
    intro st1 hrun
    cases hc : isCustomMode setup.mixerMode with
    | true =>
      have hload := loadMixer_custom cfg setup st hc
      rw [mixerUsePWMIOConfiguration_of_load cfg setup st _ _ hload] at hrun
      have hle := specCustomMotorCount_le setup.customMotorMixer cfg.MAX_SUPPORTED_MOTORS
      have hmod := Nat.mod_le
        (specCustomMotorCount setup.customMotorMixer cfg.MAX_SUPPORTED_MOTORS) 256
      have hst : st1.motorCount
          = specCustomMotorCount setup.customMotorMixer cfg.MAX_SUPPORTED_MOTORS % 256 := by
        rw [← Option.some.inj hrun]
        rfl
      omega
    | false =>
      cases hf : findMixer cfg.MAX_SUPPORTED_MOTORS setup.DISABLE_UNCOMMON_MIXERS
          setup.mixerMode with
      | none =>
        unfold mixerUsePWMIOConfiguration at hrun
        rw [loadMixer_none cfg setup st hc hf] at hrun
        exact absurd hrun (by simp)
      | some m =>
        obtain ⟨table, _, _, hload⟩ := loadMixer_catalog cfg setup st m hc hf
        rw [mixerUsePWMIOConfiguration_of_load cfg setup st _ _ hload] at hrun
        have hent := (mixerTable_entry _ _ m (findMixer_some hf).1).1
        have hmin := Nat.min_le_left m.motorCount setup.pwmMotorCount
        have hst : st1.motorCount = min m.motorCount setup.pwmMotorCount := by
          rw [← Option.some.inj hrun]
          rfl
        omega
  refine ⟨Nat.zero_le _, hall, ?_⟩
  intro hsup
  cases hc : isCustomMode setup.mixerMode with
  | true =>
    have hrun := mixerUsePWMIOConfiguration_of_load cfg setup st _ _
      (loadMixer_custom cfg setup st hc)
    exact ⟨_, hrun, hall _ hrun⟩
  | false =>
    rcases hsup with h | h
    · rw [hc] at h
      exact absurd h (by simp)
    · cases hf : findMixer cfg.MAX_SUPPORTED_MOTORS setup.DISABLE_UNCOMMON_MIXERS
          setup.mixerMode with
      | none => exact absurd hf h
      | some m =>
        obtain ⟨table, _, _, hload⟩ := loadMixer_catalog cfg setup st m hc hf
        have hrun := mixerUsePWMIOConfiguration_of_load cfg setup st _ _ hload
        exact ⟨_, hrun, hall _ hrun⟩

/-- Witness for C19: Quad X requested with eight output channels on a build with four
motor slots. -/
theorem motorCount_le_MAX_SUPPORTED_MOTORS_witness :
    ∃ st1, mixerUsePWMIOConfiguration { defaultConfig with MAX_SUPPORTED_MOTORS := 4 }
        quadXSetup initialState = some st1 ∧ st1.motorCount ≤ 4 :=
  (motorCount_le_MAX_SUPPORTED_MOTORS { defaultConfig with MAX_SUPPORTED_MOTORS := 4 }
    quadXSetup initialState (by decide)).2.2 (Or.inr (by decide))

theorem State.ext_fields {a b : State} (h1 : a.motorCount = b.motorCount)
    (h2 : a.currentMixer = b.currentMixer) (h3 : a.motor = b.motor)
    (h4 : a.motor_disarmed = b.motor_disarmed)
    (h5 : a.motorLimitReached = b.motorLimitReached)
    (h6 : a.throttlePrevious = b.throttlePrevious) : a = b := by
  cases a
  cases b
  simp only [State.mk.injEq]
  exact ⟨h1, h2, h3, h4, h5, h6⟩

theorem loadMixer_shape (cfg : Config) (setup : MixerSetup) :
    (∀ st, loadMixer cfg setup st = none) ∨
    ∃ (w mc : Nat) (src : Nat → motorMixer_t), mc ≤ w ∧
      ∀ st, loadMixer cfg setup st
        = some (fun j => if j < w then src j else st.currentMixer j, mc) := by
  cases hc : isCustomMode setup.mixerMode with
  | true =>
    right
    exact ⟨specCustomMotorCount setup.customMotorMixer cfg.MAX_SUPPORTED_MOTORS,
      specCustomMotorCount setup.customMotorMixer cfg.MAX_SUPPORTED_MOTORS % 256,
      setup.customMotorMixer, Nat.mod_le _ _, fun st => loadMixer_custom cfg setup st hc⟩
  | false =>
    cases hf : findMixer cfg.MAX_SUPPORTED_MOTORS setup.DISABLE_UNCOMMON_MIXERS
        setup.mixerMode with
    | none => exact Or.inl (fun st => loadMixer_none cfg setup st hc hf)
    | some m =>
      right
      obtain ⟨table, hmot, _, _⟩ := loadMixer_catalog cfg setup initialState m hc hf
      refine ⟨min m.motorCount setup.pwmMotorCount, min m.motorCount setup.pwmMotorCount,
        fun j => table.getD j zeroRow, le_refl _, ?_⟩
      intro st
      obtain ⟨table2, hmot2, _, hload⟩ := loadMixer_catalog cfg setup st m hc hf
      have : table2 = table := Option.some.inj (hmot2.symm.trans hmot)
      rw [this] at hload
      exact hload

theorem mixerUsePWMIOConfiguration_fixed (cfg : Config) (setup : MixerSetup) (st st1 : State)
    (h : mixerUsePWMIOConfiguration cfg setup st = some st1) :
    mixerUsePWMIOConfiguration cfg setup st1 = some st1 := by
  rcases loadMixer_shape cfg setup with hnone | ⟨w, mc, src, hle, hload⟩
  · unfold mixerUsePWMIOConfiguration at h
    rw [hnone st] at h
    exact absurd h (by simp)
  · rw [mixerUsePWMIOConfiguration_of_load cfg setup st _ _ (hload st)] at h
    rw [mixerUsePWMIOConfiguration_of_load cfg setup st1 _ _ (hload st1)]
    have hst := Option.some.inj h
    congr 1
    rw [← hst]
    apply State.ext_fields
    · rfl
    · funext j
      show scale3D cfg mc _ j = scale3D cfg mc _ j
      rw [scale3D_apply, scale3D_apply]
      by_cases hj : j < w
      · simp only [hj, if_true]
      · have hj2 : ¬ j < mc := by omega
        simp only [hj, hj2, and_false, if_false]
        show scale3D cfg mc _ j = _
        rw [scale3D_apply]
        simp only [hj, hj2, and_false, if_false]
    · rfl
    · funext j
      simp only [mixerResetDisarmedMotors]
      rw [forLoop_const_apply, forLoop_const_apply]
      split_ifs <;> rfl
    · rfl
    · rfl

/-- C16: `mixerUsePWMIOConfiguration` is idempotent.  For every prior state and every
configuration, a second run with the same configuration ends in the state of the
first run: `motorCount`, the whole active table and the disarmed array are
identical, so the 3D halving is not applied twice.  The rebuild completes for every
custom mode and every mode with a catalog entry. -/
theorem mixerUsePWMIOConfiguration_idempotent (cfg : Config) (setup : MixerSetup)
    (st : State) :
    (mixerUsePWMIOConfiguration cfg setup st).bind (mixerUsePWMIOConfiguration cfg setup)
      = mixerUsePWMIOConfiguration cfg setup st ∧
    ((isCustomMode setup.mixerMode = true ∨
        findMixer cfg.MAX_SUPPORTED_MOTORS setup.DISABLE_UNCOMMON_MIXERS setup.mixerMode
          ≠ none) →
      ∃ st1, mixerUsePWMIOConfiguration cfg setup st = some st1 ∧
        mixerUsePWMIOConfiguration cfg setup st1 = some st1) := by
  constructor
  · cases h : mixerUsePWMIOConfiguration cfg setup st with
    | none => rfl
    | some st1 => exact mixerUsePWMIOConfiguration_fixed cfg setup st st1 h
  · intro hsup
    rcases loadMixer_shape cfg setup with hnone | ⟨w, mc, src, hle, hload⟩
    · exfalso
      cases hc : isCustomMode setup.mixerMode with
      | true =>
        have := loadMixer_custom cfg setup st hc
        rw [hnone st] at this
        exact absurd this (by simp)
      | false =>
        rcases hsup with h | h
        · rw [hc] at h
          exact absurd h (by simp)
        · cases hf : findMixer cfg.MAX_SUPPORTED_MOTORS setup.DISABLE_UNCOMMON_MIXERS
              setup.mixerMode with
          | none => exact h hf
          | some m =>
            obtain ⟨_, _, _, hl⟩ := loadMixer_catalog cfg setup st m hc hf
            rw [hnone st] at hl
            exact absurd hl (by simp)
    · have hrun := mixerUsePWMIOConfiguration_of_load cfg setup st _ _ (hload st)
      exact ⟨_, hrun, mixerUsePWMIOConfiguration_fixed cfg setup st _ hrun⟩

/-- Witness for C16: tricopter rebuilt twice with the 3D feature enabled. -/
theorem mixerUsePWMIOConfiguration_idempotent_witness :
    ∃ st1, mixerUsePWMIOConfiguration config3D tricopterSetup initialState = some st1 ∧
      mixerUsePWMIOConfiguration config3D tricopterSetup st1 = some st1 :=
  (mixerUsePWMIOConfiguration_idempotent config3D tricopterSetup initialState).2
    (Or.inr (by decide))

/-! ## Idempotence of the tick -/

theorem throttleBand_idem (cfg : Config) (inp : Inputs) (prev : Int) :
    throttleBand cfg inp (throttleBand cfg inp prev).throttlePrevious
      = throttleBand cfg inp prev := by
  cases h3 : cfg.feature3D with
  | false => simp [throttleBand, h3]
  | true =>
    by_cases h1 : inp.rcCommandThrottle ≤ cfg.midrc - cfg.deadband3d_throttle
    · simp [throttleBand, h3, h1]
    · by_cases h2 : inp.rcCommandThrottle ≥ cfg.midrc + cfg.deadband3d_throttle
      · simp [throttleBand, h3, h1, h2]
      · cases ha : inp.armed with
        | false =>
          by_cases hm : toInt16 cfg.midrc ≤ cfg.midrc - cfg.deadband3d_throttle
          · simp [throttleBand, h3, h1, h2, ha, hm]
          · simp [throttleBand, h3, h1, h2, ha, hm]
        | true =>
          by_cases hp : prev ≤ cfg.midrc - cfg.deadband3d_throttle
          · simp [throttleBand, h3, h1, h2, ha, hp]
          · simp [throttleBand, h3, h1, h2, ha, hp]

/-- C17: `mixTable` is idempotent under repeated identical inputs.  For every engine
state and every input vector, a second tick with the same inputs yields the same motor
commands, the same saturation flag and the same hysteresis value as the first tick
(the whole state is the same), although the first tick may have changed the
hysteresis value. -/
theorem mixTable_idempotent (cfg : Config) (inp : Inputs) (st : State) :
    mixTable cfg inp (mixTable cfg inp st) = mixTable cfg inp st := by
  have hband : mixTableBand cfg inp (mixTable cfg inp st) = mixTableBand cfg inp st :=
    throttleBand_idem cfg inp st.throttlePrevious
  have hrpy : mixTableRpy cfg inp (mixTable cfg inp st) = mixTableRpy cfg inp st := rfl
  have hrange : mixTableRpyMixRange cfg inp (mixTable cfg inp st)
      = mixTableRpyMixRange cfg inp st := rfl
  have hthr : mixTableThrottleRange cfg inp (mixTable cfg inp st)
      = mixTableThrottleRange cfg inp st := by
    unfold mixTableThrottleRange
    rw [hband]
  have hhead : mixTableHeadroom cfg inp (mixTable cfg inp st)
      = mixTableHeadroom cfg inp st := by
    unfold mixTableHeadroom
    rw [hband, hrpy, hrange, hthr]
    rfl
  apply State.ext_fields
  · rfl
  · rfl
  · funext j
    show (mixTable cfg inp (mixTable cfg inp st)).motor j = (mixTable cfg inp st).motor j
    cases ha : inp.armed with
    | true =>
      by_cases hj : j < st.motorCount
      · have hj2 : j < (mixTable cfg inp st).motorCount := hj
        rw [mixTable_motor_armed cfg inp _ j ha hj2, mixTable_motor_armed cfg inp st j ha hj,
          hband, hhead]
        rfl
      · simp only [mixTable, ha, if_true]
        rw [forLoop_const_apply, forLoop_const_apply]
        have hj3 : ¬ j < st.motorCount := hj
        simp only [hj3, if_false]
    | false =>
      by_cases hj : j < st.motorCount
      · have hj2 : j < (mixTable cfg inp st).motorCount := hj
        rw [mixTable_motor_disarmed cfg inp _ j ha hj2, mixTable_motor_disarmed cfg inp st j ha hj]
        rfl
      · simp only [mixTable, ha]
        rw [if_neg (by simp), if_neg (by simp), forLoop_const_apply]
        have hj3 : ¬ j < st.motorCount := hj
        simp only [hj3, if_false]
  · rfl
  · show (mixTableHeadroom cfg inp (mixTable cfg inp st)).motorLimitReached
      = (mixTableHeadroom cfg inp st).motorLimitReached
    rw [hhead]
  · show (mixTableBand cfg inp (mixTable cfg inp st)).throttlePrevious
      = (mixTableBand cfg inp st).throttlePrevious
    rw [hband]

/-! ## Division in the scale-down -/

/-- C18, evaluation with `maxthrottle` below `minthrottle` and no axis demand:
`throttleRange` is -700 and `rpyMixRange` is 0, the branch condition
`rpyMixRange > throttleRange` of line 490 holds, the saturation flag is set and the
division of line 492 is executed with divisor 0. -/
theorem mixTable_scale_down_zero_divisor :
    mixTableThrottleRange reversedThrottleConfig idleInputs quadXState = -700 ∧
    mixTableRpyMixRange reversedThrottleConfig idleInputs quadXState = 0 ∧
    scaleDownPerformed reversedThrottleConfig idleInputs quadXState = true ∧
    mixReductionDivisor reversedThrottleConfig idleInputs quadXState = 0 ∧
    mixerIsOutputSaturated (mixTable reversedThrottleConfig idleInputs quadXState) = true := by
  decide!

/-! ## 3D gain halving -/

theorem ilog2_unique {q : ℚ} (hq : q ≠ 0) (a : Int) (h1 : (2 : ℚ) ^ a ≤ |q|)
    (h2 : |q| < (2 : ℚ) ^ (a + 1)) : ilog2 q = a := by
  have h3 := ilog2_le q hq
  have h4 := lt_ilog2_succ q hq
  have h5 : ilog2 q < a + 1 :=
    (zpow_lt_zpow_iff_right₀ (by norm_num : (1 : ℚ) < 2)).mp (lt_of_le_of_lt h3 h2)
  have h6 : a < ilog2 q + 1 :=
    (zpow_lt_zpow_iff_right₀ (by norm_num : (1 : ℚ) < 2)).mp (lt_of_le_of_lt h1 h4)
  omega

/-- Halving commutes with rounding as long as the half stays in the normal range. -/
theorem binary32_half {q : ℚ} (hq : 1 / 2 ^ 125 ≤ |q|) : binary32 (q / 2) = binary32 q / 2 := by
  have h0 : q ≠ 0 := by
    rintro rfl
    norm_num at hq
  have h0' : q / 2 ≠ 0 := div_ne_zero h0 (by norm_num)
  have h1 := ilog2_le q h0
  have h2 := lt_ilog2_succ q h0
  have h125 : (2 : ℚ) ^ (-125 : Int) = 1 / 2 ^ 125 := two_zpow_neg 125
  have hge : (-125 : Int) ≤ ilog2 q := ilog2_ge_of_le_abs h0 (h125 ▸ hq)
  have habs : |q / 2| = |q| / 2 := by rw [abs_div, abs_of_pos (by norm_num : (0 : ℚ) < 2)]
  have hp1 : (2 : ℚ) ^ (ilog2 q - 1) = (2 : ℚ) ^ ilog2 q / 2 := by
    rw [zpow_sub₀ (by norm_num : (2 : ℚ) ≠ 0), zpow_one]
  have hp2 : (2 : ℚ) ^ (ilog2 q - 1 + 1) = (2 : ℚ) ^ (ilog2 q + 1) / 2 := by
    rw [sub_add_cancel, zpow_add₀ (by norm_num : (2 : ℚ) ≠ 0), zpow_one]
    ring
  have he : ilog2 (q / 2) = ilog2 q - 1 := by
    apply ilog2_unique h0'
    · rw [habs, hp1]
      linarith
    · rw [habs, hp2]
      linarith
  have hu : (2 : ℚ) ^ (ilog2 q - 1 - 23) = (2 : ℚ) ^ (ilog2 q - 23) / 2 := by
    have : ilog2 q - 1 - 23 = ilog2 q - 23 - 1 := by ring
    rw [this, zpow_sub₀ (by norm_num : (2 : ℚ) ≠ 0), zpow_one]
  have hpos : (0 : ℚ) < (2 : ℚ) ^ (ilog2 q - 23) := zpow_pos (by norm_num) _
  have hm1 : max (ilog2 q) (-126) = ilog2 q := max_eq_left (by omega)
  have hm2 : max (ilog2 q - 1) (-126) = ilog2 q - 1 := max_eq_left (by omega)
  unfold binary32
  rw [if_neg h0, if_neg h0']
  simp only [he, hm1, hm2, hu]
  have hz : q / 2 / ((2 : ℚ) ^ (ilog2 q - 23) / 2) = q / (2 : ℚ) ^ (ilog2 q - 23) := by
    field_simp
  rw [hz]
  ring

/-- Multiplying a single precision number by `0.5f` is exact when the number is zero
or its half is still in the normal range. -/
theorem fmul_half_of_isBinary32 {x : ℚ} (hx : IsBinary32 x) (hn : x = 0 ∨ 1 / 2 ^ 125 ≤ |x|) :
    fmul x (1 / 2) = x / 2 := by
  unfold fmul
  have hmul : x * (1 / 2) = x / 2 := by ring
  rw [hmul]
  rcases hn with h | h
  · subst h
    simp [binary32_zero]
  · rw [binary32_half h, hx.1]

/-- Multiplying a single precision number by `0.5f` loses at most `2^-150`. -/
theorem fmul_half_abs_sub_le {x : ℚ} (hx : IsBinary32 x) :
    |fmul x (1 / 2) - x / 2| ≤ 1 / 2 ^ 150 := by
  rcases le_total (1 / 2 ^ 125) |x| with h | h
  · rw [fmul_half_of_isBinary32 hx (Or.inr h)]
    simp
  · unfold fmul
    have hmul : x * (1 / 2) = x / 2 := by ring
    rw [hmul]
    apply binary32_abs_sub_le_tiny
    rw [abs_div, abs_of_pos (by norm_num : (0 : ℚ) < 2)]
    have h2 : (1 : ℚ) / 2 ^ 125 / 2 = 1 / 2 ^ 126 := by norm_num
    have h3 : |x| / 2 ≤ 1 / 2 ^ 125 / 2 := div_le_div_of_nonneg_right h (by norm_num)
    linarith

theorem mixerTable_rows_binary32 (maxMotors : Nat) (d : Bool) (m : mixer_t)
    (hm : m ∈ mixerTable maxMotors d) :
    ∀ row ∈ m.motor.getD [],
      (IsBinary32 row.roll ∧ (row.roll = 0 ∨ 1 / 2 ^ 125 ≤ |row.roll|)) ∧
      (IsBinary32 row.pitch ∧ (row.pitch = 0 ∨ 1 / 2 ^ 125 ≤ |row.pitch|)) ∧
      (IsBinary32 row.yaw ∧ (row.yaw = 0 ∨ 1 / 2 ^ 125 ≤ |row.yaw|)) := by
  have h8 : ∀ b : Bool, ∀ e ∈ mixerTable 8 b, ∀ row ∈ e.motor.getD [],
      (IsBinary32 row.roll ∧ (row.roll = 0 ∨ 1 / 2 ^ 125 ≤ |row.roll|)) ∧
      (IsBinary32 row.pitch ∧ (row.pitch = 0 ∨ 1 / 2 ^ 125 ≤ |row.pitch|)) ∧
      (IsBinary32 row.yaw ∧ (row.yaw = 0 ∨ 1 / 2 ^ 125 ≤ |row.yaw|)) := by decide!
  have h6 : ∀ b : Bool, ∀ e ∈ mixerTable 6 b, ∀ row ∈ e.motor.getD [],
      (IsBinary32 row.roll ∧ (row.roll = 0 ∨ 1 / 2 ^ 125 ≤ |row.roll|)) ∧
      (IsBinary32 row.pitch ∧ (row.pitch = 0 ∨ 1 / 2 ^ 125 ≤ |row.pitch|)) ∧
      (IsBinary32 row.yaw ∧ (row.yaw = 0 ∨ 1 / 2 ^ 125 ≤ |row.yaw|)) := by decide!
  have h0 : ∀ b : Bool, ∀ e ∈ mixerTable 0 b, ∀ row ∈ e.motor.getD [],
      (IsBinary32 row.roll ∧ (row.roll = 0 ∨ 1 / 2 ^ 125 ≤ |row.roll|)) ∧
      (IsBinary32 row.pitch ∧ (row.pitch = 0 ∨ 1 / 2 ^ 125 ≤ |row.pitch|)) ∧
      (IsBinary32 row.yaw ∧ (row.yaw = 0 ∨ 1 / 2 ^ 125 ≤ |row.yaw|)) := by decide!
  rcases mixerTable_cases maxMotors d with ⟨_, he⟩ | ⟨_, _, he⟩ | ⟨_, he⟩
  · rw [he] at hm; exact h8 d m hm
  · rw [he] at hm; exact h6 d m hm
  · rw [he] at hm; exact h0 d m hm

theorem mixerUsePWMIOConfiguration_rows (cfg : Config) (setup : MixerSetup) (st st1 : State)
    (hrun : mixerUsePWMIOConfiguration cfg setup st = some st1) (i : Nat)
    (hi : i < st1.motorCount) :
    st1.currentMixer i
        = (if cfg.feature3D = true ∧ 1 < st1.motorCount then
            halveGain (specSourceRow cfg setup i)
          else specSourceRow cfg setup i) ∧
      (isCustomMode setup.mixerMode = false →
        (IsBinary32 (specSourceRow cfg setup i).roll ∧
          ((specSourceRow cfg setup i).roll = 0 ∨
            1 / 2 ^ 125 ≤ |(specSourceRow cfg setup i).roll|)) ∧
        (IsBinary32 (specSourceRow cfg setup i).pitch ∧
          ((specSourceRow cfg setup i).pitch = 0 ∨
            1 / 2 ^ 125 ≤ |(specSourceRow cfg setup i).pitch|)) ∧
        (IsBinary32 (specSourceRow cfg setup i).yaw ∧
          ((specSourceRow cfg setup i).yaw = 0 ∨
            1 / 2 ^ 125 ≤ |(specSourceRow cfg setup i).yaw|))) := by
  cases hc : isCustomMode setup.mixerMode with
  | true =>
    have hload := loadMixer_custom cfg setup st hc
    rw [mixerUsePWMIOConfiguration_of_load cfg setup st _ _ hload] at hrun
    have hst := Option.some.inj hrun
    have hmod := Nat.mod_le
      (specCustomMotorCount setup.customMotorMixer cfg.MAX_SUPPORTED_MOTORS) 256
    have hsrc : specSourceRow cfg setup i = setup.customMotorMixer i := by
      unfold specSourceRow
      rw [if_pos hc]
    rw [hsrc]
    rw [← hst] at hi ⊢
    have hi1 : i < specCustomMotorCount setup.customMotorMixer cfg.MAX_SUPPORTED_MOTORS % 256 :=
      hi
    have hi2 : i < specCustomMotorCount setup.customMotorMixer cfg.MAX_SUPPORTED_MOTORS := by
      omega
    refine ⟨?_, fun h => absurd h (by simp)⟩
    show scale3D cfg _ _ i = _
    rw [scale3D_apply]
    simp only [hi1, hi2, and_true, if_true]
    rfl
  | false =>
    cases hf : findMixer cfg.MAX_SUPPORTED_MOTORS setup.DISABLE_UNCOMMON_MIXERS
        setup.mixerMode with
    | none =>
      unfold mixerUsePWMIOConfiguration at hrun
      rw [loadMixer_none cfg setup st hc hf] at hrun
      exact absurd hrun (by simp)
    | some m =>
      obtain ⟨table, hmot, hlen, hload⟩ := loadMixer_catalog cfg setup st m hc hf
      rw [mixerUsePWMIOConfiguration_of_load cfg setup st _ _ hload] at hrun
      have hst := Option.some.inj hrun
      have hsrc : specSourceRow cfg setup i = table.getD i zeroRow := by
        unfold specSourceRow
        simp [hc, hf, hmot]
      rw [hsrc]
      rw [← hst] at hi ⊢
      have hi1 : i < min m.motorCount setup.pwmMotorCount := hi
      have hi2 : i < table.length := by
        have := Nat.min_le_left m.motorCount setup.pwmMotorCount
        omega
      refine ⟨?_, fun _ => ?_⟩
      · show scale3D cfg _ _ i = _
        rw [scale3D_apply]
        simp only [hi1, and_true, if_true]
        rfl
      · have hmem : table.getD i zeroRow ∈ m.motor.getD [] := by
          rw [hmot, List.getD_eq_getElem?_getD, List.getElem?_eq_getElem hi2]
          exact List.getElem_mem hi2
        exact mixerTable_rows_binary32 _ _ m (findMixer_some hf).1 _ hmem

/-- C14, the claim fails for a custom slot value whose half is below the normal
range.  Custom slots 0 and 1 hold throttle 1 and the roll gains `2^-149` and
`-2^-149`, the single precision numbers of least magnitude; the rebuild with the 3D
feature loads two motors and `2^-149 * 0.5f` rounds to 0, which is not half of the
source value. -/
theorem mixerUsePWMIOConfiguration_3D_gain_subnormal_counterexample :
    config3D.feature3D = true ∧
    IsBinary32 (specSourceRow config3D tinyGainSetup 0).roll ∧
    (specSourceRow config3D tinyGainSetup 0).roll = 1 / 2 ^ 149 ∧
    (mixerUsePWMIOConfiguration config3D tinyGainSetup initialState).map
        (fun s => s.motorCount) = some 2 ∧
    (mixerUsePWMIOConfiguration config3D tinyGainSetup initialState).map
        (fun s => (s.currentMixer 0).roll) = some 0 ∧
    (specSourceRow config3D tinyGainSetup 0).roll / 2 ≠ 0 := by
  decide!

/-- C14 as amended: after `mixerUsePWMIOConfiguration` with the 3D feature enabled and
a resulting `motorCount > 1`, every active row's throttle coefficient is the source
(catalog or custom slot) value and its roll, pitch and yaw coefficients are the single
precision products of the source value and `0.5f`.  Each product is within `2^-150` of
half the source value; it is exactly half the source value when the source value is
zero or of magnitude at least `2^-125`, and for every catalog coefficient.  With
`motorCount ≤ 1` or 3D disabled the active row is the source row.  The custom slots
hold single precision numbers. -/
theorem mixerUsePWMIOConfiguration_3D_gain (cfg : Config) (setup : MixerSetup)
    (st st1 : State) (hrun : mixerUsePWMIOConfiguration cfg setup st = some st1)
    (hfloat : ∀ i, IsBinary32 (setup.customMotorMixer i).roll ∧
      IsBinary32 (setup.customMotorMixer i).pitch ∧ IsBinary32 (setup.customMotorMixer i).yaw)
    (i : Nat) (hi : i < st1.motorCount) :
    (cfg.feature3D = true ∧ 1 < st1.motorCount →
      (st1.currentMixer i).throttle = (specSourceRow cfg setup i).throttle ∧
      (st1.currentMixer i).roll = fmul (specSourceRow cfg setup i).roll (1 / 2) ∧
      (st1.currentMixer i).pitch = fmul (specSourceRow cfg setup i).pitch (1 / 2) ∧
      (st1.currentMixer i).yaw = fmul (specSourceRow cfg setup i).yaw (1 / 2) ∧
      |(st1.currentMixer i).roll - (specSourceRow cfg setup i).roll / 2| ≤ 1 / 2 ^ 150 ∧
      |(st1.currentMixer i).pitch - (specSourceRow cfg setup i).pitch / 2| ≤ 1 / 2 ^ 150 ∧
      |(st1.currentMixer i).yaw - (specSourceRow cfg setup i).yaw / 2| ≤ 1 / 2 ^ 150 ∧
      ((specSourceRow cfg setup i).roll = 0 ∨ 1 / 2 ^ 125 ≤ |(specSourceRow cfg setup i).roll| →
        (st1.currentMixer i).roll = (specSourceRow cfg setup i).roll / 2) ∧
      ((specSourceRow cfg setup i).pitch = 0 ∨
          1 / 2 ^ 125 ≤ |(specSourceRow cfg setup i).pitch| →
        (st1.currentMixer i).pitch = (specSourceRow cfg setup i).pitch / 2) ∧
      ((specSourceRow cfg setup i).yaw = 0 ∨ 1 / 2 ^ 125 ≤ |(specSourceRow cfg setup i).yaw| →
        (st1.currentMixer i).yaw = (specSourceRow cfg setup i).yaw / 2) ∧
      (isCustomMode setup.mixerMode = false →
        (st1.currentMixer i).roll = (specSourceRow cfg setup i).roll / 2 ∧
        (st1.currentMixer i).pitch = (specSourceRow cfg setup i).pitch / 2 ∧
        (st1.currentMixer i).yaw = (specSourceRow cfg setup i).yaw / 2)) ∧
    (¬ (cfg.feature3D = true ∧ 1 < st1.motorCount) →
      st1.currentMixer i = specSourceRow cfg setup i) := by
  obtain ⟨hrow, hcat⟩ := mixerUsePWMIOConfiguration_rows cfg setup st st1 hrun i hi
  have hsrc : IsBinary32 (specSourceRow cfg setup i).roll ∧
      IsBinary32 (specSourceRow cfg setup i).pitch ∧
      IsBinary32 (specSourceRow cfg setup i).yaw := by
    cases hc : isCustomMode setup.mixerMode with
    | true =>
      have : specSourceRow cfg setup i = setup.customMotorMixer i := by
        unfold specSourceRow
        rw [if_pos hc]
      rw [this]
      exact hfloat i
    | false => exact ⟨(hcat hc).1.1, (hcat hc).2.1.1, (hcat hc).2.2.1⟩
  constructor
  · intro h
    rw [hrow, if_pos h]
    refine ⟨rfl, rfl, rfl, rfl, fmul_half_abs_sub_le hsrc.1, fmul_half_abs_sub_le hsrc.2.1,
      fmul_half_abs_sub_le hsrc.2.2, fun hn => fmul_half_of_isBinary32 hsrc.1 hn,
      fun hn => fmul_half_of_isBinary32 hsrc.2.1 hn,
      fun hn => fmul_half_of_isBinary32 hsrc.2.2 hn, fun hc => ?_⟩
    exact ⟨fmul_half_of_isBinary32 hsrc.1 (hcat hc).1.2,
      fmul_half_of_isBinary32 hsrc.2.1 (hcat hc).2.1.2,
      fmul_half_of_isBinary32 hsrc.2.2 (hcat hc).2.2.2⟩
  · intro h
    rw [hrow, if_neg h]

/-- Witness for C14 as amended: the tricopter rebuilt with the 3D feature has three
motors and the pitch coefficient of its first row is half of the single precision
value of `1.333333f`. -/
theorem mixerUsePWMIOConfiguration_3D_gain_witness :
    (mixerUsePWMIOConfiguration config3D tricopterSetup initialState).map
        (fun s => (s.currentMixer 0).pitch) = some (1398101 / 2097152) := by
  cases h : mixerUsePWMIOConfiguration config3D tricopterSetup initialState with
  | none =>
    have hs : (mixerUsePWMIOConfiguration config3D tricopterSetup initialState).isSome
        = true := by decide
    rw [h] at hs
    exact absurd hs (by simp)
  | some st1 =>
    have hmc : (mixerUsePWMIOConfiguration config3D tricopterSetup initialState).map
        (fun s => s.motorCount) = some 3 := by decide
    rw [h] at hmc
    have hmc3 : st1.motorCount = 3 := by simpa using hmc
    have hw := (mixerUsePWMIOConfiguration_3D_gain config3D tricopterSetup initialState st1 h
      (fun _ => (by decide! : IsBinary32 zeroRow.roll ∧ IsBinary32 zeroRow.pitch ∧
        IsBinary32 zeroRow.yaw)) 0 (by omega)).1 ⟨rfl, by omega⟩
    have hcat := hw.2.2.2.2.2.2.2.2.2.2 rfl
    simp only [Option.map_some', Option.some.injEq]
    rw [hcat.2.1]
    decide!

/-! ## Proportional scale-down -/

theorem forLoop_rpyMixBody_rpyMix (cfg : Config) (input : AxisInput)
    (cm : Nat → motorMixer_t) (n : Nat) (j : Nat) :
    (forLoop (rpyMixBody cfg input cm) n
        { rpyMix := fun _ => 0, rpyMixMax := 0, rpyMixMin := 0 }).rpyMix j
      = if j < n then rpyMixValue cfg input (cm j) else 0 := by
  induction n with
  | zero => simp [forLoop]
  | succ n ih =>
    simp only [forLoop, rpyMixBody]
    by_cases hj : j = n
    · subst hj
      rw [Function.update_same]
      simp
    · rw [Function.update_noteq hj, ih]
      have : j < n + 1 ↔ j < n := by omega
      simp [this]

theorem foldl_max_mem (l : List Int) : ∀ init : Int,
    l.foldl max init = init ∨ l.foldl max init ∈ l := by
  induction l with
  | nil => intro init; left; rfl
  | cons a l ih =>
    intro init
    simp only [List.foldl_cons, List.mem_cons]
    rcases ih (max init a) with h | h
    · rw [h]
      rcases max_choice init a with h2 | h2
      · left; exact h2
      · right; left; exact h2
    · right; right; exact h

theorem foldl_min_mem (l : List Int) : ∀ init : Int,
    l.foldl min init = init ∨ l.foldl min init ∈ l := by
  induction l with
  | nil => intro init; left; rfl
  | cons a l ih =>
    intro init
    simp only [List.foldl_cons, List.mem_cons]
    rcases ih (min init a) with h | h
    · rw [h]
      rcases min_choice init a with h2 | h2
      · left; exact h2
      · right; left; exact h2
    · right; right; exact h

theorem le_foldl_max (l : List Int) : ∀ init : Int,
    init ≤ l.foldl max init ∧ ∀ x ∈ l, x ≤ l.foldl max init := by
  induction l with
  | nil => intro init; simp
  | cons a l ih =>
    intro init
    simp only [List.foldl_cons, List.mem_cons]
    obtain ⟨h1, h2⟩ := ih (max init a)
    refine ⟨le_trans (le_max_left _ _) h1, ?_⟩
    rintro x (rfl | hx)
    · exact le_trans (le_max_right _ _) h1
    · exact h2 x hx

theorem foldl_min_le (l : List Int) : ∀ init : Int,
    l.foldl min init ≤ init ∧ ∀ x ∈ l, l.foldl min init ≤ x := by
  induction l with
  | nil => intro init; simp
  | cons a l ih =>
    intro init
    simp only [List.foldl_cons, List.mem_cons]
    obtain ⟨h1, h2⟩ := ih (min init a)
    refine ⟨le_trans h1 (min_le_left _ _), ?_⟩
    rintro x (rfl | hx)
    · exact le_trans h1 (min_le_right _ _)
    · exact h2 x hx

theorem truncQ_mono {a b : ℚ} (h : a ≤ b) : truncQ a ≤ truncQ b := by
  unfold truncQ
  split_ifs with ha hb hb
  · exact Int.floor_le_floor h
  · exact absurd (le_trans ha h) hb
  · have h1 : ⌈a⌉ ≤ 0 := Int.ceil_le.mpr (by push_cast; exact le_of_lt (not_le.mp ha))
    have h2 : 0 ≤ ⌊b⌋ := Int.floor_nonneg.mpr hb
    omega
  · exact Int.ceil_le_ceil h

theorem truncQ_le_self {q : ℚ} (hq : 0 ≤ q) : (truncQ q : ℚ) ≤ q := by
  unfold truncQ
  rw [if_pos hq]
  exact Int.floor_le q

theorem self_le_truncQ {q : ℚ} (hq : q ≤ 0) : q ≤ (truncQ q : ℚ) := by
  unfold truncQ
  split_ifs with h0
  · have : q = 0 := le_antisymm hq h0
    subst this
    simp
  · exact Int.le_ceil q

theorem truncQ_fmul_bounds (f : ℚ) (x : Int) (hf0 : 0 ≤ f) (hf1 : f * (1 + 1 / 2 ^ 24) ≤ 1) :
    (0 ≤ x → 0 ≤ truncQ (fmul f x) ∧ truncQ (fmul f x) ≤ x ∧
      (truncQ (fmul f x) : ℚ) ≤ f * x * (1 + 1 / 2 ^ 24)) ∧
    (x ≤ 0 → x ≤ truncQ (fmul f x) ∧ truncQ (fmul f x) ≤ 0 ∧
      f * x * (1 + 1 / 2 ^ 24) ≤ (truncQ (fmul f x) : ℚ)) := by
  unfold fmul
  constructor
  · intro hx
    have qx : (0 : ℚ) ≤ (x : ℚ) := by exact_mod_cast hx
    have hq : 0 ≤ f * (x : ℚ) := mul_nonneg hf0 qx
    rcases le_total (1 / 2 ^ 126) (f * (x : ℚ)) with hn | hn
    · have h1 := binary32_nonneg hq
      have h2 := binary32_le hn
      have h3 : f * (x : ℚ) * (1 + 1 / 2 ^ 24) ≤ (x : ℚ) := by
        have := mul_le_mul_of_nonneg_right hf1 qx
        linarith
      refine ⟨le_truncQ (by push_cast; exact h1), truncQ_le (le_trans h2 h3), ?_⟩
      exact le_trans (truncQ_le_self h1) h2
    · have hz : truncQ (binary32 (f * (x : ℚ))) = 0 :=
        truncQ_eq_zero (binary32_abs_lt_one_of_tiny (by rw [abs_of_nonneg hq]; exact hn))
      rw [hz]
      refine ⟨le_refl 0, hx, ?_⟩
      push_cast
      exact mul_nonneg hq (by norm_num)
  · intro hx
    have qx : (x : ℚ) ≤ 0 := by exact_mod_cast hx
    have hq : f * (x : ℚ) ≤ 0 := mul_nonpos_of_nonneg_of_nonpos hf0 qx
    rcases le_total (f * (x : ℚ)) (-(1 / 2 ^ 126)) with hn | hn
    · have h1 := binary32_nonpos hq
      have h2 := binary32_ge_of_nonpos hn
      have h3 : (x : ℚ) ≤ f * (x : ℚ) * (1 + 1 / 2 ^ 24) := by
        have := mul_le_mul_of_nonpos_right hf1 qx
        linarith
      refine ⟨le_truncQ (le_trans h3 h2), truncQ_le (by push_cast; exact h1), ?_⟩
      exact le_trans h2 (self_le_truncQ h1)
    · have hz : truncQ (binary32 (f * (x : ℚ))) = 0 :=
        truncQ_eq_zero (binary32_abs_lt_one_of_tiny (by rw [abs_of_nonpos hq]; linarith))
      rw [hz]
      refine ⟨hx, le_refl 0, ?_⟩
      push_cast
      exact mul_nonpos_of_nonpos_of_nonneg hq (by norm_num)

theorem truncQ_fmul_isInt16 (f : ℚ) (x : Int) (hf0 : 0 ≤ f) (hf1 : f * (1 + 1 / 2 ^ 24) ≤ 1)
    (hx : IsInt16 x) : IsInt16 (truncQ (fmul f x)) := by
  obtain ⟨h1, h2⟩ := truncQ_fmul_bounds f x hf0 hf1
  unfold IsInt16 at *
  rcases le_total 0 x with h | h
  · have := h1 h
    omega
  · have := h2 h
    omega

theorem truncQ_fmul_mono (f : ℚ) (x y : Int) (hf0 : 0 ≤ f) (hx : IsInt16 x) (hy : IsInt16 y)
    (hxy : x ≤ y) : truncQ (fmul f x) ≤ truncQ (fmul f y) := by
  rcases eq_or_lt_of_le hxy with h | h
  · rw [h]
  · unfold fmul
    unfold IsInt16 at hx hy
    have hstep : (x : ℚ) + 1 ≤ (y : ℚ) := by exact_mod_cast (Int.add_one_le_iff.mpr h)
    have hax : |(x : ℚ)| ≤ 32768 := by
      rw [abs_le]
      constructor
      · exact_mod_cast (by omega : (-32768 : Int) ≤ x)
      · exact_mod_cast (by omega : x ≤ (32768 : Int))
    have hay : |(y : ℚ)| ≤ 32768 := by
      rw [abs_le]
      constructor
      · exact_mod_cast (by omega : (-32768 : Int) ≤ y)
      · exact_mod_cast (by omega : y ≤ (32768 : Int))
    have bx : f * |(x : ℚ)| ≤ f * 32768 := mul_le_mul_of_nonneg_left hax hf0
    have by' : f * |(y : ℚ)| ≤ f * 32768 := mul_le_mul_of_nonneg_left hay hf0
    rcases le_total (1 / 2 ^ 148) f with hf | hf
    · apply truncQ_mono
      have ex := binary32_abs_sub_le_add (f * (x : ℚ))
      have ey := binary32_abs_sub_le_add (f * (y : ℚ))
      rw [abs_mul, abs_of_nonneg hf0] at ex ey
      have dx : f * |(x : ℚ)| / 2 ^ 24 ≤ f * 32768 / 2 ^ 24 :=
        div_le_div_of_nonneg_right bx (by norm_num)
      have dy : f * |(y : ℚ)| / 2 ^ 24 ≤ f * 32768 / 2 ^ 24 :=
        div_le_div_of_nonneg_right by' (by norm_num)
      have hgap : f * (x : ℚ) + f ≤ f * (y : ℚ) := by
        have := mul_le_mul_of_nonneg_left hstep hf0
        linarith
      have ex2 := abs_le.mp ex
      have ey2 := abs_le.mp ey
      have hnum : (1 : ℚ) / 2 ^ 150 + 1 / 2 ^ 150 ≤ 1 / 2 ^ 148 * (1 - 2 * (32768 / 2 ^ 24)) := by
        norm_num
      nlinarith [ex2.2, ey2.1]
    · have hsm : f * 32768 ≤ 1 / 2 ^ 126 := by
        have : f * 32768 ≤ 1 / 2 ^ 148 * 32768 := mul_le_mul_of_nonneg_right hf (by norm_num)
        have h2 : (1 : ℚ) / 2 ^ 148 * 32768 ≤ 1 / 2 ^ 126 := by norm_num
        linarith
      have tx : truncQ (binary32 (f * (x : ℚ))) = 0 :=
        truncQ_eq_zero (binary32_abs_lt_one_of_tiny
          (by rw [abs_mul, abs_of_nonneg hf0]; linarith))
      have ty : truncQ (binary32 (f * (y : ℚ))) = 0 :=
        truncQ_eq_zero (binary32_abs_lt_one_of_tiny
          (by rw [abs_mul, abs_of_nonneg hf0]; linarith))
      rw [tx, ty]

theorem mixReduction_bounds (thr rng : Int) (h0 : 0 ≤ thr) (hlt : thr < rng)
    (hr : rng ≤ 32767) :
    0 ≤ fdiv thr rng ∧ fdiv thr rng < 1 ∧ fdiv thr rng * (1 + 1 / 2 ^ 24) ≤ 1 ∧
    fdiv thr rng * (rng : ℚ) ≤ (thr : ℚ) * (1 + 1 / 2 ^ 24) := by
  have q0 : (0 : ℚ) ≤ (thr : ℚ) := by exact_mod_cast h0
  have q1 : (thr : ℚ) + 1 ≤ (rng : ℚ) := by exact_mod_cast (Int.add_one_le_iff.mpr hlt)
  have q2 : (rng : ℚ) ≤ 32767 := by exact_mod_cast hr
  have qpos : (0 : ℚ) < (rng : ℚ) := by linarith
  have hq0 : (0 : ℚ) ≤ (thr : ℚ) / (rng : ℚ) := div_nonneg q0 (le_of_lt qpos)
  rcases eq_or_lt_of_le h0 with hz | hz
  · subst hz
    unfold fdiv
    simp [binary32_zero]
  · have q3 : (1 : ℚ) ≤ (thr : ℚ) := by exact_mod_cast (Int.add_one_le_iff.mpr hz)
    have hqn : (1 : ℚ) / 2 ^ 126 ≤ (thr : ℚ) / (rng : ℚ) := by
      rw [le_div_iff₀ qpos]
      have h1 : (1 : ℚ) / 2 ^ 126 * (rng : ℚ) ≤ 1 / 2 ^ 126 * 32767 :=
        mul_le_mul_of_nonneg_left q2 (by norm_num)
      have h2 : (1 : ℚ) / 2 ^ 126 * 32767 ≤ 1 := by norm_num
      linarith
    have hq1 : (thr : ℚ) / (rng : ℚ) ≤ 32766 / 32767 := by
      rw [div_le_iff₀ qpos]
      linarith
    have hle := binary32_le hqn
    have hnn := binary32_nonneg hq0
    have hup : binary32 ((thr : ℚ) / (rng : ℚ)) ≤ 32766 / 32767 * (1 + 1 / 2 ^ 24) := by
      have := mul_le_mul_of_nonneg_right hq1 (by norm_num : (0 : ℚ) ≤ 1 + 1 / 2 ^ 24)
      linarith
    have hnum : (32766 : ℚ) / 32767 * (1 + 1 / 2 ^ 24) * (1 + 1 / 2 ^ 24) ≤ 1 := by norm_num
    have hnum2 : (32766 : ℚ) / 32767 * (1 + 1 / 2 ^ 24) < 1 := by norm_num
    unfold fdiv
    refine ⟨hnn, lt_of_le_of_lt hup hnum2, ?_, ?_⟩
    · have := mul_le_mul_of_nonneg_right hup (by norm_num : (0 : ℚ) ≤ 1 + 1 / 2 ^ 24)
      linarith
    · have h1 := mul_le_mul_of_nonneg_right hle (le_of_lt qpos)
      have h2 : (thr : ℚ) / (rng : ℚ) * (1 + 1 / 2 ^ 24) * (rng : ℚ)
          = (thr : ℚ) * (1 + 1 / 2 ^ 24) := by
        field_simp
        ring
      linarith

/-- C20: in the saturation branch with `throttleRange ≥ 0`, every `rpyMix[i]` of an
active motor is multiplied by the same factor `throttleRange / rpyMixRange`, which
lies in `[0, 1)`, and truncated toward zero.  Each scaled value keeps its sign or
becomes 0, its magnitude does not grow, the order of the motors' mix values is
preserved, and the spread of the scaled values with the zero baseline included is at
most `throttleRange`. -/
theorem mixTable_saturated_scaling (cfg : Config) (inp : Inputs) (st : State)
    (hsat : mixTableThrottleRange cfg inp st < mixTableRpyMixRange cfg inp st)
    (hthr : 0 ≤ mixTableThrottleRange cfg inp st) :
    0 ≤ mixReduction cfg inp st ∧ mixReduction cfg inp st < 1 ∧
    (∀ i, i < st.motorCount →
      (mixTableHeadroom cfg inp st).rpyMix i
        = toInt16 (truncQ (fmul (mixReduction cfg inp st)
            ((mixTableRpy cfg inp st).rpyMix i))) ∧
      (0 ≤ (mixTableRpy cfg inp st).rpyMix i → 0 ≤ (mixTableHeadroom cfg inp st).rpyMix i) ∧
      ((mixTableRpy cfg inp st).rpyMix i ≤ 0 → (mixTableHeadroom cfg inp st).rpyMix i ≤ 0) ∧
      |(mixTableHeadroom cfg inp st).rpyMix i| ≤ |(mixTableRpy cfg inp st).rpyMix i|) ∧
    (∀ i j, i < st.motorCount → j < st.motorCount →
      (mixTableRpy cfg inp st).rpyMix i ≤ (mixTableRpy cfg inp st).rpyMix j →
      (mixTableHeadroom cfg inp st).rpyMix i ≤ (mixTableHeadroom cfg inp st).rpyMix j) ∧
    specScaledSpread cfg inp st ≤ mixTableThrottleRange cfg inp st := by
  -- the mix values before the scale-down
  have hR : ∀ i, i < st.motorCount → (mixTableRpy cfg inp st).rpyMix i
      = rpyMixValue cfg (mixInput cfg inp st.motorCount) (st.currentMixer i) := by
    intro i hi
    unfold mixTableRpy
    rw [forLoop_rpyMixBody_rpyMix, if_pos hi]
  have hR16 : ∀ i, i < st.motorCount → IsInt16 ((mixTableRpy cfg inp st).rpyMix i) := by
    intro i hi
    rw [hR i hi]
    exact toInt16_isInt16 _
  obtain ⟨hmaxeq, hmineq⟩ := forLoop_rpyMixBody cfg (mixInput cfg inp st.motorCount)
    st.currentMixer st.motorCount
  have hrngdef : mixTableRpyMixRange cfg inp st
      = toInt16 ((mixTableRpy cfg inp st).rpyMixMax - (mixTableRpy cfg inp st).rpyMixMin) := rfl
  have hmaxeq' : (mixTableRpy cfg inp st).rpyMixMax
      = ((List.range st.motorCount).map (fun i => rpyMixValue cfg
          (mixInput cfg inp st.motorCount) (st.currentMixer i))).foldl max 0 := hmaxeq
  have hmineq' : (mixTableRpy cfg inp st).rpyMixMin
      = ((List.range st.motorCount).map (fun i => rpyMixValue cfg
          (mixInput cfg inp st.motorCount) (st.currentMixer i))).foldl min 0 := hmineq
  have hl16 : ∀ v ∈ (List.range st.motorCount).map (fun i => rpyMixValue cfg
      (mixInput cfg inp st.motorCount) (st.currentMixer i)), IsInt16 v := by
    intro v hv
    obtain ⟨i, _, rfl⟩ := List.mem_map.mp hv
    exact toInt16_isInt16 _
  have hMle : (mixTableRpy cfg inp st).rpyMixMax ≤ 32767 := by
    rw [hmaxeq']
    rcases foldl_max_mem _ 0 with h | h
    · rw [h]; norm_num
    · exact (hl16 _ h).2
  have hmge : -32768 ≤ (mixTableRpy cfg inp st).rpyMixMin := by
    rw [hmineq']
    rcases foldl_min_mem _ 0 with h | h
    · rw [h]; norm_num
    · exact (hl16 _ h).1
  have hM0 : 0 ≤ (mixTableRpy cfg inp st).rpyMixMax := by
    rw [hmaxeq']
    exact (le_foldl_max _ 0).1
  have hm0 : (mixTableRpy cfg inp st).rpyMixMin ≤ 0 := by
    rw [hmineq']
    exact (foldl_min_le _ 0).1
  have hxM : ∀ i, i < st.motorCount →
      (mixTableRpy cfg inp st).rpyMix i ≤ (mixTableRpy cfg inp st).rpyMixMax := by
    intro i hi
    rw [hR i hi, hmaxeq']
    exact (le_foldl_max _ 0).2 _ (List.mem_map.mpr ⟨i, List.mem_range.mpr hi, rfl⟩)
  have hxm : ∀ i, i < st.motorCount →
      (mixTableRpy cfg inp st).rpyMixMin ≤ (mixTableRpy cfg inp st).rpyMix i := by
    intro i hi
    rw [hR i hi, hmineq']
    exact (foldl_min_le _ 0).2 _ (List.mem_map.mpr ⟨i, List.mem_range.mpr hi, rfl⟩)
  -- no wrap-around in `rpyMixRange`
  have hrng : mixTableRpyMixRange cfg inp st
      = (mixTableRpy cfg inp st).rpyMixMax - (mixTableRpy cfg inp st).rpyMixMin := by
    have hpos : 0 < mixTableRpyMixRange cfg inp st := lt_of_le_of_lt hthr hsat
    rw [hrngdef] at hpos ⊢
    unfold toInt16 at hpos ⊢
    omega
  have hrle : mixTableRpyMixRange cfg inp st ≤ 32767 := by
    rw [hrngdef]
    exact (toInt16_isInt16 _).2
  -- the factor
  obtain ⟨hf0, hflt, hf1, hfr⟩ := mixReduction_bounds (mixTableThrottleRange cfg inp st)
    (mixTableRpyMixRange cfg inp st) hthr hsat hrle
  have hfdef : mixReduction cfg inp st
      = fdiv (mixTableThrottleRange cfg inp st) (mixTableRpyMixRange cfg inp st) := rfl
  rw [← hfdef] at hf0 hflt hf1 hfr
  -- the scaled values
  have hH : ∀ i, i < st.motorCount → (mixTableHeadroom cfg inp st).rpyMix i
      = toInt16 (truncQ (fmul (mixReduction cfg inp st)
          ((mixTableRpy cfg inp st).rpyMix i))) := by
    intro i hi
    unfold mixTableHeadroom headroom
    rw [if_pos hsat]
    simp only
    rw [forLoop_update_apply (fun _ v => toInt16 (truncQ (fmul (fdiv
      (mixTableThrottleRange cfg inp st) (mixTableRpyMixRange cfg inp st)) v))), if_pos hi]
    rfl
  have hT : ∀ i, i < st.motorCount → (mixTableHeadroom cfg inp st).rpyMix i
      = truncQ (fmul (mixReduction cfg inp st) ((mixTableRpy cfg inp st).rpyMix i)) := by
    intro i hi
    rw [hH i hi]
    exact toInt16_eq_self (truncQ_fmul_isInt16 _ _ hf0 hf1 (hR16 i hi))
  refine ⟨hf0, hflt, ?_, ?_, ?_⟩
  · intro i hi
    obtain ⟨hb1, hb2⟩ := truncQ_fmul_bounds (mixReduction cfg inp st)
      ((mixTableRpy cfg inp st).rpyMix i) hf0 hf1
    refine ⟨hH i hi, ?_, ?_, ?_⟩
    · intro h
      rw [hT i hi]
      exact (hb1 h).1
    · intro h
      rw [hT i hi]
      exact (hb2 h).2.1
    · rw [hT i hi]
      rcases le_total 0 ((mixTableRpy cfg inp st).rpyMix i) with h | h
      · have := hb1 h
        rw [abs_of_nonneg this.1, abs_of_nonneg h]
        exact this.2.1
      · have := hb2 h
        rw [abs_of_nonpos this.2.1, abs_of_nonpos h]
        omega
  · intro i j hi hj hij
    rw [hT i hi, hT j hj]
    exact truncQ_fmul_mono _ _ _ hf0 (hR16 i hi) (hR16 j hj) hij
  · -- spread
    have qM0 : (0 : ℚ) ≤ ((mixTableRpy cfg inp st).rpyMixMax : ℚ) := by exact_mod_cast hM0
    have qm0 : ((mixTableRpy cfg inp st).rpyMixMin : ℚ) ≤ 0 := by exact_mod_cast hm0
    have he : (0 : ℚ) ≤ 1 + 1 / 2 ^ 24 := by norm_num
    have hfe : 0 ≤ mixReduction cfg inp st * (1 + 1 / 2 ^ 24) := mul_nonneg hf0 he
    have hU0 : 0 ≤ mixReduction cfg inp st * (1 + 1 / 2 ^ 24)
        * ((mixTableRpy cfg inp st).rpyMixMax : ℚ) := mul_nonneg hfe qM0
    have hL0 : mixReduction cfg inp st * (1 + 1 / 2 ^ 24)
        * ((mixTableRpy cfg inp st).rpyMixMin : ℚ) ≤ 0 :=
      mul_nonpos_of_nonneg_of_nonpos hfe qm0
    have hup : ∀ i, i < st.motorCount → ((mixTableHeadroom cfg inp st).rpyMix i : ℚ)
        ≤ mixReduction cfg inp st * (1 + 1 / 2 ^ 24)
          * ((mixTableRpy cfg inp st).rpyMixMax : ℚ) := by
      intro i hi
      obtain ⟨hb1, hb2⟩ := truncQ_fmul_bounds (mixReduction cfg inp st)
        ((mixTableRpy cfg inp st).rpyMix i) hf0 hf1
      rw [hT i hi]
      rcases le_total 0 ((mixTableRpy cfg inp st).rpyMix i) with h | h
      · have h1 := (hb1 h).2.2
        have h2 : ((mixTableRpy cfg inp st).rpyMix i : ℚ)
            ≤ ((mixTableRpy cfg inp st).rpyMixMax : ℚ) := by exact_mod_cast hxM i hi
        have h3 := mul_le_mul_of_nonneg_left h2 hfe
        linarith
      · have h1 : (truncQ (fmul (mixReduction cfg inp st)
            ((mixTableRpy cfg inp st).rpyMix i)) : ℚ) ≤ 0 := by exact_mod_cast (hb2 h).2.1
        linarith
    have hlo : ∀ i, i < st.motorCount → mixReduction cfg inp st * (1 + 1 / 2 ^ 24)
          * ((mixTableRpy cfg inp st).rpyMixMin : ℚ)
        ≤ ((mixTableHeadroom cfg inp st).rpyMix i : ℚ) := by
      intro i hi
      obtain ⟨hb1, hb2⟩ := truncQ_fmul_bounds (mixReduction cfg inp st)
        ((mixTableRpy cfg inp st).rpyMix i) hf0 hf1
      rw [hT i hi]
      rcases le_total 0 ((mixTableRpy cfg inp st).rpyMix i) with h | h
      · have h1 : (0 : ℚ) ≤ (truncQ (fmul (mixReduction cfg inp st)
            ((mixTableRpy cfg inp st).rpyMix i)) : ℚ) := by exact_mod_cast (hb1 h).1
        linarith
      · have h1 := (hb2 h).2.2
        have h2 : ((mixTableRpy cfg inp st).rpyMixMin : ℚ)
            ≤ ((mixTableRpy cfg inp st).rpyMix i : ℚ) := by exact_mod_cast hxm i hi
        have h3 := mul_le_mul_of_nonneg_left h2 hfe
        linarith
    have hSmax : ((((List.range st.motorCount).map
        (mixTableHeadroom cfg inp st).rpyMix).foldl max 0 : Int) : ℚ)
        ≤ mixReduction cfg inp st * (1 + 1 / 2 ^ 24)
          * ((mixTableRpy cfg inp st).rpyMixMax : ℚ) := by
      rcases foldl_max_mem ((List.range st.motorCount).map
        (mixTableHeadroom cfg inp st).rpyMix) 0 with h | h
      · rw [h]
        simpa using hU0
      · obtain ⟨i, hi, hv⟩ := List.mem_map.mp h
        rw [← hv]
        exact hup i (List.mem_range.mp hi)
    have hSmin : mixReduction cfg inp st * (1 + 1 / 2 ^ 24)
          * ((mixTableRpy cfg inp st).rpyMixMin : ℚ)
        ≤ ((((List.range st.motorCount).map
            (mixTableHeadroom cfg inp st).rpyMix).foldl min 0 : Int) : ℚ) := by
      rcases foldl_min_mem ((List.range st.motorCount).map
        (mixTableHeadroom cfg inp st).rpyMix) 0 with h | h
      · rw [h]
        simpa using hL0
      · obtain ⟨i, hi, hv⟩ := List.mem_map.mp h
        rw [← hv]
        exact hlo i (List.mem_range.mp hi)
    have qrng : ((mixTableRpyMixRange cfg inp st : Int) : ℚ)
        = ((mixTableRpy cfg inp st).rpyMixMax : ℚ) - ((mixTableRpy cfg inp st).rpyMixMin : ℚ) := by
      rw [hrng]
      push_cast
      ring
    have qthr0 : (0 : ℚ) ≤ (mixTableThrottleRange cfg inp st : ℚ) := by exact_mod_cast hthr
    have qthr1 : (mixTableThrottleRange cfg inp st : ℚ) ≤ 32766 := by
      have : mixTableThrottleRange cfg inp st ≤ 32766 := by omega
      exact_mod_cast this
    have hprod := mul_le_mul_of_nonneg_right hfr he
    have hspread : ((specScaledSpread cfg inp st : Int) : ℚ)
        < ((mixTableThrottleRange cfg inp st + 1 : Int) : ℚ) := by
      unfold specScaledSpread
      push_cast
      have hexp : mixReduction cfg inp st * (1 + 1 / 2 ^ 24)
            * ((mixTableRpy cfg inp st).rpyMixMax : ℚ)
          - mixReduction cfg inp st * (1 + 1 / 2 ^ 24)
            * ((mixTableRpy cfg inp st).rpyMixMin : ℚ)
          = mixReduction cfg inp st * ((mixTableRpyMixRange cfg inp st : Int) : ℚ)
            * (1 + 1 / 2 ^ 24) := by
        rw [qrng]
        ring
      have hsmall : (mixTableThrottleRange cfg inp st : ℚ) * (1 + 1 / 2 ^ 24)
          * (1 + 1 / 2 ^ 24) < (mixTableThrottleRange cfg inp st : ℚ) + 1 := by
        nlinarith
      linarith
    have := Int.cast_lt.mp hspread
    omega

/-- Witness for C20: the saturating demand on the default Quad X (`rpyMixRange` 2000,
`throttleRange` 700) is scaled by a factor below 1 and the scaled spread fits the
throttle range. -/
theorem mixTable_saturated_scaling_witness :
    mixReduction defaultConfig saturatingInputs quadXState < 1 ∧
    specScaledSpread defaultConfig saturatingInputs quadXState
      ≤ mixTableThrottleRange defaultConfig saturatingInputs quadXState :=
  ⟨(mixTable_saturated_scaling defaultConfig saturatingInputs quadXState (by decide!)
      (by decide!)).2.1,
   (mixTable_saturated_scaling defaultConfig saturatingInputs quadXState (by decide!)
      (by decide!)).2.2.2.2⟩

/-! ## Preset load and rebuild -/

theorem findMixerByValue_mem {value : mixerMode_e → Int} {maxMotors : Nat} {d : Bool}
    {v : Int} {m : mixer_t} (h : findMixerByValue value maxMotors d v = some m) :
    m ∈ mixerTable maxMotors d := by
  unfold findMixerByValue at h
  exact List.mem_of_find?_eq_some h

theorem mixerTable_tables (maxMotors : Nat) (d : Bool) (m : mixer_t)
    (hm : m ∈ mixerTable maxMotors d) (table : List motorMixer_t)
    (ht : m.motor = some table) :
    table.length = m.motorCount ∧ ∀ row ∈ table, row.throttle ≠ 0 := by
  have h8 : ∀ b : Bool, ∀ e ∈ mixerTable 8 b,
      (e.motor.map List.length).getD e.motorCount = e.motorCount ∧
        ∀ row ∈ e.motor.getD [], row.throttle ≠ 0 := by decide!
  have h6 : ∀ b : Bool, ∀ e ∈ mixerTable 6 b,
      (e.motor.map List.length).getD e.motorCount = e.motorCount ∧
        ∀ row ∈ e.motor.getD [], row.throttle ≠ 0 := by decide!
  have h0 : ∀ b : Bool, ∀ e ∈ mixerTable 0 b,
      (e.motor.map List.length).getD e.motorCount = e.motorCount ∧
        ∀ row ∈ e.motor.getD [], row.throttle ≠ 0 := by decide!
  have hall : (m.motor.map List.length).getD m.motorCount = m.motorCount ∧
      ∀ row ∈ m.motor.getD [], row.throttle ≠ 0 := by
    rcases mixerTable_cases maxMotors d with ⟨_, he⟩ | ⟨_, _, he⟩ | ⟨_, he⟩
    · rw [he] at hm; exact h8 d m hm
    · rw [he] at hm; exact h6 d m hm
    · rw [he] at hm; exact h0 d m hm
  rw [ht] at hall
  exact ⟨by simpa using hall.1, by simpa using hall.2⟩

theorem firstZeroThrottle_eq (custom : Nat → motorMixer_t) (n : Nat) :
    ∀ i k : Nat, i ≤ k → k ≤ i + n → (∀ j, i ≤ j → j < k → (custom j).throttle ≠ 0) →
      (k < i + n → (custom k).throttle = 0) → firstZeroThrottle custom i n = k := by
  induction n with
  | zero =>
    intro i k h1 h2 _ _
    have : firstZeroThrottle custom i 0 = i := by simp [firstZeroThrottle]
    omega
  | succ n ih =>
    intro i k h1 h2 hne hz
    by_cases hik : i = k
    · subst hik
      exact firstZeroThrottle_succ_of_eq custom i n (hz (by omega))
    · rw [firstZeroThrottle_succ_of_ne custom i n (hne i (le_refl i) (by omega))]
      exact ih (i + 1) k (by omega) (by omega) (fun j hj1 hj2 => hne j (by omega) hj2)
        (fun h => hz (by omega))

theorem clearedSlots_apply (maxMotors : Nat) (slots : Nat → motorMixer_t) (j : Nat) :
    forLoop (fun i a => Function.update a i (clearThrottle (a i))) maxMotors slots j
      = if j < maxMotors then clearThrottle (slots j) else slots j :=
  forLoop_update_apply (fun _ row => clearThrottle row) maxMotors slots j

theorem getD_eq_getElem_of_lt (table : List motorMixer_t) (i : Nat) (hi : i < table.length) :
    table.getD i zeroRow = table[i] := by
  rw [List.getD_eq_getElem?_getD, List.getElem?_eq_getElem hi]
  rfl

theorem rebuild_custom_of_count (cfg : Config) (setup : MixerSetup) (st : State) (k : Nat)
    (hmode : setup.mixerMode = MIXER_CUSTOM) (h3d : cfg.feature3D = false)
    (hk : specCustomMotorCount setup.customMotorMixer cfg.MAX_SUPPORTED_MOTORS = k)
    (hk255 : k ≤ 255) :
    ∃ st1, mixerUsePWMIOConfiguration cfg setup st = some st1 ∧ st1.motorCount = k ∧
      ∀ i, i < k → st1.currentMixer i = setup.customMotorMixer i := by
  have hc : isCustomMode setup.mixerMode = true := by rw [hmode]; rfl
  have hload := loadMixer_custom cfg setup st hc
  rw [hk, Nat.mod_eq_of_lt (by omega : k < 256)] at hload
  refine ⟨_, mixerUsePWMIOConfiguration_of_load cfg setup st _ _ hload, rfl, ?_⟩
  intro i hi
  show scale3D cfg _ _ i = _
  rw [scale3D_apply]
  simp [h3d, hi]

/-- C21: loading a preset into the custom slots and rebuilding in custom mode
reproduces the preset.  For every index such that `findMixer(index + 1)` is a catalog
entry, `mixerLoadMix(index, slots)` completes on arbitrary prior slot contents, and a
`mixerUsePWMIOConfiguration` in `MIXER_CUSTOM` mode with 3D disabled reading the
loaded slots yields, for an entry with a coefficient table, `motorCount` equal to the
entry's `motorCount` and active rows equal to the entry's rows in order, and for an
entry without a table `motorCount` 0.  Every catalog row has a non-zero throttle
coefficient, and after the load every slot that was not copied has throttle 0.
`MAX_SUPPORTED_MOTORS` is at least 4 and fits the `uint8_t` counter. -/
theorem mixerLoadMix_rebuild_roundtrip (cfg : Config) (setup : MixerSetup)
    (mixerModeValue : mixerMode_e → Int) (index : Int) (slots : Nat → motorMixer_t)
    (st : State) (m : mixer_t)
    (h4 : 4 ≤ cfg.MAX_SUPPORTED_MOTORS) (h255 : cfg.MAX_SUPPORTED_MOTORS ≤ 255)
    (h3d : cfg.feature3D = false) (hmode : setup.mixerMode = MIXER_CUSTOM)
    (hfind : findMixerByValue mixerModeValue cfg.MAX_SUPPORTED_MOTORS
      setup.DISABLE_UNCOMMON_MIXERS (index + 1) = some m) :
    ∃ (slots1 : Nat → motorMixer_t) (st1 : State),
      mixerLoadMix cfg setup.DISABLE_UNCOMMON_MIXERS mixerModeValue index slots
        = some slots1 ∧
      mixerUsePWMIOConfiguration cfg { setup with customMotorMixer := slots1 } st
        = some st1 ∧
      (∀ table, m.motor = some table →
        st1.motorCount = m.motorCount ∧
        (∀ i, i < m.motorCount → table[i]? = some (st1.currentMixer i)) ∧
        (∀ row ∈ table, row.throttle ≠ 0) ∧
        (∀ i, m.motorCount ≤ i → i < cfg.MAX_SUPPORTED_MOTORS → (slots1 i).throttle = 0)) ∧
      (m.motor = none →
        st1.motorCount = 0 ∧
        (∀ i, i < cfg.MAX_SUPPORTED_MOTORS → (slots1 i).throttle = 0)) := by
  have hmem := findMixerByValue_mem hfind
  have hclr : ∀ j, forLoop (fun i a => Function.update a i (clearThrottle (a i)))
      cfg.MAX_SUPPORTED_MOTORS slots j
      = if j < cfg.MAX_SUPPORTED_MOTORS then clearThrottle (slots j) else slots j :=
    clearedSlots_apply cfg.MAX_SUPPORTED_MOTORS slots
  have hload : mixerLoadMix cfg setup.DISABLE_UNCOMMON_MIXERS mixerModeValue index slots
      = match m.motor with
        | none =>
          some (forLoop (fun i a => Function.update a i (clearThrottle (a i)))
            cfg.MAX_SUPPORTED_MOTORS slots)
        | some table =>
          some (forLoop (fun i a => Function.update a i (table.getD i zeroRow)) m.motorCount
            (forLoop (fun i a => Function.update a i (clearThrottle (a i)))
              cfg.MAX_SUPPORTED_MOTORS slots)) := by
    unfold mixerLoadMix
    simp only [hfind]
  generalize forLoop (fun i a => Function.update a i (clearThrottle (a i)))
    cfg.MAX_SUPPORTED_MOTORS slots = cleared at hclr hload
  have hzero : ∀ i, i < cfg.MAX_SUPPORTED_MOTORS → (cleared i).throttle = 0 := by
    intro i hi
    rw [hclr, if_pos hi]
    rfl
  cases hmot : m.motor with
  | none =>
    rw [hmot] at hload
    have hcount : specCustomMotorCount cleared cfg.MAX_SUPPORTED_MOTORS = 0 := by
      rw [specCustomMotorCount_eq]
      exact firstZeroThrottle_eq _ _ 0 0 (le_refl 0) (Nat.zero_le _)
        (fun j _ hj => absurd hj (Nat.not_lt_zero j)) (fun _ => hzero 0 (by omega))
    obtain ⟨st1, hrun, hmc, _⟩ := rebuild_custom_of_count cfg
      { setup with customMotorMixer := cleared } st 0 hmode h3d hcount (by omega)
    exact ⟨cleared, st1, hload, hrun, fun table h => absurd h (by simp),
      fun _ => ⟨hmc, hzero⟩⟩
  | some table =>
    rw [hmot] at hload
    simp only at hload
    obtain ⟨hlen, hthr⟩ := mixerTable_tables _ _ m hmem table hmot
    have hcnt : m.motorCount ≤ cfg.MAX_SUPPORTED_MOTORS := by
      have := (mixerTable_entry _ _ m hmem).1
      omega
    have hcopy : ∀ j, forLoop (fun i a => Function.update a i (table.getD i zeroRow))
        m.motorCount cleared j
        = if j < m.motorCount then table.getD j zeroRow else cleared j :=
      forLoop_const_apply _ m.motorCount cleared
    generalize forLoop (fun i a => Function.update a i (table.getD i zeroRow))
      m.motorCount cleared = loaded at hcopy hload
    have hrow : ∀ i (hi : i < table.length), loaded i = table[i] := by
      intro i hi
      rw [hcopy, if_pos (by omega), getD_eq_getElem_of_lt table i hi]
    have hzero2 : ∀ i, m.motorCount ≤ i → i < cfg.MAX_SUPPORTED_MOTORS →
        (loaded i).throttle = 0 := by
      intro i hi1 hi2
      rw [hcopy, if_neg (by omega)]
      exact hzero i hi2
    have hcount : specCustomMotorCount loaded cfg.MAX_SUPPORTED_MOTORS = m.motorCount := by
      rw [specCustomMotorCount_eq]
      apply firstZeroThrottle_eq _ _ 0 m.motorCount (Nat.zero_le _) (by omega)
      · intro j _ hj
        have hj2 : j < table.length := by omega
        rw [hrow j hj2]
        exact hthr _ (List.getElem_mem hj2)
      · intro hk
        exact hzero2 m.motorCount (le_refl _) (by omega)
    obtain ⟨st1, hrun, hmc, hrows⟩ := rebuild_custom_of_count cfg
      { setup with customMotorMixer := loaded } st m.motorCount hmode h3d hcount (by omega)
    refine ⟨loaded, st1, hload, hrun, ?_, fun h => absurd h (by simp)⟩
    intro table2 h2
    have ht : table2 = table := (Option.some.inj h2).symm
    subst ht
    refine ⟨hmc, ?_, hthr, hzero2⟩
    intro i hi
    have hi2 : i < table2.length := by omega
    rw [hrows i hi]
    show table2[i]? = some (loaded i)
    rw [hrow i hi2]
    exact List.getElem?_eq_getElem hi2

/-- Witness for C21: the Quad X preset (index 2 with the modes numbered from 1 in
declaration order) loaded over arbitrary slots and rebuilt in custom mode gives four
motors. -/
theorem mixerLoadMix_rebuild_roundtrip_witness :
    ∃ (slots1 : Nat → motorMixer_t) (st1 : State),
      mixerLoadMix defaultConfig false mixerModeOrdinal 2 gappedCustomSlots = some slots1 ∧
      mixerUsePWMIOConfiguration defaultConfig
        { gappedCustomSetup with customMotorMixer := slots1 } initialState = some st1 ∧
      st1.motorCount = 4 := by
  obtain ⟨s, t, h1, h2, h3, -⟩ := mixerLoadMix_rebuild_roundtrip defaultConfig
    gappedCustomSetup mixerModeOrdinal 2 gappedCustomSlots initialState
    (DEF_MIXER MIXER_QUADX 4 false (some mixerQuadX)) (by decide) (by decide) rfl rfl rfl
  exact ⟨s, t, h1, h2, (h3 mixerQuadX rfl).1⟩

end Mixer
